import Mathlib

/-!
# Isocline line editor: key codes, key specs, key-binding table, editor dispatch

A shallow embedding of the key-binding part of the isocline line editor
(`keycodes.h`, `keybindings.h`, `keybinding_specs.h`, `isocline_keybindings.c`,
the dispatch part of `editline.c`, `isocline_readline.c`).

Conventions of the embedding:

* a key code (`ic_keycode_t`, `uint32_t`) is a `Nat`;
* a C string is the list of its bytes (as `Nat`) before the terminating NUL;
* a key action (`ic_key_action_t`, a C enum) is an `Int`;
* a function returning `bool` and writing an out-parameter only on success
  returns an `Option`.
-/

namespace Isocline

/-! ## C strings and libc helpers -/

/-- Bytes of a string literal (a C string without its terminating NUL). -/
def cstr (s : String) : List Nat := s.toList.map Char.toNat

/-- The libc `tolower` in the "C" locale, on an `unsigned char` value. -/
def tolower (c : Nat) : Nat := if 65 ≤ c ∧ c ≤ 90 then c + 32 else c

/-- The libc `isspace` in the "C" locale. -/
def isspace (c : Nat) : Bool := decide (c = 32 ∨ (9 ≤ c ∧ c ≤ 13))

/-- The libc `isdigit`. -/
def isdigit (c : Nat) : Bool := decide (48 ≤ c ∧ c ≤ 57)

/-- Value of a run of decimal digits. -/
def digits_value (ds : List Nat) : Nat := ds.foldl (fun acc d => acc * 10 + (d - 48)) 0

/-- The libc `strtol(nptr, &endptr, 10)` with a 64-bit `long`: skips leading white
space, reads an optional sign and a run of decimal digits. Returns the value
(clamped to the range of `long`) and the number of bytes consumed, that is
`endptr - nptr`; when there are no digits nothing is consumed and the value is 0. -/
def strtol (nptr : List Nat) : Int × Nat :=
  let s1 := nptr.dropWhile isspace
  let neg := decide (s1.head? = some 45)
  let s2 := if s1.head? = some 45 ∨ s1.head? = some 43 then s1.tail else s1
  let ds := s2.takeWhile isdigit
  if ds = [] then (0, 0)
  else
    let v : Int := if neg then - (digits_value ds : Int) else (digits_value ds : Int)
    let clamped : Int := max (-(2 ^ 63 : Int)) (min v ((2 ^ 63 : Int) - 1))
    (clamped, (nptr.length - s2.length) + ds.length)

/-- Decimal digits of `n`, most significant first, with `fuel` bounding the number
of digits (the `%u` conversion of `snprintf`). -/
def utoa_fuel : Nat → Nat → List Nat → List Nat
  | 0, _, acc => acc
  | fuel + 1, n, acc =>
    if n < 10 then (48 + n) :: acc else utoa_fuel fuel (n / 10) ((48 + n % 10) :: acc)

/-- The `%u` conversion of `snprintf` for a 32-bit unsigned value (at most 10 digits). -/
def utoa (n : Nat) : List Nat := utoa_fuel 10 n []

/-- Modelled from the spec: `ic_stricmp` (defined in `common.c`, which is not part of
the sources at hand) compares two strings case-insensitively; this is the test
`ic_stricmp(a, b) == 0`. -/
def ic_stricmp_eq (a b : List Nat) : Bool := a.map tolower == b.map tolower

/-! ## Key codes (`keycodes.h`) -/

def IC_KEY_MOD_SHIFT : Nat := 0x10000000
def IC_KEY_MOD_ALT : Nat := 0x20000000
def IC_KEY_MOD_CTRL : Nat := 0x40000000

def IC_KEY_WITH_SHIFT (x : Nat) : Nat := x ||| IC_KEY_MOD_SHIFT
def IC_KEY_WITH_ALT (x : Nat) : Nat := x ||| IC_KEY_MOD_ALT
def IC_KEY_WITH_CTRL (x : Nat) : Nat := x ||| IC_KEY_MOD_CTRL

def IC_KEY_NO_MODS (k : Nat) : Nat := k &&& 0x0FFFFFFF
def IC_KEY_MODS (k : Nat) : Nat := k &&& 0xF0000000

def IC_KEY_NONE : Nat := 0
def IC_KEY_CTRL_A : Nat := 1
def IC_KEY_CTRL_B : Nat := 2
def IC_KEY_CTRL_C : Nat := 3
def IC_KEY_CTRL_D : Nat := 4
def IC_KEY_CTRL_E : Nat := 5
def IC_KEY_CTRL_F : Nat := 6
def IC_KEY_BELL : Nat := 7
def IC_KEY_BACKSP : Nat := 8
def IC_KEY_TAB : Nat := 9
def IC_KEY_LINEFEED : Nat := 10
def IC_KEY_CTRL_K : Nat := 11
def IC_KEY_CTRL_L : Nat := 12
def IC_KEY_ENTER : Nat := 13
def IC_KEY_CTRL_N : Nat := 14
def IC_KEY_CTRL_O : Nat := 15
def IC_KEY_CTRL_P : Nat := 16
def IC_KEY_CTRL_Q : Nat := 17
def IC_KEY_CTRL_R : Nat := 18
def IC_KEY_CTRL_S : Nat := 19
def IC_KEY_CTRL_T : Nat := 20
def IC_KEY_CTRL_U : Nat := 21
def IC_KEY_CTRL_V : Nat := 22
def IC_KEY_CTRL_W : Nat := 23
def IC_KEY_CTRL_X : Nat := 24
def IC_KEY_CTRL_Y : Nat := 25
def IC_KEY_CTRL_Z : Nat := 26
def IC_KEY_ESC : Nat := 27
def IC_KEY_SPACE : Nat := 32
def IC_KEY_RUBOUT : Nat := 127
def IC_KEY_UNICODE_MAX : Nat := 0x0010FFFF

def IC_KEY_VIRT : Nat := 0x01000000
def IC_KEY_UP : Nat := IC_KEY_VIRT + 0
def IC_KEY_DOWN : Nat := IC_KEY_VIRT + 1
def IC_KEY_LEFT : Nat := IC_KEY_VIRT + 2
def IC_KEY_RIGHT : Nat := IC_KEY_VIRT + 3
def IC_KEY_HOME : Nat := IC_KEY_VIRT + 4
def IC_KEY_END : Nat := IC_KEY_VIRT + 5
def IC_KEY_DEL : Nat := IC_KEY_VIRT + 6
def IC_KEY_PAGEUP : Nat := IC_KEY_VIRT + 7
def IC_KEY_PAGEDOWN : Nat := IC_KEY_VIRT + 8
def IC_KEY_INS : Nat := IC_KEY_VIRT + 9

def IC_KEY_F1 : Nat := IC_KEY_VIRT + 11
def IC_KEY_F2 : Nat := IC_KEY_VIRT + 12
def IC_KEY_F3 : Nat := IC_KEY_VIRT + 13
def IC_KEY_F4 : Nat := IC_KEY_VIRT + 14
def IC_KEY_F5 : Nat := IC_KEY_VIRT + 15
def IC_KEY_F6 : Nat := IC_KEY_VIRT + 16
def IC_KEY_F7 : Nat := IC_KEY_VIRT + 17
def IC_KEY_F8 : Nat := IC_KEY_VIRT + 18
def IC_KEY_F9 : Nat := IC_KEY_VIRT + 19
def IC_KEY_F10 : Nat := IC_KEY_VIRT + 20
def IC_KEY_F11 : Nat := IC_KEY_VIRT + 21
def IC_KEY_F12 : Nat := IC_KEY_VIRT + 22

def IC_KEY_EVENT_BASE : Nat := 0x02000000
def IC_KEY_EVENT_RESIZE : Nat := IC_KEY_EVENT_BASE + 1
def IC_KEY_EVENT_AUTOTAB : Nat := IC_KEY_EVENT_BASE + 2
def IC_KEY_EVENT_STOP : Nat := IC_KEY_EVENT_BASE + 3

def IC_KEY_CTRL_LEFT : Nat := IC_KEY_WITH_CTRL IC_KEY_LEFT
def IC_KEY_CTRL_RIGHT : Nat := IC_KEY_WITH_CTRL IC_KEY_RIGHT
def IC_KEY_CTRL_HOME : Nat := IC_KEY_WITH_CTRL IC_KEY_HOME
def IC_KEY_CTRL_END : Nat := IC_KEY_WITH_CTRL IC_KEY_END
def IC_KEY_SHIFT_TAB : Nat := IC_KEY_WITH_SHIFT IC_KEY_TAB

/-- The helper `ic_key_char`: the key code of a `char`, `(uint8_t)c`. -/
def ic_key_char (c : Nat) : Nat := c % 256

/-! ## Key spec parsing (`isocline_keybindings.c`) -/

/-- The table `key_name_map`. -/
def key_name_map : List (List Nat × Nat) :=
  [ (cstr "tab", IC_KEY_TAB),
    (cstr "enter", IC_KEY_ENTER),
    (cstr "return", IC_KEY_ENTER),
    (cstr "linefeed", IC_KEY_LINEFEED),
    (cstr "lf", IC_KEY_LINEFEED),
    (cstr "backspace", IC_KEY_BACKSP),
    (cstr "bs", IC_KEY_BACKSP),
    (cstr "delete", IC_KEY_DEL),
    (cstr "del", IC_KEY_DEL),
    (cstr "insert", IC_KEY_INS),
    (cstr "ins", IC_KEY_INS),
    (cstr "escape", IC_KEY_ESC),
    (cstr "esc", IC_KEY_ESC),
    (cstr "space", IC_KEY_SPACE),
    (cstr "left", IC_KEY_LEFT),
    (cstr "right", IC_KEY_RIGHT),
    (cstr "up", IC_KEY_UP),
    (cstr "down", IC_KEY_DOWN),
    (cstr "home", IC_KEY_HOME),
    (cstr "end", IC_KEY_END),
    (cstr "pageup", IC_KEY_PAGEUP),
    (cstr "pgup", IC_KEY_PAGEUP),
    (cstr "pagedown", IC_KEY_PAGEDOWN),
    (cstr "pgdn", IC_KEY_PAGEDOWN),
    (cstr "f1", IC_KEY_F1),
    (cstr "f2", IC_KEY_F2),
    (cstr "f3", IC_KEY_F3),
    (cstr "f4", IC_KEY_F4),
    (cstr "f5", IC_KEY_F5),
    (cstr "f6", IC_KEY_F6),
    (cstr "f7", IC_KEY_F7),
    (cstr "f8", IC_KEY_F8),
    (cstr "f9", IC_KEY_F9),
    (cstr "f10", IC_KEY_F10),
    (cstr "f11", IC_KEY_F11),
    (cstr "f12", IC_KEY_F12) ]

/-- The F-key branch of `key_lookup_named` ("F-keys beyond explicit table"): the
token starts with `f` or `F` and `strtol` reads all of the rest as a number
in 1..24. -/
def key_lookup_fkey (token : List Nat) : Option Nat :=
  match token with
  | [] => none
  | c0 :: rest =>
    if c0 = 102 ∨ c0 = 70 then
      let r := strtol rest
      if r.2 ≠ 0 ∧ rest.drop r.2 = [] ∧ 1 ≤ r.1 ∧ r.1 ≤ 24 then
        some (IC_KEY_F1 + (r.1 - 1).toNat)
      else none
    else none

/-- The function `key_lookup_named`: first the table, then the F-keys. -/
def key_lookup_named (token : List Nat) : Option Nat :=
  match key_name_map.find? (fun e => ic_stricmp_eq token e.1) with
  | some e => some e.2
  | none => key_lookup_fkey token

/-- The local variables of `ic_parse_key_spec` that survive a token. -/
structure key_spec_state where
  ctrl : Bool
  alt : Bool
  shift : Bool
  base_set : Bool
  base_is_char : Bool
  base_char : Nat
  base_key : Nat
deriving DecidableEq, Repr

/-- The initial values of the locals of `ic_parse_key_spec`. -/
def key_spec_state_init : key_spec_state :=
  { ctrl := false, alt := false, shift := false, base_set := false,
    base_is_char := false, base_char := 0, base_key := 0 }

/-- The body run by `ic_parse_key_spec` on a completed, non-empty token; `none`
is the early `return false`. -/
def parse_token (st : key_spec_state) (raw : List Nat) : Option key_spec_state :=
  let token := raw.map tolower
  if token = cstr "ctrl" ∨ token = cstr "control" ∨ token = cstr "c" then
    some { st with ctrl := true }
  else if token = cstr "alt" ∨ token = cstr "meta" ∨ token = cstr "option" then
    some { st with alt := true }
  else if token = cstr "shift" ∨ token = cstr "s" then
    some { st with shift := true }
  else if st.base_set then none
  else if token.length = 1 then
    some { st with base_is_char := true, base_char := token.headD 0, base_set := true }
  else
    match key_lookup_named token with
    | some named => some { st with base_key := named, base_is_char := false, base_set := true }
    | none =>
      if token = cstr "newline" then
        some { st with base_key := IC_KEY_LINEFEED, base_is_char := false, base_set := true }
      else none

/-- The scanning loop of `ic_parse_key_spec` over the bytes of the spec; `token`
holds the `tok_len` bytes collected so far (the buffer `char token[32]`). The end
of the list is the terminating NUL. -/
def parse_loop : List Nat → key_spec_state → List Nat → Option key_spec_state
  | [], st, token => if token.length > 0 then parse_token st token else some st
  | ch :: p, st, token =>
    if ch = 43 ∨ ch = 45 ∨ ch = 32 ∨ ch = 9 then
      if token.length > 0 then
        match parse_token st token with
        | some st1 => parse_loop p st1 []
        | none => none
      else parse_loop p st []
    else if token.length + 1 ≥ 32 then none
    else parse_loop p st (token ++ [ch])

/-- The part of `ic_parse_key_spec` after the scanning loop: combine the base and
the modifiers into a key code. -/
def key_spec_code (st : key_spec_state) : Nat :=
  let code_ctrl : Nat × Bool :=
    if st.base_is_char then
      let ch := st.base_char % 256
      if st.ctrl then
        if 97 ≤ ch ∧ ch ≤ 122 then (IC_KEY_CTRL_A + (ch - 97), false)
        else if 65 ≤ ch ∧ ch ≤ 90 then (IC_KEY_CTRL_A + (ch - 65), false)
        else (IC_KEY_WITH_CTRL (ic_key_char ch), false)
      else (ic_key_char ch, st.ctrl)
    else (st.base_key, st.ctrl)
  let code := code_ctrl.1
  let code := if code_ctrl.2 then IC_KEY_WITH_CTRL code else code
  let code := if st.alt then IC_KEY_WITH_ALT code else code
  let code := if st.shift then IC_KEY_WITH_SHIFT code else code
  code

/-- The function `ic_parse_key_spec` on a non-NULL spec: `some key` when it returns
`true` and stores `key`, `none` when it returns `false` (nothing is stored). -/
def ic_parse_key_spec (spec : List Nat) : Option Nat :=
  match parse_loop spec key_spec_state_init [] with
  | none => none
  | some st => if st.base_set then some (key_spec_code st) else none

/-! ## Key spec formatting (`isocline_keybindings.c`) -/

/-- The output state of `ic_format_key_spec`: the flag `first` and the C string
held in `buffer` (its length is the variable `len`). -/
structure format_state where
  first : Bool
  buffer : List Nat
deriving DecidableEq, Repr

/-- The helper `append_token`: `none` when it returns `false` (the buffer is left as
it was), otherwise the new `first` and buffer contents. -/
def append_token (buflen : Nat) (fs : format_state) (token : List Nat) : Option format_state :=
  let len := fs.buffer.length
  let token_len := token.length
  let extra := if fs.first then 0 else 1
  if len + extra + token_len + 1 > buflen then none
  else
    let buffer := if !fs.first then fs.buffer ++ [43] else fs.buffer
    some { first := false, buffer := buffer ++ token }

/-- The name chosen by the `switch (base)` of `ic_format_key_spec`; `none` is the
`default` case, which leaves `base_name` NULL. -/
def format_switch_name (base : Nat) : Option (List Nat) :=
  if base = IC_KEY_TAB then some (cstr "tab")
  else if base = IC_KEY_ENTER then some (cstr "enter")
  else if base = IC_KEY_LINEFEED then some (cstr "linefeed")
  else if base = IC_KEY_BACKSP then some (cstr "backspace")
  else if base = IC_KEY_DEL then some (cstr "delete")
  else if base = IC_KEY_INS then some (cstr "insert")
  else if base = IC_KEY_ESC then some (cstr "esc")
  else if base = IC_KEY_SPACE then some (cstr "space")
  else if base = IC_KEY_LEFT then some (cstr "left")
  else if base = IC_KEY_RIGHT then some (cstr "right")
  else if base = IC_KEY_UP then some (cstr "up")
  else if base = IC_KEY_DOWN then some (cstr "down")
  else if base = IC_KEY_HOME then some (cstr "home")
  else if base = IC_KEY_END then some (cstr "end")
  else if base = IC_KEY_PAGEUP then some (cstr "pageup")
  else if base = IC_KEY_PAGEDOWN then some (cstr "pagedown")
  else none

/-- The computation of `base_name` in `ic_format_key_spec` from `implicit_ctrl` and
`base`; `none` is a `return false` (an F-key number above 24, or a base without a
name). -/
def format_base_name (implicit_ctrl : Bool) (base : Nat) : Option (List Nat) :=
  if implicit_ctrl then some [(97 + (base - IC_KEY_CTRL_A)) % 256]
  else if IC_KEY_F1 ≤ base ∧ base ≤ IC_KEY_F1 + 23 then
    let number := 1 + (base - IC_KEY_F1)
    if number > 24 then none else some (102 :: utoa number)
  else
    match format_switch_name base with
    | some n => some n
    | none =>
      if base ≤ 0x7F ∧ base ≥ 32 then some [base % 256]
      else if base = IC_KEY_NONE then some []
      else none

/-- The function `ic_format_key_spec` on a non-NULL buffer of `buflen` bytes: the
returned flag and the C string left in the buffer. -/
def ic_format_key_spec (key : Nat) (buflen : Nat) : Bool × List Nat :=
  if buflen = 0 then (false, [])
  else
    let fs0 : format_state := { first := true, buffer := [] }
    let mods := IC_KEY_MODS key
    let implicit_ctrl : Bool :=
      decide ((mods &&& IC_KEY_MOD_CTRL) = 0 ∧ key ≥ IC_KEY_CTRL_A ∧ key ≤ IC_KEY_CTRL_Z)
    let base := if implicit_ctrl then key else IC_KEY_NO_MODS key
    let r1 : Option format_state :=
      if (mods &&& IC_KEY_MOD_CTRL) ≠ 0 ∨ implicit_ctrl = true then
        append_token buflen fs0 (cstr "ctrl")
      else some fs0
    match r1 with
    | none => (false, fs0.buffer)
    | some fs1 =>
      let r2 : Option format_state :=
        if (mods &&& IC_KEY_MOD_ALT) ≠ 0 then append_token buflen fs1 (cstr "alt") else some fs1
      match r2 with
      | none => (false, fs1.buffer)
      | some fs2 =>
        let r3 : Option format_state :=
          if (mods &&& IC_KEY_MOD_SHIFT) ≠ 0 then append_token buflen fs2 (cstr "shift")
          else some fs2
        match r3 with
        | none => (false, fs2.buffer)
        | some fs3 =>
          match format_base_name implicit_ctrl base with
          | none => (false, fs3.buffer)
          | some base_name =>
            let r4 : Option format_state :=
              if base_name ≠ [] then append_token buflen fs3 base_name else some fs3
            match r4 with
            | none => (false, fs3.buffer)
            | some fs4 =>
              if fs4.first then
                match append_token buflen fs4 (cstr "none") with
                | none => (false, fs4.buffer)
                | some fs5 => (true, fs5.buffer)
              else (true, fs4.buffer)

/-- Format the key a spec parses to, in a buffer of `buflen` bytes; `none` when the
spec does not parse. -/
def format_of_spec (spec : List Nat) (buflen : Nat) : Option (Bool × List Nat) :=
  (ic_parse_key_spec spec).map (fun key => ic_format_key_spec key buflen)

/-! ## Key actions (`keybindings.h`) -/

def IC_KEY_ACTION_NONE : Int := 0
def IC_KEY_ACTION_COMPLETE : Int := 1
def IC_KEY_ACTION_HISTORY_SEARCH : Int := 2
def IC_KEY_ACTION_HISTORY_PREV : Int := 3
def IC_KEY_ACTION_HISTORY_NEXT : Int := 4
def IC_KEY_ACTION_CLEAR_SCREEN : Int := 5
def IC_KEY_ACTION_UNDO : Int := 6
def IC_KEY_ACTION_REDO : Int := 7
def IC_KEY_ACTION_SHOW_HELP : Int := 8
def IC_KEY_ACTION_CURSOR_LEFT : Int := 9
def IC_KEY_ACTION_CURSOR_RIGHT_OR_COMPLETE : Int := 10
def IC_KEY_ACTION_CURSOR_UP : Int := 11
def IC_KEY_ACTION_CURSOR_DOWN : Int := 12
def IC_KEY_ACTION_CURSOR_LINE_START : Int := 13
def IC_KEY_ACTION_CURSOR_LINE_END : Int := 14
def IC_KEY_ACTION_CURSOR_WORD_PREV : Int := 15
def IC_KEY_ACTION_CURSOR_WORD_NEXT_OR_COMPLETE : Int := 16
def IC_KEY_ACTION_CURSOR_INPUT_START : Int := 17
def IC_KEY_ACTION_CURSOR_INPUT_END : Int := 18
def IC_KEY_ACTION_CURSOR_MATCH_BRACE : Int := 19
def IC_KEY_ACTION_DELETE_BACKWARD : Int := 20
def IC_KEY_ACTION_DELETE_FORWARD : Int := 21
def IC_KEY_ACTION_DELETE_WORD_END : Int := 22
def IC_KEY_ACTION_DELETE_WORD_START_WS : Int := 23
def IC_KEY_ACTION_DELETE_WORD_START : Int := 24
def IC_KEY_ACTION_DELETE_LINE_START : Int := 25
def IC_KEY_ACTION_DELETE_LINE_END : Int := 26
def IC_KEY_ACTION_TRANSPOSE_CHARS : Int := 27
def IC_KEY_ACTION_INSERT_NEWLINE : Int := 28
def IC_KEY_ACTION__MAX : Int := 29

/-- The struct `ic_key_binding_entry_t`. -/
structure ic_key_binding_entry_t where
  key : Nat
  action : Int
deriving DecidableEq, Repr, Inhabited

/-- The table `key_action_names`. -/
def key_action_names : List (List Nat × Int) :=
  [ (cstr "none", IC_KEY_ACTION_NONE),
    (cstr "suppress", IC_KEY_ACTION_NONE),
    (cstr "complete", IC_KEY_ACTION_COMPLETE),
    (cstr "completion", IC_KEY_ACTION_COMPLETE),
    (cstr "history-search", IC_KEY_ACTION_HISTORY_SEARCH),
    (cstr "search-history", IC_KEY_ACTION_HISTORY_SEARCH),
    (cstr "history-prev", IC_KEY_ACTION_HISTORY_PREV),
    (cstr "history-up", IC_KEY_ACTION_HISTORY_PREV),
    (cstr "history-next", IC_KEY_ACTION_HISTORY_NEXT),
    (cstr "history-down", IC_KEY_ACTION_HISTORY_NEXT),
    (cstr "clear-screen", IC_KEY_ACTION_CLEAR_SCREEN),
    (cstr "cls", IC_KEY_ACTION_CLEAR_SCREEN),
    (cstr "undo", IC_KEY_ACTION_UNDO),
    (cstr "redo", IC_KEY_ACTION_REDO),
    (cstr "show-help", IC_KEY_ACTION_SHOW_HELP),
    (cstr "help", IC_KEY_ACTION_SHOW_HELP),
    (cstr "cursor-left", IC_KEY_ACTION_CURSOR_LEFT),
    (cstr "cursor-right-smart", IC_KEY_ACTION_CURSOR_RIGHT_OR_COMPLETE),
    (cstr "cursor-right", IC_KEY_ACTION_CURSOR_RIGHT_OR_COMPLETE),
    (cstr "cursor-up", IC_KEY_ACTION_CURSOR_UP),
    (cstr "cursor-down", IC_KEY_ACTION_CURSOR_DOWN),
    (cstr "cursor-line-start", IC_KEY_ACTION_CURSOR_LINE_START),
    (cstr "cursor-line-end", IC_KEY_ACTION_CURSOR_LINE_END),
    (cstr "cursor-word-prev", IC_KEY_ACTION_CURSOR_WORD_PREV),
    (cstr "cursor-word-next-smart", IC_KEY_ACTION_CURSOR_WORD_NEXT_OR_COMPLETE),
    (cstr "cursor-word-next", IC_KEY_ACTION_CURSOR_WORD_NEXT_OR_COMPLETE),
    (cstr "cursor-input-start", IC_KEY_ACTION_CURSOR_INPUT_START),
    (cstr "cursor-input-end", IC_KEY_ACTION_CURSOR_INPUT_END),
    (cstr "cursor-match-brace", IC_KEY_ACTION_CURSOR_MATCH_BRACE),
    (cstr "delete-backward", IC_KEY_ACTION_DELETE_BACKWARD),
    (cstr "backspace", IC_KEY_ACTION_DELETE_BACKWARD),
    (cstr "delete-forward", IC_KEY_ACTION_DELETE_FORWARD),
    (cstr "delete", IC_KEY_ACTION_DELETE_FORWARD),
    (cstr "delete-word-end", IC_KEY_ACTION_DELETE_WORD_END),
    (cstr "kill-word", IC_KEY_ACTION_DELETE_WORD_END),
    (cstr "delete-word-start-ws", IC_KEY_ACTION_DELETE_WORD_START_WS),
    (cstr "backward-kill-word-ws", IC_KEY_ACTION_DELETE_WORD_START_WS),
    (cstr "delete-word-start", IC_KEY_ACTION_DELETE_WORD_START),
    (cstr "backward-kill-word", IC_KEY_ACTION_DELETE_WORD_START),
    (cstr "delete-line-start", IC_KEY_ACTION_DELETE_LINE_START),
    (cstr "delete-line-end", IC_KEY_ACTION_DELETE_LINE_END),
    (cstr "transpose-chars", IC_KEY_ACTION_TRANSPOSE_CHARS),
    (cstr "swap-chars", IC_KEY_ACTION_TRANSPOSE_CHARS),
    (cstr "insert-newline", IC_KEY_ACTION_INSERT_NEWLINE),
    (cstr "newline", IC_KEY_ACTION_INSERT_NEWLINE) ]

/-- The function `ic_key_action_from_name`; `none` is a NULL name. -/
def ic_key_action_from_name (name : Option (List Nat)) : Int :=
  match name with
  | none => IC_KEY_ACTION__MAX
  | some n =>
    match key_action_names.find? (fun e => ic_stricmp_eq n e.1) with
    | some e => e.2
    | none => IC_KEY_ACTION__MAX

/-! ## Key-binding profiles (`keybinding_specs.h`, `isocline_keybindings.c`) -/

def SPEC_CURSOR_WORD_PREV : List Nat := cstr "ctrl+left|alt+b"
def SPEC_CURSOR_WORD_NEXT : List Nat := cstr "ctrl+right|alt+f"
def SPEC_INSERT_NEWLINE : List Nat := cstr "ctrl+enter|ctrl+j"
def SPEC_CURSOR_LEFT : List Nat := cstr "left|ctrl+b"
def SPEC_CURSOR_RIGHT : List Nat := cstr "right|ctrl+f"
def SPEC_CURSOR_UP : List Nat := cstr "up"
def SPEC_CURSOR_DOWN : List Nat := cstr "down"
def SPEC_CURSOR_LINE_START : List Nat := cstr "home|ctrl+a"
def SPEC_CURSOR_LINE_END : List Nat := cstr "end|ctrl+e"
def SPEC_CURSOR_INPUT_START : List Nat := cstr "ctrl+home|shift+home|pageup|alt+<"
def SPEC_CURSOR_INPUT_END : List Nat := cstr "ctrl+end|shift+end|pagedown|alt+>"
def SPEC_CURSOR_MATCH_BRACE : List Nat := cstr "alt+m"
def SPEC_HISTORY_PREV : List Nat := cstr "ctrl+p"
def SPEC_HISTORY_NEXT : List Nat := cstr "ctrl+n"
def SPEC_HISTORY_SEARCH : List Nat := cstr "ctrl+r|ctrl+s"
def SPEC_DELETE_FORWARD : List Nat := cstr "delete|ctrl+d"
def SPEC_DELETE_BACKWARD : List Nat := cstr "backspace|ctrl+h"
def SPEC_DELETE_WORD_END : List Nat := cstr "alt+d"
def SPEC_DELETE_WORD_START_WS : List Nat := cstr "ctrl+w"
def SPEC_DELETE_WORD_START : List Nat := cstr "alt+backspace|alt+delete"
def SPEC_DELETE_LINE_START : List Nat := cstr "ctrl+u"
def SPEC_DELETE_LINE_END : List Nat := cstr "ctrl+k"
def SPEC_TRANSPOSE : List Nat := cstr "ctrl+t"
def SPEC_CLEAR_SCREEN : List Nat := cstr "ctrl+l"
def SPEC_UNDO : List Nat := cstr "ctrl+z|ctrl+_"
def SPEC_REDO : List Nat := cstr "ctrl+y"
def SPEC_COMPLETE : List Nat := cstr "tab|alt+?"

/-- A pointer to a `keybinding_profile_t`: either NULL or a profile with its name,
description, parent pointer, its `specs` entries and its `bindings` entries (each an
action with a spec string). -/
inductive keybinding_profile_ptr where
  | NULL : keybinding_profile_ptr
  | profile (name : List Nat) (description : List Nat) (parent : keybinding_profile_ptr)
      (specs : List (Int × List Nat)) (bindings : List (Int × List Nat)) :
      keybinding_profile_ptr
deriving DecidableEq, Repr

def keybinding_profile_default_spec_entries : List (Int × List Nat) :=
  [ (IC_KEY_ACTION_CURSOR_LEFT, SPEC_CURSOR_LEFT),
    (IC_KEY_ACTION_CURSOR_RIGHT_OR_COMPLETE, SPEC_CURSOR_RIGHT),
    (IC_KEY_ACTION_CURSOR_UP, SPEC_CURSOR_UP),
    (IC_KEY_ACTION_CURSOR_DOWN, SPEC_CURSOR_DOWN),
    (IC_KEY_ACTION_CURSOR_WORD_PREV, SPEC_CURSOR_WORD_PREV),
    (IC_KEY_ACTION_CURSOR_WORD_NEXT_OR_COMPLETE, SPEC_CURSOR_WORD_NEXT),
    (IC_KEY_ACTION_CURSOR_LINE_START, SPEC_CURSOR_LINE_START),
    (IC_KEY_ACTION_CURSOR_LINE_END, SPEC_CURSOR_LINE_END),
    (IC_KEY_ACTION_CURSOR_INPUT_START, SPEC_CURSOR_INPUT_START),
    (IC_KEY_ACTION_CURSOR_INPUT_END, SPEC_CURSOR_INPUT_END),
    (IC_KEY_ACTION_CURSOR_MATCH_BRACE, SPEC_CURSOR_MATCH_BRACE),
    (IC_KEY_ACTION_HISTORY_PREV, SPEC_HISTORY_PREV),
    (IC_KEY_ACTION_HISTORY_NEXT, SPEC_HISTORY_NEXT),
    (IC_KEY_ACTION_HISTORY_SEARCH, SPEC_HISTORY_SEARCH),
    (IC_KEY_ACTION_DELETE_FORWARD, SPEC_DELETE_FORWARD),
    (IC_KEY_ACTION_DELETE_BACKWARD, SPEC_DELETE_BACKWARD),
    (IC_KEY_ACTION_DELETE_WORD_START_WS, SPEC_DELETE_WORD_START_WS),
    (IC_KEY_ACTION_DELETE_WORD_START, SPEC_DELETE_WORD_START),
    (IC_KEY_ACTION_DELETE_WORD_END, SPEC_DELETE_WORD_END),
    (IC_KEY_ACTION_DELETE_LINE_START, SPEC_DELETE_LINE_START),
    (IC_KEY_ACTION_DELETE_LINE_END, SPEC_DELETE_LINE_END),
    (IC_KEY_ACTION_TRANSPOSE_CHARS, SPEC_TRANSPOSE),
    (IC_KEY_ACTION_CLEAR_SCREEN, SPEC_CLEAR_SCREEN),
    (IC_KEY_ACTION_UNDO, SPEC_UNDO),
    (IC_KEY_ACTION_REDO, SPEC_REDO),
    (IC_KEY_ACTION_COMPLETE, SPEC_COMPLETE),
    (IC_KEY_ACTION_INSERT_NEWLINE, SPEC_INSERT_NEWLINE) ]

/-- The profile `keybinding_profile_default` ("emacs"): no parent, no `bindings`. -/
def keybinding_profile_default : keybinding_profile_ptr :=
  .profile (cstr "emacs") (cstr "Emacs-style bindings (default)") .NULL
    keybinding_profile_default_spec_entries []

def keybinding_profile_vim_spec_entries : List (Int × List Nat) :=
  [ (IC_KEY_ACTION_CURSOR_LEFT, SPEC_CURSOR_LEFT ++ cstr "|alt+h"),
    (IC_KEY_ACTION_CURSOR_RIGHT_OR_COMPLETE, SPEC_CURSOR_RIGHT ++ cstr "|alt+l"),
    (IC_KEY_ACTION_CURSOR_UP, SPEC_CURSOR_UP ++ cstr "|alt+k"),
    (IC_KEY_ACTION_CURSOR_DOWN, SPEC_CURSOR_DOWN ++ cstr "|alt+j"),
    (IC_KEY_ACTION_CURSOR_WORD_NEXT_OR_COMPLETE, SPEC_CURSOR_WORD_NEXT ++ cstr "|alt+w") ]

def keybinding_profile_vim_bindings : List (Int × List Nat) :=
  [ (IC_KEY_ACTION_CURSOR_LEFT, cstr "alt+h"),
    (IC_KEY_ACTION_CURSOR_RIGHT_OR_COMPLETE, cstr "alt+l"),
    (IC_KEY_ACTION_CURSOR_UP, cstr "alt+k"),
    (IC_KEY_ACTION_CURSOR_DOWN, cstr "alt+j"),
    (IC_KEY_ACTION_CURSOR_WORD_NEXT_OR_COMPLETE, cstr "alt+w") ]

/-- The profile `keybinding_profile_vim`: parent "emacs", five `bindings`. -/
def keybinding_profile_vim : keybinding_profile_ptr :=
  .profile (cstr "vim") (cstr "Vim-inspired navigation bindings (Alt+H/J/K/L, Alt+W)")
    keybinding_profile_default keybinding_profile_vim_spec_entries
    keybinding_profile_vim_bindings

/-- The array `keybinding_profiles`. -/
def keybinding_profiles : List keybinding_profile_ptr :=
  [keybinding_profile_default, keybinding_profile_vim]

/-- The `name` field behind a profile pointer. -/
def keybinding_profile_ptr.name : keybinding_profile_ptr → List Nat
  | .NULL => []
  | .profile name _ _ _ _ => name

/-- The function `keybinding_profile_lookup` on a non-NULL name; the result is NULL
when no profile has that name. -/
def keybinding_profile_lookup (name : List Nat) : keybinding_profile_ptr :=
  match keybinding_profiles.find?
      (fun p => decide (p ≠ .NULL) && ic_stricmp_eq name p.name) with
  | some p => p
  | none => .NULL

/-! ## The environment and the binding table (`isocline_keybindings.c`) -/

/-- The fields of `ic_env_t` used by the key-binding API and the editor.
`key_bindings` holds the `key_binding_count` live entries of the array,
`mem_realloc_ok n` tells whether the allocator `mem` grants a reallocation of the
array to `n` entries. -/
structure ic_env_t where
  key_bindings : List ic_key_binding_entry_t
  key_binding_capacity : Nat
  key_binding_profile : keybinding_profile_ptr
  mem_realloc_ok : Nat → Bool
  singleline_only : Bool
  multiline_eol : Nat
  /-- The flag `no_autobrace`. -/
  no_autobrace : Bool := false
  /-- The string `auto_braces`, `none` when NULL. -/
  auto_braces : Option (List Nat) := none
  /-- The string `match_braces`, `none` when NULL. -/
  match_braces : Option (List Nat) := none
  /-- The flag `no_hint`. -/
  no_hint : Bool := false
  /-- The field `hint_delay` (milliseconds). -/
  hint_delay : Int := 400
  /-- The entries of `history`, oldest first, and its duplicates flag. -/
  history : List (List Nat) := []
  history_allow_duplicates : Bool := false

/-- The field `key_binding_count`. -/
def ic_env_t.key_binding_count (env : ic_env_t) : Nat := env.key_bindings.length

/-- The key-binding state of a fresh environment (`ic_env_create`): a zeroed struct
whose profile is the default one. -/
def ic_env_create (mem_realloc_ok : Nat → Bool) : ic_env_t :=
  { key_bindings := [], key_binding_capacity := 0,
    key_binding_profile := keybinding_profile_default,
    mem_realloc_ok := mem_realloc_ok, singleline_only := false, multiline_eol := 92 }

/-- The search loop of `key_binding_find_entry`: the index of the first entry with
the given key. -/
def find_entry_index : List ic_key_binding_entry_t → Nat → Option Nat
  | [], _ => none
  | e :: es, key =>
    if e.key = key then some 0 else (find_entry_index es key).map (fun i => i + 1)

/-- The function `key_binding_find_entry`: the index of the entry found, `none` for a
NULL result. -/
def key_binding_find_entry (env : ic_env_t) (key : Nat) : Option Nat :=
  find_entry_index env.key_bindings key

/-- The loop `while (new_capacity < needed) new_capacity *= 2`, at most `fuel`
rounds. -/
def grow_capacity : Nat → Nat → Nat → Nat
  | 0, new_capacity, _ => new_capacity
  | fuel + 1, new_capacity, needed =>
    if new_capacity < needed then grow_capacity fuel (new_capacity * 2) needed
    else new_capacity

/-- The function `key_bindings_ensure_capacity`. -/
def key_bindings_ensure_capacity (env : ic_env_t) (needed : Nat) : Bool × ic_env_t :=
  if env.key_binding_capacity ≥ needed then (true, env)
  else
    let new_capacity0 := if env.key_binding_capacity = 0 then 8 else env.key_binding_capacity * 2
    let new_capacity := grow_capacity needed new_capacity0 needed
    if env.mem_realloc_ok new_capacity then
      (true, { env with key_binding_capacity := new_capacity })
    else (false, env)

/-- The function `ic_bind_key` (on an existing environment). -/
def ic_bind_key (env : ic_env_t) (key : Nat) (action : Int) : Bool × ic_env_t :=
  if action < IC_KEY_ACTION_NONE ∨ action ≥ IC_KEY_ACTION__MAX then (false, env)
  else
    match key_binding_find_entry env key with
    | some index =>
      (true, { env with key_bindings :=
        env.key_bindings.modify (fun e => { e with action := action }) index })
    | none =>
      match key_bindings_ensure_capacity env (env.key_binding_count + 1) with
      | (false, env1) => (false, env1)
      | (true, env1) =>
        (true, { env1 with key_bindings :=
          env1.key_bindings ++ [{ key := key, action := action }] })

/-- The loop `for (i = index; i < count - 1; ++i) key_bindings[i] = key_bindings[i + 1]`
of `ic_clear_key_binding`, at most `fuel` rounds. -/
def clear_shift_loop : Nat → List ic_key_binding_entry_t → Nat → List ic_key_binding_entry_t
  | 0, kb, _ => kb
  | fuel + 1, kb, i =>
    if i + 1 < kb.length then clear_shift_loop fuel (kb.set i (kb.getD (i + 1) default)) (i + 1)
    else kb

/-- The function `ic_clear_key_binding`. -/
def ic_clear_key_binding (env : ic_env_t) (key : Nat) : Bool × ic_env_t :=
  match key_binding_find_entry env key with
  | none => (false, env)
  | some index =>
    let shifted := clear_shift_loop env.key_binding_count env.key_bindings index
    let count := if env.key_binding_count > 0 then env.key_binding_count - 1
      else env.key_binding_count
    (true, { env with key_bindings := shifted.take count })

/-- The function `ic_get_key_binding`: the action stored through `out_action`, `none`
when it returns `false`. -/
def ic_get_key_binding (env : ic_env_t) (key : Nat) : Option Int :=
  match key_binding_find_entry env key with
  | none => none
  | some index => some (env.key_bindings.getD index default).action

/-- The function `ic_list_key_bindings`: the returned number and the entries copied
to the buffer (`has_buffer = false` is a NULL buffer). -/
def ic_list_key_bindings (env : ic_env_t) (has_buffer : Bool) (capacity : Nat) :
    Nat × List ic_key_binding_entry_t :=
  let count := env.key_binding_count
  if has_buffer = false ∨ capacity = 0 then (count, [])
  else
    let limit := if count < capacity then count else capacity
    (limit, env.key_bindings.take limit)

/-- The function `key_binding_clear_all`. -/
def key_binding_clear_all (env : ic_env_t) : ic_env_t := { env with key_bindings := [] }

/-- Trimming of a token in `keybinding_profile_bind_string`: first trailing, then
leading blanks and tabs. -/
def bind_string_trim (seg : List Nat) : List Nat :=
  ((seg.reverse.dropWhile (fun c => decide (c = 32 ∨ c = 9))).reverse).dropWhile
    (fun c => decide (c = 32 ∨ c = 9))

/-- The loop of `keybinding_profile_bind_string` from position `p` on, at most `fuel`
rounds (every round consumes at least one byte of `p`). -/
def bind_string_loop : Nat → ic_env_t → Int → List Nat → Bool × ic_env_t
  | 0, env, _, _ => (true, env)
  | fuel + 1, env, action, p =>
    let p1 := p.dropWhile (fun c => decide (c = 32 ∨ c = 9 ∨ c = 124))
    if p1 = [] then (true, env)
    else
      let seg := p1.takeWhile (fun c => decide (c ≠ 124))
      let p2 := p1.dropWhile (fun c => decide (c ≠ 124))
      let token := bind_string_trim seg
      if token = [] then bind_string_loop fuel env action p2
      else if token.length ≥ 64 then (false, env)
      else
        match ic_parse_key_spec token with
        | none => (false, env)
        | some key =>
          match ic_bind_key env key action with
          | (false, env1) => (false, env1)
          | (true, env1) => bind_string_loop fuel env1 action p2

/-- The function `keybinding_profile_bind_string` (non-NULL `specs`). -/
def keybinding_profile_bind_string (env : ic_env_t) (action : Int) (specs : List Nat) :
    Bool × ic_env_t :=
  bind_string_loop (specs.length + 1) env action specs

/-- The `for` loop of `keybinding_profile_apply_recursive` over the `bindings`. -/
def apply_bindings : ic_env_t → List (Int × List Nat) → Bool × ic_env_t
  | env, [] => (true, env)
  | env, b :: bs =>
    match keybinding_profile_bind_string env b.1 b.2 with
    | (false, env1) => (false, env1)
    | (true, env1) => apply_bindings env1 bs

/-- The function `keybinding_profile_apply_recursive` (also `ic_keybinding_apply_profile`):
parent first, then the profile's own `bindings`. -/
def keybinding_profile_apply_recursive : ic_env_t → keybinding_profile_ptr → Bool × ic_env_t
  | env, .NULL => (true, env)
  | env, .profile _ _ parent _ bindings =>
    match keybinding_profile_apply_recursive env parent with
    | (false, env1) => (false, env1)
    | (true, env1) => apply_bindings env1 bindings

/-- The function `ic_reset_key_bindings`. -/
def ic_reset_key_bindings (env : ic_env_t) : ic_env_t :=
  let env1 := key_binding_clear_all env
  if env1.key_binding_profile ≠ .NULL then
    (keybinding_profile_apply_recursive env1 env1.key_binding_profile).2
  else env1

/-- The function `ic_set_key_binding_profile`; `none` is a NULL name. -/
def ic_set_key_binding_profile (env : ic_env_t) (name : Option (List Nat)) : Bool × ic_env_t :=
  let profile := match name with
    | none => keybinding_profile_default
    | some n => keybinding_profile_lookup n
  if profile = .NULL then (false, env)
  else if env.key_binding_profile = profile then
    keybinding_profile_apply_recursive (key_binding_clear_all env) profile
  else
    let previous := if env.key_binding_profile ≠ .NULL then env.key_binding_profile
      else keybinding_profile_default
    let env1 := key_binding_clear_all { env with key_binding_profile := profile }
    match keybinding_profile_apply_recursive env1 profile with
    | (true, env2) => (true, env2)
    | (false, env2) =>
      let env3 := key_binding_clear_all { env2 with key_binding_profile := previous }
      (false, (keybinding_profile_apply_recursive env3 env3.key_binding_profile).2)

/-- The function `ic_bind_key_named`; `none` is a NULL argument. -/
def ic_bind_key_named (env : ic_env_t) (key_spec : Option (List Nat))
    (action_name : Option (List Nat)) : Bool × ic_env_t :=
  match key_spec, action_name with
  | some spec, some name =>
    match ic_parse_key_spec spec with
    | none => (false, env)
    | some key =>
      let action := ic_key_action_from_name (some name)
      if action = IC_KEY_ACTION__MAX then (false, env)
      else ic_bind_key env key action
  | _, _ => (false, env)

/-! ## Editor dispatch (`editline.c`, `isocline_readline.c`) -/

/-- The editing operations the editor loop can call on a key (the `edit_*` functions
of `editline.c`); `nop` stands for a branch that calls none, `ignore` for the final
"ignore code" branch. -/
inductive edit_op where
  | nop
  | edit_generate_completions (autotab : Bool)
  | edit_history_search_with_current_word
  | edit_history_prev
  | edit_history_next
  | edit_clear_screen
  | edit_undo_restore
  | edit_redo_restore
  | edit_show_help
  | edit_cursor_left
  | edit_cursor_right
  | edit_cursor_row_up
  | edit_cursor_row_down
  | edit_cursor_line_start
  | edit_cursor_line_end
  | edit_cursor_prev_word
  | edit_cursor_next_word
  | edit_cursor_to_start
  | edit_cursor_to_end
  | edit_cursor_match_brace
  | edit_backspace
  | edit_delete_char
  | edit_delete_to_end_of_word
  | edit_delete_to_start_of_ws_word
  | edit_delete_to_start_of_word
  | edit_delete_to_start_of_line
  | edit_delete_to_end_of_line
  | edit_swap_char
  | edit_insert_char (c : Nat)
  | edit_insert_unicode (u : Nat)
  | edit_multiline_eol
  | edit_delete_all
  | edit_resize
  | ignore
deriving DecidableEq, Repr

/-- The fields of `editor_t` that hold the text being edited: the input bytes and the
cursor, the buffers shown with them, and the undo state. The fields used only for
rendering (attributes, row counts, terminal width, prompt) are left out. -/
structure editor_t where
  input : List Nat
  pos : Nat
  /-- The buffer `extra` (shown below the input). -/
  extra : List Nat := []
  /-- The buffers `hint` and `hint_help`. -/
  hint : List Nat := []
  hint_help : List Nat := []
  /-- The flags `modified` and `disable_undo`. -/
  modified : Bool := false
  disable_undo : Bool := false
  /-- The stacks `undo` and `redo`: snapshots `(input, pos)`, the newest first. -/
  undo : List (List Nat × Nat) := []
  redo : List (List Nat × Nat) := []
deriving DecidableEq, Repr

/-- The helper `editor_pos_is_at_end`. -/
def editor_pos_is_at_end (eb : editor_t) : Bool := decide (eb.pos = eb.input.length)

/-- The function `key_action_execute`: the operation it runs when it returns `true`,
`none` when it returns `false`. -/
def key_action_execute (env : ic_env_t) (eb : editor_t) (action : Int) : Option edit_op :=
  if action = IC_KEY_ACTION_NONE then some .nop
  else if action = IC_KEY_ACTION_COMPLETE then some (.edit_generate_completions false)
  else if action = IC_KEY_ACTION_HISTORY_SEARCH then some .edit_history_search_with_current_word
  else if action = IC_KEY_ACTION_HISTORY_PREV then some .edit_history_prev
  else if action = IC_KEY_ACTION_HISTORY_NEXT then some .edit_history_next
  else if action = IC_KEY_ACTION_CLEAR_SCREEN then some .edit_clear_screen
  else if action = IC_KEY_ACTION_UNDO then some .edit_undo_restore
  else if action = IC_KEY_ACTION_REDO then some .edit_redo_restore
  else if action = IC_KEY_ACTION_SHOW_HELP then some .edit_show_help
  else if action = IC_KEY_ACTION_CURSOR_LEFT then some .edit_cursor_left
  else if action = IC_KEY_ACTION_CURSOR_RIGHT_OR_COMPLETE then
    if eb.pos = eb.input.length then some (.edit_generate_completions false)
    else some .edit_cursor_right
  else if action = IC_KEY_ACTION_CURSOR_UP then some .edit_cursor_row_up
  else if action = IC_KEY_ACTION_CURSOR_DOWN then some .edit_cursor_row_down
  else if action = IC_KEY_ACTION_CURSOR_LINE_START then some .edit_cursor_line_start
  else if action = IC_KEY_ACTION_CURSOR_LINE_END then some .edit_cursor_line_end
  else if action = IC_KEY_ACTION_CURSOR_WORD_PREV then some .edit_cursor_prev_word
  else if action = IC_KEY_ACTION_CURSOR_WORD_NEXT_OR_COMPLETE then
    if eb.pos = eb.input.length then some (.edit_generate_completions false)
    else some .edit_cursor_next_word
  else if action = IC_KEY_ACTION_CURSOR_INPUT_START then some .edit_cursor_to_start
  else if action = IC_KEY_ACTION_CURSOR_INPUT_END then some .edit_cursor_to_end
  else if action = IC_KEY_ACTION_CURSOR_MATCH_BRACE then some .edit_cursor_match_brace
  else if action = IC_KEY_ACTION_DELETE_BACKWARD then some .edit_backspace
  else if action = IC_KEY_ACTION_DELETE_FORWARD then some .edit_delete_char
  else if action = IC_KEY_ACTION_DELETE_WORD_END then some .edit_delete_to_end_of_word
  else if action = IC_KEY_ACTION_DELETE_WORD_START_WS then some .edit_delete_to_start_of_ws_word
  else if action = IC_KEY_ACTION_DELETE_WORD_START then some .edit_delete_to_start_of_word
  else if action = IC_KEY_ACTION_DELETE_LINE_START then some .edit_delete_to_start_of_line
  else if action = IC_KEY_ACTION_DELETE_LINE_END then some .edit_delete_to_end_of_line
  else if action = IC_KEY_ACTION_TRANSPOSE_CHARS then some .edit_swap_char
  else if action = IC_KEY_ACTION_INSERT_NEWLINE then
    if !env.singleline_only then some (.edit_insert_char 10) else some .nop
  else none

/-- The search loop of `key_binding_execute` over the entries. -/
def key_binding_execute_loop (env : ic_env_t) (eb : editor_t) (key : Nat) :
    List ic_key_binding_entry_t → Option edit_op
  | [] => none
  | entry :: rest =>
    if entry.key = key then
      if entry.action = IC_KEY_ACTION_NONE then some .nop
      else key_action_execute env eb entry.action
    else key_binding_execute_loop env eb key rest

/-- The function `key_binding_execute`: the operation run when it returns `true`,
`none` when it returns `false`. -/
def key_binding_execute (env : ic_env_t) (eb : editor_t) (key : Nat) : Option edit_op :=
  if env.key_binding_count ≤ 0 then none
  else key_binding_execute_loop env eb key env.key_bindings

/-- What one round of the loop of `edit_line` does with the key it has read. -/
inductive key_step where
  /-- The binding table handled the key (`continue`). -/
  | bound (op : edit_op)
  /-- The hardcoded dispatch ran an operation and the loop goes on. -/
  | hardcoded (op : edit_op)
  /-- The hardcoded dispatch ran an operation and left the loop (`break`). -/
  | exit (op : edit_op)
deriving DecidableEq, Repr

/-- The `switch (c)` of the hardcoded dispatch ("Editing Operations"). The tests
`code_is_ascii_char` and `code_is_unicode` of the tty layer are parameters. -/
def edit_line_switch (code_is_ascii_char code_is_unicode : Nat → Bool)
    (env : ic_env_t) (eb : editor_t) (c : Nat) : edit_op :=
  if c = IC_KEY_EVENT_RESIZE then .edit_resize
  else if c = IC_KEY_EVENT_AUTOTAB then .edit_generate_completions true
  else if c = IC_KEY_TAB ∨ c = IC_KEY_WITH_ALT 63 then .edit_generate_completions false
  else if c = IC_KEY_CTRL_R ∨ c = IC_KEY_CTRL_S then .edit_history_search_with_current_word
  else if c = IC_KEY_CTRL_P then .edit_history_prev
  else if c = IC_KEY_CTRL_N then .edit_history_next
  else if c = IC_KEY_CTRL_L then .edit_clear_screen
  else if c = IC_KEY_CTRL_Z ∨ c = IC_KEY_WITH_CTRL 95 then .edit_undo_restore
  else if c = IC_KEY_CTRL_Y then .edit_redo_restore
  else if c = IC_KEY_F1 then .edit_show_help
  else if c = IC_KEY_LEFT ∨ c = IC_KEY_CTRL_B then .edit_cursor_left
  else if c = IC_KEY_RIGHT ∨ c = IC_KEY_CTRL_F then
    if eb.pos = eb.input.length then .edit_generate_completions false else .edit_cursor_right
  else if c = IC_KEY_UP then .edit_cursor_row_up
  else if c = IC_KEY_DOWN then .edit_cursor_row_down
  else if c = IC_KEY_HOME ∨ c = IC_KEY_CTRL_A then .edit_cursor_line_start
  else if c = IC_KEY_END ∨ c = IC_KEY_CTRL_E then .edit_cursor_line_end
  else if c = IC_KEY_CTRL_LEFT ∨ c = IC_KEY_WITH_SHIFT IC_KEY_LEFT ∨ c = IC_KEY_WITH_ALT 98 then
    .edit_cursor_prev_word
  else if c = IC_KEY_CTRL_RIGHT ∨ c = IC_KEY_WITH_SHIFT IC_KEY_RIGHT ∨ c = IC_KEY_WITH_ALT 102 then
    if eb.pos = eb.input.length then .edit_generate_completions false else .edit_cursor_next_word
  else if c = IC_KEY_CTRL_HOME ∨ c = IC_KEY_WITH_SHIFT IC_KEY_HOME ∨ c = IC_KEY_PAGEUP
      ∨ c = IC_KEY_WITH_ALT 60 then .edit_cursor_to_start
  else if c = IC_KEY_CTRL_END ∨ c = IC_KEY_WITH_SHIFT IC_KEY_END ∨ c = IC_KEY_PAGEDOWN
      ∨ c = IC_KEY_WITH_ALT 62 then .edit_cursor_to_end
  else if c = IC_KEY_WITH_ALT 109 then .edit_cursor_match_brace
  else if c = IC_KEY_BACKSP then .edit_backspace
  else if c = IC_KEY_DEL then .edit_delete_char
  else if c = IC_KEY_WITH_ALT 100 then .edit_delete_to_end_of_word
  else if c = IC_KEY_CTRL_W then .edit_delete_to_start_of_ws_word
  else if c = IC_KEY_WITH_ALT IC_KEY_DEL ∨ c = IC_KEY_WITH_ALT IC_KEY_BACKSP then
    .edit_delete_to_start_of_word
  else if c = IC_KEY_CTRL_U then .edit_delete_to_start_of_line
  else if c = IC_KEY_CTRL_K then .edit_delete_to_end_of_line
  else if c = IC_KEY_CTRL_T then .edit_swap_char
  else if c = IC_KEY_SHIFT_TAB ∨ c = IC_KEY_LINEFEED then
    if !env.singleline_only then .edit_insert_char 10 else .nop
  else if code_is_ascii_char c then .edit_insert_char (c % 256)
  else if code_is_unicode c then .edit_insert_unicode c
  else .ignore

/-- One round of the loop of `edit_line` from the binding lookup on, for the key `c`
(after the hint handling). `at_row_end` is the value of `edit_pos_is_at_row_end`. -/
def edit_line_key (code_is_ascii_char code_is_unicode : Nat → Bool)
    (env : ic_env_t) (eb : editor_t) (at_row_end : Bool) (c : Nat) : key_step :=
  match (if c < IC_KEY_EVENT_BASE then key_binding_execute env eb c else none) with
  | some op => .bound op
  | none =>
    if c = IC_KEY_ENTER then
      if !env.singleline_only ∧ eb.pos > 0 ∧ eb.input.getD (eb.pos - 1) 0 = env.multiline_eol
          ∧ at_row_end then .hardcoded .edit_multiline_eol
      else .exit .nop
    else if c = IC_KEY_CTRL_D then
      if eb.pos = 0 ∧ editor_pos_is_at_end eb then .exit .nop
      else .hardcoded .edit_delete_char
    else if c = IC_KEY_CTRL_C ∨ c = IC_KEY_EVENT_STOP then .exit .nop
    else if c = IC_KEY_ESC then
      if eb.pos = 0 ∧ editor_pos_is_at_end eb then .exit .nop
      else .hardcoded .edit_delete_all
    else if c = IC_KEY_BELL then .exit .edit_delete_all
    else .hardcoded (edit_line_switch code_is_ascii_char code_is_unicode env eb c)

/-- The "save result" part of `edit_line`, run after the loop was left on key `c`
with the input `input`: `none` is the NULL result. `tty_is_utf8` and the conversion
done by `sbuf_strdup_from_utf8` belong to the tty and string-buffer layers. -/
def edit_line_result (tty_is_utf8 : Bool) (from_utf8 : List Nat → List Nat)
    (c : Nat) (input : List Nat) : Option (List Nat) :=
  if (c = IC_KEY_CTRL_D ∧ input.length = 0) ∨ c = IC_KEY_CTRL_C ∨ c = IC_KEY_EVENT_STOP then none
  else if !tty_is_utf8 then some (from_utf8 input)
  else some input

/-- The call `ic_readline(prompt, initial_input)` in editing mode (`noedit` unset) when
the first key read is `c` and no hint is shown: `some r` when that key ends the read,
`r` being the value `edit_line` returns, which `ic_editline` and `ic_readline` hand on
unchanged; `none` when the loop goes on to read another key. -/
def ic_readline_first_key (code_is_ascii_char code_is_unicode : Nat → Bool)
    (tty_is_utf8 : Bool) (from_utf8 : List Nat → List Nat)
    (env : ic_env_t) (initial_input : Option (List Nat)) (at_row_end : Bool) (c : Nat) :
    Option (Option (List Nat)) :=
  let input := initial_input.getD []
  let eb : editor_t := { input := input, pos := input.length }
  match edit_line_key code_is_ascii_char code_is_unicode env eb at_row_end c with
  | .exit op =>
    let input1 := if op = .edit_delete_all then [] else eb.input
    some (edit_line_result tty_is_utf8 from_utf8 c input1)
  | _ => none

/-- The token `IC_READLINE_TOKEN_CTRL_C` of `isocline.h`. -/
def IC_READLINE_TOKEN_CTRL_C : List Nat := cstr "<CTRL+C>"

/-- The token `IC_READLINE_TOKEN_CTRL_D` of `isocline.h`. -/
def IC_READLINE_TOKEN_CTRL_D : List Nat := cstr "<CTRL+D>"

/-- The binding table of a fresh environment after `ic_set_key_binding_profile("vim")`,
with an allocator that grants every request. -/
def vim_env : ic_env_t :=
  (ic_set_key_binding_profile (ic_env_create (fun _ => true)) (some (cstr "vim"))).2

/-- Bind the entries of a list one after the other with `ic_bind_key`, stopping at
the first failure (what applying a profile comes to once its specs are parsed). -/
def bind_all : ic_env_t → List ic_key_binding_entry_t → Bool × ic_env_t
  | env, [] => (true, env)
  | env, e :: es =>
    match ic_bind_key env e.key e.action with
    | (false, env1) => (false, env1)
    | (true, env1) => bind_all env1 es

/-- The entries the vim profile binds: alt+h, alt+l, alt+k, alt+j, alt+w. -/
def vim_table : List ic_key_binding_entry_t :=
  [ { key := IC_KEY_WITH_ALT 104, action := IC_KEY_ACTION_CURSOR_LEFT },
    { key := IC_KEY_WITH_ALT 108, action := IC_KEY_ACTION_CURSOR_RIGHT_OR_COMPLETE },
    { key := IC_KEY_WITH_ALT 107, action := IC_KEY_ACTION_CURSOR_UP },
    { key := IC_KEY_WITH_ALT 106, action := IC_KEY_ACTION_CURSOR_DOWN },
    { key := IC_KEY_WITH_ALT 119, action := IC_KEY_ACTION_CURSOR_WORD_NEXT_OR_COMPLETE } ]

/-- The table a built-in profile leaves after it was applied to an empty table. -/
def profile_table (profile : keybinding_profile_ptr) : List ic_key_binding_entry_t :=
  if profile = keybinding_profile_vim then vim_table else []

/-- The state a successful `ic_set_key_binding_profile` of a built-in profile leaves:
the table of the profile, the profile as the active one, and a capacity that covers
the table. -/
def in_profile_state (profile : keybinding_profile_ptr) (env : ic_env_t) : Prop :=
  env.key_bindings = profile_table profile ∧ env.key_binding_profile = profile
    ∧ (profile_table profile).length ≤ env.key_binding_capacity

/-- The keys with a spec name: the unmodified control codes 1..26, and the keys
whose code without the modifier flags is none, a printable ASCII character 32..127,
tab, enter, linefeed, backspace, esc, one of the virtual keys up .. insert, or
F1..F24. -/
def has_key_name (key : Nat) : Prop :=
  (IC_KEY_CTRL_A ≤ key ∧ key ≤ IC_KEY_CTRL_Z)
  ∨ IC_KEY_NO_MODS key = IC_KEY_NONE
  ∨ (32 ≤ IC_KEY_NO_MODS key ∧ IC_KEY_NO_MODS key ≤ 127)
  ∨ IC_KEY_NO_MODS key = IC_KEY_TAB
  ∨ IC_KEY_NO_MODS key = IC_KEY_ENTER
  ∨ IC_KEY_NO_MODS key = IC_KEY_LINEFEED
  ∨ IC_KEY_NO_MODS key = IC_KEY_BACKSP
  ∨ IC_KEY_NO_MODS key = IC_KEY_ESC
  ∨ (IC_KEY_UP ≤ IC_KEY_NO_MODS key ∧ IC_KEY_NO_MODS key ≤ IC_KEY_INS)
  ∨ (IC_KEY_F1 ≤ IC_KEY_NO_MODS key ∧ IC_KEY_NO_MODS key ≤ IC_KEY_F1 + 23)

/-! ## The key spec grammar in the words of the specification -/

/-- The separators of a key spec: `+`, `-`, blank and tab. -/
def is_spec_separator (c : Nat) : Bool := decide (c = 43 ∨ c = 45 ∨ c = 32 ∨ c = 9)

/-- The tokens of a key spec: the non-empty pieces between separators. -/
def spec_tokens (spec : List Nat) : List (List Nat) :=
  (spec.splitOnP is_spec_separator).filter (fun t => decide (t ≠ []))

/-- A modifier name, in any case: `ctrl`, `control`, `c`, `alt`, `meta`, `option`,
`shift` or `s`. -/
def is_modifier_name (t : List Nat) : Bool :=
  decide ((t.map tolower = cstr "ctrl" ∨ t.map tolower = cstr "control"
      ∨ t.map tolower = cstr "c")
    ∨ (t.map tolower = cstr "alt" ∨ t.map tolower = cstr "meta"
      ∨ t.map tolower = cstr "option")
    ∨ (t.map tolower = cstr "shift" ∨ t.map tolower = cstr "s"))

/-- A named key, in any case: one of the names of `key_name_map`. -/
def is_named_key (t : List Nat) : Bool := key_name_map.any (fun e => t.map tolower == e.1)

/-- One of the names `f1`, `f2`, ..., `f24`, in any case. -/
def is_fkey_name (t : List Nat) : Bool :=
  ((List.range 24).map (fun n => 102 :: utoa (n + 1))).contains (t.map tolower)

/-- The letter `f`, in any case, followed by a number that `strtol` reads in full (white
space before it and leading zeros allowed) with a value in 1..24. -/
def is_fkey_number (t : List Nat) : Bool := (key_lookup_fkey (t.map tolower)).isSome

/-- A base token as the claim words it: not a modifier name, and a single character, a
named key, one of `f1`..`f24`, or `newline`. -/
def is_base_token_claim (t : List Nat) : Bool :=
  !is_modifier_name t
    && (decide (t.length = 1) || is_named_key t || is_fkey_name t
        || decide (t.map tolower = cstr "newline"))

/-- A base token as the code reads it: not a modifier name, and a single character, a
named key, `f` with a number in 1..24, or `newline`. -/
def is_base_token (t : List Nat) : Bool :=
  !is_modifier_name t
    && (decide (t.length = 1) || is_named_key t || is_fkey_number t
        || decide (t.map tolower = cstr "newline"))

/-- Acceptance as the claim words it: every token is a modifier name or a base token,
and exactly one token is a base token. -/
def spec_accepted_claim (spec : List Nat) : Prop :=
  (∀ t ∈ spec_tokens spec, is_modifier_name t = true ∨ is_base_token_claim t = true)
    ∧ ((spec_tokens spec).filter is_base_token_claim).length = 1

/-- Acceptance, amended: every token has at most 31 bytes and is a modifier name or a
base token (with `f` and a number for the F-keys), and exactly one token is a base
token. -/
def spec_accepted (spec : List Nat) : Prop :=
  (∀ t ∈ spec_tokens spec,
      t.length ≤ 31 ∧ (is_modifier_name t = true ∨ is_base_token t = true))
    ∧ ((spec_tokens spec).filter is_base_token).length = 1

/-- The scanning loop of `ic_parse_key_spec` seen on the pieces between separators:
empty pieces are skipped, a piece of 32 bytes or more fails, any other piece goes
through `parse_token`. -/
def run_tokens : key_spec_state → List (List Nat) → Option key_spec_state
  | st, [] => some st
  | st, seg :: segs =>
    if seg = [] then run_tokens st segs
    else if 32 ≤ seg.length then none
    else
      match parse_token st seg with
      | none => none
      | some st1 => run_tokens st1 segs

/-- The keys of the binding table are pairwise distinct. -/
def keys_nodup (env : ic_env_t) : Prop := (env.key_bindings.map (fun e => e.key)).Nodup

/-- The environments that the key-binding API can produce from a fresh one. -/
inductive reachable : ic_env_t → Prop where
  | create (mem : Nat → Bool) : reachable (ic_env_create mem)
  | bind_key (env : ic_env_t) (key : Nat) (action : Int) :
      reachable env → reachable (ic_bind_key env key action).2
  | bind_key_named (env : ic_env_t) (spec name : Option (List Nat)) :
      reachable env → reachable (ic_bind_key_named env spec name).2
  | clear_key_binding (env : ic_env_t) (key : Nat) :
      reachable env → reachable (ic_clear_key_binding env key).2
  | reset_key_bindings (env : ic_env_t) :
      reachable env → reachable (ic_reset_key_bindings env)
  | set_key_binding_profile (env : ic_env_t) (name : Option (List Nat)) :
      reachable env → reachable (ic_set_key_binding_profile env name).2

/-! ## Action names (`isocline_keybindings.c`) -/

/-- The function `ic_key_action_name`: the name of the first row of `key_action_names`
with the given action; `none` is the NULL result. -/
def ic_key_action_name (action : Int) : Option (List Nat) :=
  if action < IC_KEY_ACTION_NONE ∨ action ≥ IC_KEY_ACTION__MAX then none
  else
    match key_action_names.find? (fun e => decide (e.2 = action)) with
    | some e => some e.1
    | none => none

/-! ## The string buffer (`stringbuf.c`) and the snapshot stacks (`undo.c`)

Neither file is at hand; the editor of `editline.c` calls them. Byte positions are
`Nat`, a result `-1` is `none`. -/

/-- Modelled from the spec: `sbuf_len` of `stringbuf.c`, the number of bytes. -/
def sbuf_len (sbuf : List Nat) : Nat := sbuf.length

/-- Modelled from the spec: `sbuf_char_at` of `stringbuf.c`, the byte at `pos`, and `0`
for a position outside the buffer. -/
def sbuf_char_at (sbuf : List Nat) (pos : Int) : Nat :=
  if pos < 0 then 0 else sbuf.getD pos.toNat 0

/-- Modelled from the spec: `sbuf_insert_at` of `stringbuf.c` ("insert at position"):
the bytes of `s` go in at `pos` and the position after them is returned; a position
beyond the end changes nothing and is returned as it is. -/
def sbuf_insert_at (sbuf s : List Nat) (pos : Nat) : List Nat × Nat :=
  if pos > sbuf.length then (sbuf, pos)
  else (sbuf.take pos ++ s ++ sbuf.drop pos, pos + s.length)

/-- Modelled from the spec: `sbuf_insert_char_at` of `stringbuf.c` ("insert char at
position"): the one-byte string of `c`, which is empty for the NUL byte. -/
def sbuf_insert_char_at (sbuf : List Nat) (c : Nat) (pos : Nat) : List Nat × Nat :=
  sbuf_insert_at sbuf (if c = 0 then [] else [c]) pos

/-- Modelled from the spec: the UTF-8 bytes of a code point ("insert UTF-8 code point"),
empty for `0` and for values above `0x10FFFF`. -/
def utf8_encode (u : Nat) : List Nat :=
  if u = 0 then []
  else if u < 0x80 then [u]
  else if u < 0x800 then [0xC0 + u / 64, 0x80 + u % 64]
  else if u < 0x10000 then [0xE0 + u / 4096, 0x80 + (u / 64) % 64, 0x80 + u % 64]
  else if u ≤ 0x10FFFF then
    [0xF0 + u / 262144, 0x80 + (u / 4096) % 64, 0x80 + (u / 64) % 64, 0x80 + u % 64]
  else []

/-- Modelled from the spec: `sbuf_insert_unicode_at` of `stringbuf.c` ("insert UTF-8
code point at position"). -/
def sbuf_insert_unicode_at (sbuf : List Nat) (u : Nat) (pos : Nat) : List Nat × Nat :=
  sbuf_insert_at sbuf (utf8_encode u) pos

/-- Modelled from the spec: `sbuf_delete_at` of `stringbuf.c` ("delete byte-range"):
`count` bytes from `pos` on go, fewer when the buffer ends before; a position at or
beyond the end changes nothing. -/
def sbuf_delete_at (sbuf : List Nat) (pos count : Nat) : List Nat :=
  if pos ≥ sbuf.length then sbuf else sbuf.take pos ++ sbuf.drop (pos + count)

/-- Modelled from the spec: `sbuf_delete_from_to` of `stringbuf.c` ("delete
byte-range"): the bytes from `pos` up to `end_pos` go. -/
def sbuf_delete_from_to (sbuf : List Nat) (pos end_pos : Nat) : List Nat :=
  if end_pos ≤ pos then sbuf else sbuf_delete_at sbuf pos (end_pos - pos)

/-- A UTF-8 continuation byte `10xxxxxx`. -/
def is_utf8_cont (b : Nat) : Bool := decide (0x80 ≤ b ∧ b ≤ 0xBF)

/-- Scan forward from `q`, at most `fuel` steps, to the first position that is the end
of the buffer or holds a byte on which `stop` is true. -/
def scan_fwd (sbuf : List Nat) (stop : Nat → Bool) : Nat → Nat → Nat
  | 0, q => q
  | fuel + 1, q =>
    if q < sbuf.length ∧ stop (sbuf.getD q 0) = false then scan_fwd sbuf stop fuel (q + 1)
    else q

/-- Scan backward from `q` to the first position that is `0` or holds a byte on which
`stop` is true. -/
def scan_back_at (sbuf : List Nat) (stop : Nat → Bool) : Nat → Nat
  | 0 => 0
  | q + 1 => if stop (sbuf.getD (q + 1) 0) then q + 1 else scan_back_at sbuf stop q

/-- Scan backward from `q` to the first position that is `0` or whose predecessor holds
a byte on which `stop` is true. -/
def scan_back_before (sbuf : List Nat) (stop : Nat → Bool) : Nat → Nat
  | 0 => 0
  | q + 1 => if stop (sbuf.getD q 0) then q + 1 else scan_back_before sbuf stop q

/-- Modelled from the spec: `sbuf_next` of `stringbuf.c` ("next code point"): the
position after the code point at `pos`, `none` at the end of the buffer. -/
def sbuf_next (sbuf : List Nat) (pos : Nat) : Option Nat :=
  if pos ≥ sbuf.length then none
  else some (scan_fwd sbuf (fun b => !is_utf8_cont b) (sbuf.length - (pos + 1)) (pos + 1))

/-- Modelled from the spec: `sbuf_prev` of `stringbuf.c` ("previous code point"): the
start of the code point before `pos`, `none` at the start of the buffer and outside. -/
def sbuf_prev (sbuf : List Nat) (pos : Nat) : Option Nat :=
  if pos = 0 ∨ pos > sbuf.length then none
  else some (scan_back_at sbuf (fun b => !is_utf8_cont b) (pos - 1))

/-- Modelled from the spec: `sbuf_delete_char_before` of `stringbuf.c` ("delete
code-point before position"): the buffer and the new position. -/
def sbuf_delete_char_before (sbuf : List Nat) (pos : Nat) : List Nat × Nat :=
  match sbuf_prev sbuf pos with
  | none => (sbuf, pos)
  | some prev => (sbuf_delete_from_to sbuf prev pos, prev)

/-- Modelled from the spec: `sbuf_delete_char_at` of `stringbuf.c` ("delete
code-point at position"). -/
def sbuf_delete_char_at (sbuf : List Nat) (pos : Nat) : List Nat :=
  match sbuf_next sbuf pos with
  | none => sbuf
  | some next => sbuf_delete_from_to sbuf pos next

/-- Modelled from the spec: `sbuf_swap_char` of `stringbuf.c` ("swap the two code
points around the cursor"): the buffer and the new position, taken to be the start of
the swapped pair. -/
def sbuf_swap_char (sbuf : List Nat) (pos : Nat) : List Nat × Nat :=
  match sbuf_prev sbuf pos, sbuf_next sbuf pos with
  | some prev, some next =>
    (sbuf.take prev ++ (sbuf.drop pos).take (next - pos) ++ (sbuf.drop prev).take (pos - prev)
      ++ sbuf.drop next, prev)
  | _, _ => (sbuf, pos)

/-- The separator set of the word definition: space, tab, CR, LF and
`, . ; : / \\ ( ) { } [ ]`. -/
def word_separators : List Nat := [32, 9, 13, 10, 44, 46, 59, 58, 47, 92, 40, 41, 123, 125, 91, 93]

/-- Modelled from the spec: a "word char" is any byte outside the separator set (so
every byte from `0x80` on is one). -/
def is_word_char (b : Nat) : Bool := !(word_separators.contains b)

/-- Modelled from the spec: a "ws-word char" is any non-whitespace. -/
def is_ws_word_char (b : Nat) : Bool := !(isspace b)

/-- Modelled from the spec: `sbuf_find_line_start` of `stringbuf.c`: the highest
position up to `pos` that is `0` or follows a newline. -/
def sbuf_find_line_start (sbuf : List Nat) (pos : Nat) : Option Nat :=
  if pos > sbuf.length then none else some (scan_back_before sbuf (fun b => b == 10) pos)

/-- Modelled from the spec: `sbuf_find_line_end` of `stringbuf.c`: the lowest position
from `pos` on that is the end of the buffer or holds a newline. -/
def sbuf_find_line_end (sbuf : List Nat) (pos : Nat) : Option Nat :=
  if pos > sbuf.length then none
  else some (scan_fwd sbuf (fun b => b == 10) (sbuf.length - pos) pos)

/-- Modelled from the spec: `sbuf_find_word_start` of `stringbuf.c`: "the highest
position ≤ cursor whose predecessor is not of the class", for the word-char class. -/
def sbuf_find_word_start (sbuf : List Nat) (pos : Nat) : Option Nat :=
  if pos > sbuf.length then none
  else some (scan_back_before sbuf (fun b => !is_word_char b) pos)

/-- Modelled from the spec: `sbuf_find_word_end` of `stringbuf.c`: "the end is
symmetric", the lowest position from the cursor on that holds no word char. -/
def sbuf_find_word_end (sbuf : List Nat) (pos : Nat) : Option Nat :=
  if pos > sbuf.length then none
  else some (scan_fwd sbuf (fun b => !is_word_char b) (sbuf.length - pos) pos)

/-- Modelled from the spec: `sbuf_find_ws_word_start` of `stringbuf.c`, the word start
for the ws-word class. -/
def sbuf_find_ws_word_start (sbuf : List Nat) (pos : Nat) : Option Nat :=
  if pos > sbuf.length then none
  else some (scan_back_before sbuf (fun b => !is_ws_word_char b) pos)

/-- Modelled from the spec: `sbuf_find_ws_word_end` of `stringbuf.c`, the word end for
the ws-word class. -/
def sbuf_find_ws_word_end (sbuf : List Nat) (pos : Nat) : Option Nat :=
  if pos > sbuf.length then none
  else some (scan_fwd sbuf (fun b => !is_ws_word_char b) (sbuf.length - pos) pos)

/-- Modelled from the spec: `editstate_capture` of `undo.c` pushes the snapshot
`(input, pos)` on a LIFO stack. -/
def editstate_capture (es : List (List Nat × Nat)) (input : List Nat) (pos : Nat) :
    List (List Nat × Nat) :=
  (input, pos) :: es

/-- Modelled from the spec: `editstate_restore` of `undo.c` pops the newest snapshot of
a LIFO stack; `none` is the result `false` on an empty stack. -/
def editstate_restore (es : List (List Nat × Nat)) :
    Option ((List Nat × Nat) × List (List Nat × Nat)) :=
  match es with
  | [] => none
  | e :: rest => some (e, rest)

/-- Modelled from the spec: `editstate_done` of `undo.c` empties a stack. -/
def editstate_done (_es : List (List Nat × Nat)) : List (List Nat × Nat) := []

/-- Modelled from the spec: `history_push` of `history.c`: "`push` appends
(deduplicating adjacent entries if duplicates disabled)". The ring's maximum is not
modelled. -/
def history_push (allow_duplicates : Bool) (h : List (List Nat)) (entry : List Nat) :
    List (List Nat) :=
  if allow_duplicates = false ∧ h.getLast? = some entry then h else h ++ [entry]

/-- Modelled from the spec: `history_update` of `history.c`: "`update` rewrites the
in-progress placeholder at the newest end with the current input". -/
def history_update (h : List (List Nat)) (entry : List Nat) : List (List Nat) :=
  h.dropLast ++ [entry]

/-- Modelled from the spec: `history_remove_last` of `history.c`: "`remove_last` pops
it". -/
def history_remove_last (h : List (List Nat)) : List (List Nat) := h.dropLast

/-- The function `ic_history_remove_last` of `isocline_options.c`. -/
def ic_history_remove_last (env : ic_env_t) : ic_env_t :=
  { env with history := history_remove_last env.history }

/-! ## The editor state and its operations (`editline.c`) -/

/-- The fields of `rowcol_t` that `editline.c` reads. -/
structure rowcol_t where
  row : Nat
  col : Nat
  last_on_row : Bool
deriving DecidableEq, Repr

/-- The functions of files that are not at hand and that the editor calls: the key
tests of `tty.c`, the brace search of `highlight.c` (the match position and the
`balanced` flag), the hint that the completion probe of `edit_refresh_hint` finds (the
new contents of `hint` and `hint_help`, `none` when it leaves them alone), the row
layout of `stringbuf.c` (`edit_get_rowcol` gives the number of rows and the cursor's
cell), and the operations of `editline_completion.c` and `editline_history.c`, which
act on the environment and the editor state. -/
structure edit_deps where
  code_is_ascii_char : Nat → Bool
  code_is_unicode : Nat → Bool
  find_matching_brace : List Nat → Nat → List Nat → Option Nat × Bool
  hint_probe : ic_env_t → List Nat → Nat → Option (List Nat × List Nat)
  edit_get_rowcol : ic_env_t → editor_t → Nat × rowcol_t
  sbuf_get_pos_at_rc : ic_env_t → editor_t → Nat → Nat → Option Nat
  edit_generate_completions : Bool → ic_env_t → editor_t → ic_env_t × editor_t
  edit_history_search_with_current_word : ic_env_t → editor_t → ic_env_t × editor_t
  edit_history_prev : ic_env_t → editor_t → ic_env_t × editor_t
  edit_history_next : ic_env_t → editor_t → ic_env_t × editor_t
  edit_history_prefix_prev : ic_env_t → editor_t → ic_env_t × editor_t
  edit_history_prefix_next : ic_env_t → editor_t → ic_env_t × editor_t

/-- The function `ic_env_get_match_braces` of `isocline_env.c`. -/
def ic_env_get_match_braces (env : ic_env_t) : List Nat :=
  match env.match_braces with
  | none => cstr "()[]\x7b\x7d"
  | some braces => braces

/-- The function `ic_env_get_auto_braces` of `isocline_env.c`. -/
def ic_env_get_auto_braces (env : ic_env_t) : List Nat :=
  match env.auto_braces with
  | none => cstr "()[]\x7b\x7d\x22\x22\x27\x27"
  | some braces => braces

/-- The function `editor_capture` on the stack `es`. -/
def editor_capture (eb : editor_t) (es : List (List Nat × Nat)) : List (List Nat × Nat) :=
  if !eb.disable_undo then editstate_capture es eb.input eb.pos else es

/-- The function `editor_undo_capture`. -/
def editor_undo_capture (eb : editor_t) : editor_t :=
  { eb with undo := editor_capture eb eb.undo }

/-- The function `editor_restore(eb, from, to)`: `src` is the stack `*from`, `dst` the
stack `*to` (`none` for a NULL pointer). The result is the state with the two stacks
after the call. -/
def editor_restore (eb : editor_t) (src : List (List Nat × Nat))
    (dst : Option (List (List Nat × Nat))) :
    editor_t × List (List Nat × Nat) × Option (List (List Nat × Nat)) :=
  if eb.disable_undo then (eb, src, dst)
  else if src = [] then (eb, src, dst)
  else
    match editstate_restore src with
    | none => (eb, src, dst.map (editor_capture eb))
    | some (e, rest) =>
      ({ eb with input := e.1, pos := e.2, modified := false }, rest, dst.map (editor_capture eb))

/-- The function `editor_undo_restore`: `editor_restore` from the undo stack to the
redo stack (to no stack when `with_redo` is false). -/
def editor_undo_restore (eb : editor_t) (with_redo : Bool) : editor_t :=
  { (editor_restore eb eb.undo (if with_redo then some eb.redo else none)).1 with
    undo := (editor_restore eb eb.undo (if with_redo then some eb.redo else none)).2.1,
    redo := ((editor_restore eb eb.undo (if with_redo then some eb.redo else none)).2.2).getD
      eb.redo }

/-- The function `editor_redo_restore`: `editor_restore` from the redo stack to the
undo stack, after which `modified` is cleared. -/
def editor_redo_restore (eb : editor_t) : editor_t :=
  { (editor_restore eb eb.redo (some eb.undo)).1 with
    redo := (editor_restore eb eb.redo (some eb.undo)).2.1,
    undo := ((editor_restore eb eb.redo (some eb.undo)).2.2).getD eb.undo,
    modified := false }

/-- The function `editor_start_modify`. -/
def editor_start_modify (eb : editor_t) : editor_t :=
  let eb1 := editor_undo_capture eb
  { eb1 with redo := editstate_done eb1.redo, modified := true }

/-- The function `edit_refresh`, as far as it touches the editor's buffers: the hint
goes into the input at the cursor for the rendering and is deleted again, and
`hint_help` many bytes are deleted from the front of `extra`. The terminal output and
the row bookkeeping (`cur_rows`, `cur_row`) are not modelled. -/
def edit_refresh (_env : ic_env_t) (eb : editor_t) : editor_t :=
  let input1 :=
    if sbuf_len eb.hint > 0 then (sbuf_insert_at eb.input eb.hint eb.pos).1 else eb.input
  { eb with input := sbuf_delete_at input1 eb.pos (sbuf_len eb.hint),
            extra := sbuf_delete_at eb.extra 0 (sbuf_len eb.hint_help) }

/-- The function `edit_resize`; `width_changed` tells whether the terminal width
differs from the cached `termw`. The result pairs the returned flag with the state. -/
def edit_resize (env : ic_env_t) (width_changed : Bool) (eb : editor_t) : Bool × editor_t :=
  if !width_changed then (false, eb)
  else
    let eb1 := { eb with input := (sbuf_insert_at eb.input eb.hint eb.pos).1 }
    let eb2 := edit_refresh env eb1
    (true, { eb2 with input := sbuf_delete_at eb2.input eb2.pos (sbuf_len eb2.hint) })

/-- The function `edit_refresh_hint`; the completion probe (with its auto-tab loop) is
`hint_probe`. -/
def edit_refresh_hint (d : edit_deps) (env : ic_env_t) (eb : editor_t) : editor_t :=
  let eb1 := if env.no_hint ∨ env.hint_delay > 0 then edit_refresh env eb else eb
  if (env.no_hint ∨ env.hint_delay > 0) ∧ env.no_hint then eb1
  else
    let eb2 :=
      match d.hint_probe env eb1.input eb1.pos with
      | some (hint, help) => { eb1 with hint := hint, hint_help := help }
      | none => eb1
    if env.hint_delay ≤ 0 then edit_refresh env eb2 else eb2

/-- The function `edit_show_help` of `editline_help.c`: the help text goes to the
terminal, and of the editor state only the `edit_refresh` at the end touches what is
modelled. -/
def edit_show_help (env : ic_env_t) (eb : editor_t) : editor_t := edit_refresh env eb

/-- The function `edit_clear_screen` (only its `edit_refresh` touches the state). -/
def edit_clear_screen (env : ic_env_t) (eb : editor_t) : editor_t := edit_refresh env eb

/-- The function `edit_undo_restore`. -/
def edit_undo_restore (env : ic_env_t) (eb : editor_t) : editor_t :=
  edit_refresh env (editor_undo_restore eb true)

/-- The function `edit_redo_restore`. -/
def edit_redo_restore (env : ic_env_t) (eb : editor_t) : editor_t :=
  edit_refresh env (editor_redo_restore eb)

/-- The function `edit_cursor_left`. -/
def edit_cursor_left (env : ic_env_t) (eb : editor_t) : editor_t :=
  match sbuf_prev eb.input eb.pos with
  | none => eb
  | some prev => edit_refresh env { eb with pos := prev }

/-- The function `edit_cursor_right`. -/
def edit_cursor_right (env : ic_env_t) (eb : editor_t) : editor_t :=
  match sbuf_next eb.input eb.pos with
  | none => eb
  | some next => edit_refresh env { eb with pos := next }

/-- The function `edit_cursor_line_end`. -/
def edit_cursor_line_end (env : ic_env_t) (eb : editor_t) : editor_t :=
  match sbuf_find_line_end eb.input eb.pos with
  | none => eb
  | some e => edit_refresh env { eb with pos := e }

/-- The function `edit_cursor_line_start`. -/
def edit_cursor_line_start (env : ic_env_t) (eb : editor_t) : editor_t :=
  match sbuf_find_line_start eb.input eb.pos with
  | none => eb
  | some start => edit_refresh env { eb with pos := start }

/-- The function `edit_cursor_next_word`. -/
def edit_cursor_next_word (env : ic_env_t) (eb : editor_t) : editor_t :=
  match sbuf_find_word_end eb.input eb.pos with
  | none => eb
  | some e => edit_refresh env { eb with pos := e }

/-- The function `edit_cursor_prev_word`. -/
def edit_cursor_prev_word (env : ic_env_t) (eb : editor_t) : editor_t :=
  match sbuf_find_word_start eb.input eb.pos with
  | none => eb
  | some start => edit_refresh env { eb with pos := start }

/-- The function `edit_cursor_to_start`. -/
def edit_cursor_to_start (env : ic_env_t) (eb : editor_t) : editor_t :=
  edit_refresh env { eb with pos := 0 }

/-- The function `edit_cursor_to_end`. -/
def edit_cursor_to_end (env : ic_env_t) (eb : editor_t) : editor_t :=
  edit_refresh env { eb with pos := sbuf_len eb.input }

/-- The function `edit_set_pos_at_rowcol`. -/
def edit_set_pos_at_rowcol (d : edit_deps) (env : ic_env_t) (eb : editor_t) (row col : Nat) :
    editor_t :=
  match d.sbuf_get_pos_at_rc env eb row col with
  | none => eb
  | some pos => edit_refresh env { eb with pos := pos }

/-- The function `edit_pos_is_at_row_end`. -/
def edit_pos_is_at_row_end (d : edit_deps) (env : ic_env_t) (eb : editor_t) : Bool :=
  (d.edit_get_rowcol env eb).2.last_on_row

/-- The function `edit_cursor_row_up`. -/
def edit_cursor_row_up (d : edit_deps) (env : ic_env_t) (eb : editor_t) : ic_env_t × editor_t :=
  let rc := (d.edit_get_rowcol env eb).2
  if rc.row = 0 then d.edit_history_prefix_prev env eb
  else (env, edit_set_pos_at_rowcol d env eb (rc.row - 1) rc.col)

/-- The function `edit_cursor_row_down`. -/
def edit_cursor_row_down (d : edit_deps) (env : ic_env_t) (eb : editor_t) :
    ic_env_t × editor_t :=
  let rows := (d.edit_get_rowcol env eb).1
  let rc := (d.edit_get_rowcol env eb).2
  if rc.row + 1 ≥ rows then d.edit_history_prefix_next env eb
  else (env, edit_set_pos_at_rowcol d env eb (rc.row + 1) rc.col)

/-- The function `edit_cursor_match_brace`. -/
def edit_cursor_match_brace (d : edit_deps) (env : ic_env_t) (eb : editor_t) : editor_t :=
  match (d.find_matching_brace eb.input eb.pos (ic_env_get_match_braces env)).1 with
  | none => eb
  | some m => edit_refresh env { eb with pos := m }

/-- The function `edit_backspace`. -/
def edit_backspace (env : ic_env_t) (eb : editor_t) : editor_t :=
  if eb.pos ≤ 0 then eb
  else
    let eb1 := editor_start_modify eb
    let r := sbuf_delete_char_before eb1.input eb1.pos
    edit_refresh env { eb1 with input := r.1, pos := r.2 }

/-- The function `edit_delete_char`. -/
def edit_delete_char (env : ic_env_t) (eb : editor_t) : editor_t :=
  if eb.pos ≥ sbuf_len eb.input then eb
  else
    let eb1 := editor_start_modify eb
    edit_refresh env { eb1 with input := sbuf_delete_char_at eb1.input eb1.pos }

/-- The function `edit_delete_all`. -/
def edit_delete_all (env : ic_env_t) (eb : editor_t) : editor_t :=
  if sbuf_len eb.input ≤ 0 then eb
  else
    let eb1 := editor_start_modify eb
    edit_refresh env { eb1 with input := [], pos := 0 }

/-- The function `edit_delete_to_end_of_line`. -/
def edit_delete_to_end_of_line (env : ic_env_t) (eb : editor_t) : editor_t :=
  match sbuf_find_line_start eb.input eb.pos with
  | none => eb
  | some start =>
    match sbuf_find_line_end eb.input eb.pos with
    | none => eb
    | some e =>
      let eb1 := editor_start_modify eb
      if start = e ∧ sbuf_char_at eb1.input e = 10 then
        edit_refresh env { eb1 with input := sbuf_delete_from_to eb1.input eb1.pos (e + 1) }
      else if start = e ∧ sbuf_char_at eb1.input ((start : Int) - 1) = 10 then
        edit_refresh env
          { eb1 with input := sbuf_delete_from_to eb1.input (eb1.pos - 1) e, pos := eb1.pos - 1 }
      else edit_refresh env { eb1 with input := sbuf_delete_from_to eb1.input eb1.pos e }

/-- The function `edit_delete_to_start_of_line`. -/
def edit_delete_to_start_of_line (env : ic_env_t) (eb : editor_t) : editor_t :=
  match sbuf_find_line_start eb.input eb.pos with
  | none => eb
  | some start =>
    match sbuf_find_line_end eb.input eb.pos with
    | none => eb
    | some e =>
      let eb1 := editor_start_modify eb
      let goright : Bool :=
        decide (start > 0 ∧ sbuf_char_at eb1.input ((start : Int) - 1) = 10 ∧ start = e)
      let start1 := if goright then start - 1 else start
      let eb2 := { eb1 with input := sbuf_delete_from_to eb1.input start1 eb1.pos, pos := start1 }
      let eb3 := if goright then edit_cursor_right env eb2 else eb2
      edit_refresh env eb3

/-- The function `edit_delete_to_start_of_word`. -/
def edit_delete_to_start_of_word (env : ic_env_t) (eb : editor_t) : editor_t :=
  match sbuf_find_word_start eb.input eb.pos with
  | none => eb
  | some start =>
    let eb1 := editor_start_modify eb
    edit_refresh env { eb1 with input := sbuf_delete_from_to eb1.input start eb1.pos, pos := start }

/-- The function `edit_delete_to_end_of_word`. -/
def edit_delete_to_end_of_word (env : ic_env_t) (eb : editor_t) : editor_t :=
  match sbuf_find_word_end eb.input eb.pos with
  | none => eb
  | some e =>
    let eb1 := editor_start_modify eb
    edit_refresh env { eb1 with input := sbuf_delete_from_to eb1.input eb1.pos e }

/-- The function `edit_delete_to_start_of_ws_word`. -/
def edit_delete_to_start_of_ws_word (env : ic_env_t) (eb : editor_t) : editor_t :=
  match sbuf_find_ws_word_start eb.input eb.pos with
  | none => eb
  | some start =>
    let eb1 := editor_start_modify eb
    edit_refresh env { eb1 with input := sbuf_delete_from_to eb1.input start eb1.pos, pos := start }

/-- The function `edit_swap_char`. -/
def edit_swap_char (env : ic_env_t) (eb : editor_t) : editor_t :=
  if eb.pos ≤ 0 ∨ eb.pos = sbuf_len eb.input then eb
  else
    let eb1 := editor_start_modify eb
    let r := sbuf_swap_char eb1.input eb1.pos
    edit_refresh env { eb1 with input := r.1, pos := r.2 }

/-- The function `edit_multiline_eol`. -/
def edit_multiline_eol (env : ic_env_t) (eb : editor_t) : editor_t :=
  if eb.pos ≤ 0 then eb
  else if eb.input.getD (eb.pos - 1) 0 ≠ env.multiline_eol then eb
  else
    let eb1 := editor_start_modify eb
    let input1 := sbuf_delete_at eb1.input (eb1.pos - 1) 1
    edit_refresh env { eb1 with input := (sbuf_insert_at input1 [10] (eb1.pos - 1)).1 }

/-- The function `edit_insert_unicode`. -/
def edit_insert_unicode (d : edit_deps) (env : ic_env_t) (eb : editor_t) (u : Nat) : editor_t :=
  let eb1 := editor_start_modify eb
  let r := sbuf_insert_unicode_at eb1.input u eb1.pos
  edit_refresh_hint d env { eb1 with input := r.1, pos := r.2 }

/-- Modelled from the spec: `ic_starts_with` of `common.c` (not at hand): `s` begins
with the bytes of `pre`. -/
def ic_starts_with (s pre : List Nat) : Bool := s.take pre.length == pre

/-- The loop of `edit_auto_brace` over the pairs of `braces`, from the pair list `bs`
on. A list that ends in half a pair has the terminating NUL as its closer. -/
def edit_auto_brace_loop (d : edit_deps) (braces : List Nat) (eb : editor_t) (c : Nat) :
    List Nat → editor_t
  | [] => eb
  | [b] =>
    if b = c then
      let input1 := (sbuf_insert_char_at eb.input 0 eb.pos).1
      if !(d.find_matching_brace input1 eb.pos braces).2 then
        { eb with input := sbuf_delete_char_at input1 eb.pos }
      else { eb with input := input1 }
    else eb
  | b :: close :: rest =>
    if b = c then
      let input1 := (sbuf_insert_char_at eb.input close eb.pos).1
      if !(d.find_matching_brace input1 eb.pos braces).2 then
        { eb with input := sbuf_delete_char_at input1 eb.pos }
      else { eb with input := input1 }
    else if close = c then
      if sbuf_char_at eb.input eb.pos = c then
        { eb with input := sbuf_delete_char_at eb.input eb.pos }
      else eb
    else edit_auto_brace_loop d braces eb c rest

/-- The function `edit_auto_brace`. -/
def edit_auto_brace (d : edit_deps) (env : ic_env_t) (eb : editor_t) (c : Nat) : editor_t :=
  if env.no_autobrace then eb
  else edit_auto_brace_loop d (ic_env_get_auto_braces env) eb c (ic_env_get_auto_braces env)

/-- The function `editor_auto_indent`. -/
def editor_auto_indent (eb : editor_t) (pre post : List Nat) : editor_t :=
  if pre.length > 0 then
    if (eb.pos : Int) - 1 < pre.length then eb
    else if !ic_starts_with (eb.input.drop (eb.pos - 1 - pre.length)) pre then eb
    else if !ic_starts_with (eb.input.drop eb.pos) post then eb
    else
      let r := sbuf_insert_at eb.input (cstr "  ") eb.pos
      { eb with input := (sbuf_insert_char_at r.1 10 r.2).1, pos := r.2 }
  else eb

/-- The function `edit_insert_char`. -/
def edit_insert_char (d : edit_deps) (env : ic_env_t) (eb : editor_t) (c : Nat) : editor_t :=
  let eb1 := editor_start_modify eb
  let r := sbuf_insert_char_at eb1.input c eb1.pos
  let eb2 := { eb1 with input := r.1, pos := r.2 }
  let eb3 := edit_auto_brace d env eb2 c
  let eb4 := if c = 10 then editor_auto_indent eb3 (cstr "\x7b") (cstr "\x7d") else eb3
  edit_refresh_hint d env eb4

/-- The state after the operation that a label of `edit_op` stands for. -/
def edit_apply (d : edit_deps) (width_changed : Bool) (env : ic_env_t) (eb : editor_t) :
    edit_op → ic_env_t × editor_t
  | .nop => (env, eb)
  | .ignore => (env, eb)
  | .edit_generate_completions autotab => d.edit_generate_completions autotab env eb
  | .edit_history_search_with_current_word => d.edit_history_search_with_current_word env eb
  | .edit_history_prev => d.edit_history_prev env eb
  | .edit_history_next => d.edit_history_next env eb
  | .edit_show_help => (env, edit_show_help env eb)
  | .edit_clear_screen => (env, edit_clear_screen env eb)
  | .edit_undo_restore => (env, edit_undo_restore env eb)
  | .edit_redo_restore => (env, edit_redo_restore env eb)
  | .edit_cursor_left => (env, edit_cursor_left env eb)
  | .edit_cursor_right => (env, edit_cursor_right env eb)
  | .edit_cursor_row_up => edit_cursor_row_up d env eb
  | .edit_cursor_row_down => edit_cursor_row_down d env eb
  | .edit_cursor_line_start => (env, edit_cursor_line_start env eb)
  | .edit_cursor_line_end => (env, edit_cursor_line_end env eb)
  | .edit_cursor_prev_word => (env, edit_cursor_prev_word env eb)
  | .edit_cursor_next_word => (env, edit_cursor_next_word env eb)
  | .edit_cursor_to_start => (env, edit_cursor_to_start env eb)
  | .edit_cursor_to_end => (env, edit_cursor_to_end env eb)
  | .edit_cursor_match_brace => (env, edit_cursor_match_brace d env eb)
  | .edit_backspace => (env, edit_backspace env eb)
  | .edit_delete_char => (env, edit_delete_char env eb)
  | .edit_delete_to_end_of_word => (env, edit_delete_to_end_of_word env eb)
  | .edit_delete_to_start_of_ws_word => (env, edit_delete_to_start_of_ws_word env eb)
  | .edit_delete_to_start_of_word => (env, edit_delete_to_start_of_word env eb)
  | .edit_delete_to_start_of_line => (env, edit_delete_to_start_of_line env eb)
  | .edit_delete_to_end_of_line => (env, edit_delete_to_end_of_line env eb)
  | .edit_swap_char => (env, edit_swap_char env eb)
  | .edit_insert_char c => (env, edit_insert_char d env eb c)
  | .edit_insert_unicode u => (env, edit_insert_unicode d env eb u)
  | .edit_multiline_eol => (env, edit_multiline_eol env eb)
  | .edit_delete_all => (env, edit_delete_all env eb)
  | .edit_resize => (env, (edit_resize env width_changed eb).2)

/-- One key as the loop of `edit_line` meets it: the code read, whether it came before
the hint delay ran out (`tty_read_timeout`), whether `tty_term_resize_event` reports a
resize, and whether the terminal width then differs from the cached one. -/
structure key_event where
  code : Nat
  in_time : Bool := true
  resize_event : Bool := false
  width_changed : Bool := false
deriving DecidableEq, Repr

/-- The state of the loop of `edit_line`. -/
inductive edit_line_state where
  /-- The loop waits for the next key. -/
  | reading (env : ic_env_t) (eb : editor_t)
  /-- The loop was left on the key `c`. -/
  | left (env : ic_env_t) (eb : editor_t) (c : Nat)

/-- The first part of a round of the loop of `edit_line` for the event `ev`, from the
read of the key to the clearing of the hint: the state after it, and whether a hint was
there (`had_hint`). -/
def edit_line_prelude (env : ic_env_t) (eb : editor_t) (ev : key_event) : editor_t × Bool :=
  -- read a character
  let eb1 :=
    if env.hint_delay ≤ 0 ∨ sbuf_len eb.hint = 0 then eb
    else if !ev.in_time then (if sbuf_len eb.hint > 0 then edit_refresh env eb else eb)
    else { eb with hint := [], hint_help := [] }
  -- update terminal in case of a resize
  let eb2 := if ev.resize_event then (edit_resize env ev.width_changed eb1).2 else eb1
  -- clear hint only after a potential resize
  ({ eb2 with hint := [], hint_help := [] }, decide (sbuf_len eb2.hint > 0))

/-- The second part of a round of the loop of `edit_line`, for the key `c`: the binding
lookup and the hardcoded dispatch, with the operation they run. -/
def edit_line_dispatch (d : edit_deps) (width_changed : Bool) (env : ic_env_t) (eb : editor_t)
    (c : Nat) : edit_line_state :=
  match edit_line_key d.code_is_ascii_char d.code_is_unicode env eb
      (edit_pos_is_at_row_end d env eb) c with
  | .bound op => .reading (edit_apply d width_changed env eb op).1 (edit_apply d width_changed env eb op).2
  | .hardcoded op =>
    .reading (edit_apply d width_changed env eb op).1 (edit_apply d width_changed env eb op).2
  | .exit op => .left (edit_apply d width_changed env eb op).1 (edit_apply d width_changed env eb op).2 c

/-- One round of the `while (true)` loop of `edit_line` for the event `ev`. A Right or
End key that moves into a hint completes it first and goes on as `KEY_NONE`. -/
def edit_line_round (d : edit_deps) (env : ic_env_t) (eb : editor_t) (ev : key_event) :
    edit_line_state :=
  if (ev.code = IC_KEY_RIGHT ∨ ev.code = IC_KEY_END) ∧ (edit_line_prelude env eb ev).2 = true then
    edit_line_dispatch d ev.width_changed
      (d.edit_generate_completions true env (edit_line_prelude env eb ev).1).1
      (d.edit_generate_completions true env (edit_line_prelude env eb ev).1).2 IC_KEY_NONE
  else edit_line_dispatch d ev.width_changed env (edit_line_prelude env eb ev).1 ev.code

/-- The start of `edit_line` up to the loop: the editor state is set up, the initial
input (the field `initial_input` of the environment, here an argument as in
`ic_readline_first_key`) goes in and is shown, and the history gets its placeholder
entry. -/
def edit_line_start (env : ic_env_t) (initial_input : Option (List Nat)) :
    ic_env_t × editor_t :=
  let eb0 : editor_t := { input := [], pos := 0 }
  let eb1 :=
    match initial_input with
    | some s => edit_refresh env { eb0 with input := s, pos := sbuf_len s }
    | none => eb0
  ({ env with history := history_push env.history_allow_duplicates env.history [] }, eb1)

/-- The loop of `edit_line` over the events that arrive; events after the one that
leaves the loop are not read. -/
def edit_line_loop (d : edit_deps) : ic_env_t → editor_t → List key_event → edit_line_state
  | env, eb, [] => .reading env eb
  | env, eb, ev :: rest =>
    match edit_line_round d env eb ev with
    | .reading env1 eb1 => edit_line_loop d env1 eb1 rest
    | .left env1 eb1 c => .left env1 eb1 c

/-- The part of `edit_line` after the loop, left on key `c`: the cursor goes to the
end, the line is refreshed, the result is taken from the input, and the history
placeholder is rewritten to the input and then removed again when the result is NULL or
the input has at most one byte. The prompt cleanup, which only writes to the terminal,
and the freeing of the buffers are not modelled. -/
def edit_line_finish (tty_is_utf8 : Bool) (from_utf8 : List Nat → List Nat)
    (env : ic_env_t) (eb : editor_t) (c : Nat) : Option (List Nat) × ic_env_t :=
  let eb1 := edit_refresh env { eb with pos := sbuf_len eb.input }
  let res := edit_line_result tty_is_utf8 from_utf8 c eb1.input
  let env1 := { env with history := history_update env.history eb1.input }
  (res, if res.isNone ∨ sbuf_len eb1.input ≤ 1 then ic_history_remove_last env1 else env1)

/-- The function `edit_line` on the events that arrive during the read: `none` while
the loop still waits for a key, else the returned string (`none` for NULL) and the
environment after the read. -/
def edit_line (d : edit_deps) (tty_is_utf8 : Bool) (from_utf8 : List Nat → List Nat)
    (env : ic_env_t) (initial_input : Option (List Nat)) (events : List key_event) :
    Option (Option (List Nat) × ic_env_t) :=
  match edit_line_loop d (edit_line_start env initial_input).1
      (edit_line_start env initial_input).2 events with
  | .reading _ _ => none
  | .left env1 eb1 c => some (edit_line_finish tty_is_utf8 from_utf8 env1 eb1 c)

/-- The editor state of a loop state. -/
def edit_line_state.eb : edit_line_state → editor_t
  | .reading _ eb => eb
  | .left _ eb _ => eb

/-- The environment of a loop state. -/
def edit_line_state.env : edit_line_state → ic_env_t
  | .reading env _ => env
  | .left env _ _ => env

/-- The key on which the loop was left, `none` while it still reads. -/
def edit_line_state.left_on : edit_line_state → Option Nat
  | .reading _ _ => none
  | .left _ _ c => some c

/-- A sample of the functions that are not at hand, for evaluating the editor on
concrete keys: printable ASCII and code points up to `0x10FFFF` are text, no brace is
ever matched or balanced, there are no completions, the input is laid out on one row,
and the completion and history operations leave the state alone. -/
def sample_deps : edit_deps :=
  { code_is_ascii_char := fun c => decide (32 ≤ c ∧ c ≤ 126),
    code_is_unicode := fun c => decide (c ≤ IC_KEY_UNICODE_MAX),
    find_matching_brace := fun _ _ _ => (none, false),
    hint_probe := fun _ _ _ => none,
    edit_get_rowcol := fun _ eb =>
      (1, { row := 0, col := eb.pos, last_on_row := decide (eb.pos = eb.input.length) }),
    sbuf_get_pos_at_rc := fun _ _ _ _ => none,
    edit_generate_completions := fun _ env eb => (env, eb),
    edit_history_search_with_current_word := fun env eb => (env, eb),
    edit_history_prev := fun env eb => (env, eb),
    edit_history_next := fun env eb => (env, eb),
    edit_history_prefix_prev := fun env eb => (env, eb),
    edit_history_prefix_next := fun env eb => (env, eb) }

/-- The editing operations that change the buffer: insertion of a byte or a code point
(with auto-brace and auto-indent), backspace, delete-forward, the deletions to a word
or line start or end, the transposition, delete-all and the change of a continuation
marker into a newline. -/
def is_mutating_op : edit_op → Bool
  | .edit_insert_char _ => true
  | .edit_insert_unicode _ => true
  | .edit_backspace => true
  | .edit_delete_char => true
  | .edit_delete_to_end_of_word => true
  | .edit_delete_to_start_of_ws_word => true
  | .edit_delete_to_start_of_word => true
  | .edit_delete_to_start_of_line => true
  | .edit_delete_to_end_of_line => true
  | .edit_swap_char => true
  | .edit_delete_all => true
  | .edit_multiline_eol => true
  | _ => false

/-- The part of the editor state that the undo machinery owns: the two stacks and the
flag `disable_undo`. -/
def edit_stacks (eb : editor_t) : List (List Nat × Nat) × List (List Nat × Nat) × Bool :=
  (eb.undo, eb.redo, eb.disable_undo)

/-- Two editor states with the same text: they agree on everything but `extra` and the
hint buffers. -/
def same_text (a b : editor_t) : Prop :=
  a.input = b.input ∧ a.pos = b.pos ∧ a.modified = b.modified ∧
  a.disable_undo = b.disable_undo ∧ a.undo = b.undo ∧ a.redo = b.redo

/-- The editor state after the keys `a` and Ctrl+Z on a fresh editor. -/
def state_after_a_undo : editor_t :=
  (edit_line_loop sample_deps (ic_env_create (fun _ => true)) { input := [], pos := 0 }
    [{ code := 97 }, { code := IC_KEY_CTRL_Z }]).eb

/-! ## The cursor invariant in the words of the specification -/

/-- A position of the buffer that is a UTF-8 code-point boundary inside it: it is at
most the length, and the byte there, if any, is no continuation byte. -/
def is_utf8_boundary (s : List Nat) (pos : Nat) : Prop :=
  pos ≤ s.length ∧ ∀ b, s[pos]? = some b → is_utf8_cont b = false

/-- No continuation byte of the text comes right after the byte `prev` or another byte
below `0x80`: every continuation byte follows a lead or continuation byte. -/
def utf8_chain : Nat → List Nat → Bool
  | _, [] => true
  | prev, b :: rest => (!(is_utf8_cont b) || decide (128 ≤ prev)) && utf8_chain b rest

/-- A text in which every continuation byte follows a lead or continuation byte, as in
all UTF-8 text; in particular it does not start with a continuation byte. -/
def utf8_framed (s : List Nat) : Bool := utf8_chain 0 s

/-- The cursor is inside the buffer and the bytes before it and the bytes from it on
are both framed texts. -/
def cursor_ok (s : List Nat) (pos : Nat) : Prop :=
  pos ≤ s.length ∧ utf8_framed (s.take pos) = true ∧ utf8_framed (s.drop pos) = true

/-- The invariant of the editor state: the cursor is fine in the buffer, and so is the
cursor of every snapshot on the undo and redo stacks. -/
def edit_inv (eb : editor_t) : Prop :=
  cursor_ok eb.input eb.pos ∧ (∀ e ∈ eb.undo, cursor_ok e.1 e.2) ∧
  (∀ e ∈ eb.redo, cursor_ok e.1 e.2)

/-- The invariant of the environment: no insertion brace is a continuation byte (the
default braces are ASCII). -/
def env_inv (env : ic_env_t) : Prop :=
  ∀ b ∈ ic_env_get_auto_braces env, is_utf8_cont b = false

/-- What the cursor invariant needs of an operation that is not at hand: it keeps the
invariants of the environment and of the editor state. -/
def keeps_inv (f : ic_env_t → editor_t → ic_env_t × editor_t) : Prop :=
  ∀ env eb, env_inv env → edit_inv eb → env_inv (f env eb).1 ∧ edit_inv (f env eb).2

/-- What the cursor invariant needs of the functions that are not at hand: a key that
`code_is_ascii_char` accepts has an ASCII byte, the brace search and the row layout
answer with code-point boundaries of the buffer, and the completion and history
operations keep the invariants. -/
structure deps_keep_cursor (d : edit_deps) : Prop where
  ascii : ∀ c, d.code_is_ascii_char c = true → c % 256 < 128
  brace : ∀ s pos braces m, (d.find_matching_brace s pos braces).1 = some m →
    utf8_framed s = true → is_utf8_boundary s m
  layout : ∀ env eb row col m, d.sbuf_get_pos_at_rc env eb row col = some m →
    utf8_framed eb.input = true → is_utf8_boundary eb.input m
  completions : ∀ autotab, keeps_inv (d.edit_generate_completions autotab)
  search : keeps_inv d.edit_history_search_with_current_word
  history_prev : keeps_inv d.edit_history_prev
  history_next : keeps_inv d.edit_history_next
  prefix_prev : keeps_inv d.edit_history_prefix_prev
  prefix_next : keeps_inv d.edit_history_prefix_next

/-- An operation that inserts a byte inserts no continuation byte. -/
def op_ok (op : edit_op) : Prop := ∀ c, op = .edit_insert_char c → is_utf8_cont c = false

/-- The operation that a step of the loop runs. -/
def key_step.op : key_step → edit_op
  | .bound op => op
  | .hardcoded op => op
  | .exit op => op

/-! ## The rendering of `edit_refresh` (`editline.c`) -/

/-- The visible window that `edit_refresh` computes ("only render at most terminal
height rows"): `first_row` and `last_row` from the total number of rows, the cursor row
`rc.row` and the terminal height. -/
def edit_refresh_window (rows rc_row termh : Int) : Int × Int :=
  if rows > termh then
    let first_row := if rc_row - termh + 1 < 0 then 0 else rc_row - termh + 1
    (first_row, first_row + termh - 1)
  else (0, rows - 1)

/-- The window of the extra rows in `edit_refresh`, computed when `rows_extra > 0`:
`first_rowx` and `last_rowx`. -/
def edit_refresh_extra_window (rows_input rows_extra rc_row termh : Int) : Int × Int :=
  let w := edit_refresh_window (rows_input + rows_extra) rc_row termh
  (if w.1 > rows_input then w.1 - rows_input else 0, w.2 - rows_input)

/-! ## The prompt of `edit_line` (`editline.c`) -/

/-- The loop of libc `strrchr` over the bytes before the terminator: the index of the
last byte equal to `c` seen so far, `i` the index of the head of `s`. -/
def strrchr_loop (c : Nat) : List Nat → Nat → Option Nat → Option Nat
  | [], _, last => last
  | x :: xs, i, last => strrchr_loop c xs (i + 1) (if x = c then some i else last)

/-- Libc `strrchr` for a byte other than the terminator: the index of the last
occurrence of `c` in `s`, `none` for the null pointer. -/
def strrchr (s : List Nat) (c : Nat) : Option Nat := strrchr_loop c s 0 none

/-- Modelled from the spec: `mem_strdup` of `common.c`, a fresh copy of the string
(the allocation succeeds). -/
def mem_strdup (s : List Nat) : List Nat := s

/-- `extract_last_prompt_line`: the prompt text kept for the edit row; `none` is the
null pointer. -/
def extract_last_prompt_line (prompt_text : Option (List Nat)) : List Nat :=
  match prompt_text with
  | none => mem_strdup (cstr "")
  | some p =>
    match strrchr p 10 with
    | none => mem_strdup p
    | some last_newline => mem_strdup (p.drop (last_newline + 1))

/-- `print_prompt_prefix_lines`: the text handed to `bbcode_print` (empty when nothing
is printed) and the returned number of lines. `malloc_ok` tells whether the allocation
of the copy of the prefix succeeds. -/
def print_prompt_prefix_lines (malloc_ok : Bool) (prompt_text : Option (List Nat)) :
    List Nat × Int :=
  match prompt_text with
  | none => ([], 0)
  | some p =>
    match strrchr p 10 with
    | none => ([], 0)
    | some last_newline =>
      let prefix_length := last_newline + 1
      if !malloc_ok then ([], 0)
      else
        let pre := p.take prefix_length
        let lines := (p.take (last_newline + 1)).foldl
          (fun (lines : Int) ch => if ch = 10 then lines + 1 else lines) 0
        (pre, lines)


/-- The local buffer `extra` that `edit_refresh` renders below the input: `none` when
the editor's `extra` is empty, else the help for the hint followed by the editor's
`extra`, both through `bbcode_append` (of `bbcode.c`, a parameter here). -/
def edit_refresh_extra (bbcode_append : List Nat → List Nat) (eb : editor_t) :
    Option (List Nat) :=
  if sbuf_len eb.extra > 0 then
    some ((if sbuf_len eb.hint_help > 0 then bbcode_append eb.hint_help else []) ++
      bbcode_append eb.extra)
  else none

/-- An editor state with a completion menu of two entries in `extra` and the help of a
hint in `hint_help`. -/
def menu_with_hint_help : editor_t :=
  { input := cstr "gi", pos := 2, extra := cstr "1 git\n2 gist", hint := cstr "t",
    hint_help := cstr "[ic-info]vcs[/ic-info]\n" }

/-! ## The key labels of the help screen (`editline_help.c`) -/

/-- The function `keybinding_profile_find_spec` (`isocline_keybindings.c`): the first
spec string for the action in the profile or, failing that, in its parents; `none` is
NULL. -/
def keybinding_profile_find_spec : keybinding_profile_ptr → Int → Option (List Nat)
  | .NULL, _ => none
  | .profile _ _ parent specs _, action =>
    match specs.find? (fun e => decide (e.1 = action)) with
    | some e => some e.2
    | none => keybinding_profile_find_spec parent action

/-- The function `ic_key_binding_profile_default_specs`. -/
def ic_key_binding_profile_default_specs (env : ic_env_t) (action : Int) :
    Option (List Nat) :=
  if action ≤ IC_KEY_ACTION_NONE ∨ action ≥ IC_KEY_ACTION__MAX then none
  else
    keybinding_profile_find_spec
      (if env.key_binding_profile ≠ .NULL then env.key_binding_profile
       else keybinding_profile_default) action

/-- The helper `key_triggers_action`. -/
def key_triggers_action (env : ic_env_t) (key : Nat) (action : Int) : Bool :=
  match ic_get_key_binding env key with
  | some configured => decide (configured = action)
  | none => true

/-- Modelled from the spec: `ic_strnicmp(a, b, n) == 0` of `common.c` ("compare at most
`n` characters, ignoring case"). -/
def ic_strnicmp_eq (a b : List Nat) (n : Nat) : Bool :=
  (a.take n).map tolower == (b.take n).map tolower

/-- Modelled from the spec: `ic_strncpy` of `common.c`, the string left in a
destination of `dest_size` bytes: at most `n` bytes of `src`, cut to leave room for the
terminator. -/
def ic_strncpy (dest_size : Nat) (src : List Nat) (n : Nat) : List Nat :=
  src.take (min n (dest_size - 1))

/-- The helper `beautify_key_label`: `ctrl+x` becomes `^x`, in every other label each
`+` becomes `-`. -/
def beautify_key_label (label : List Nat) : List Nat :=
  let len := label.length
  if len ≥ 6 ∧ ic_strnicmp_eq label (cstr "ctrl+") 5 = true ∧ 43 ∉ label.drop 5 ∧
      (label.drop 5).length = 1 then
    [94, label.getD 5 0]
  else label.map (fun c => if c = 43 then 45 else c)

def HELP_MAX_LABELS : Nat := 16
def HELP_LABEL_LEN : Nat := 64

/-- The helper `key_label_equals`. -/
def key_label_equals (a b : List Nat) : Bool := ic_stricmp_eq a b

/-- The helper `help_label_exists` over the `count` labels stored so far. -/
def help_label_exists (labels : List (List Nat)) (label : List Nat) : Bool :=
  labels.any (fun l => key_label_equals l label)

/-- The helper `help_label_add`: the labels stored after the call (`*count` is the
length of the list). -/
def help_label_add (labels : List (List Nat)) (label : List Nat) : List (List Nat) :=
  if labels.length ≥ HELP_MAX_LABELS then labels
  else if help_label_exists labels label then labels
  else labels ++ [beautify_key_label (ic_strncpy HELP_LABEL_LEN label (HELP_LABEL_LEN - 1))]

/-- The body of the spec loop of `format_binding_keys` for the token `spec[start..i)`:
trim the spaces, parse, and add the label of the key when the key triggers the
action. -/
def format_binding_token (env : ic_env_t) (action : Int) (token : List Nat)
    (labels : List (List Nat)) : List (List Nat) :=
  let tok_len := token.length
  if tok_len > 0 ∧ tok_len < 64 then
    let trimmed := ((token.dropWhile (fun c => decide (c = 32))).reverse.dropWhile
      (fun c => decide (c = 32))).reverse
    if trimmed.length > 0 then
      match ic_parse_key_spec trimmed with
      | some key =>
        if key_triggers_action env key action then
          if (ic_format_key_spec key 64).1 then
            help_label_add labels (ic_format_key_spec key 64).2
          else labels
        else labels
      | none => labels
    else labels
  else labels

/-- The spec loop of `format_binding_keys` over the bytes from `i` on, `token` the
bytes since `start`: a token ends at `|` and at the terminator. -/
def format_binding_specs_loop (env : ic_env_t) (action : Int) :
    List Nat → List Nat → List (List Nat) → List (List Nat)
  | [], token, labels => format_binding_token env action token labels
  | c :: rest, token, labels =>
    if c = 124 then
      format_binding_specs_loop env action rest [] (format_binding_token env action token labels)
    else format_binding_specs_loop env action rest (token ++ [c]) labels

/-- The table loop of `format_binding_keys`: the label of every entry bound to the
action. -/
def format_binding_table_loop (action : Int) :
    List ic_key_binding_entry_t → List (List Nat) → List (List Nat)
  | [], labels => labels
  | entry :: rest, labels =>
    if entry.action ≠ action then format_binding_table_loop action rest labels
    else if (ic_format_key_spec entry.key 64).1 then
      format_binding_table_loop action rest
        (help_label_add labels (ic_format_key_spec entry.key 64).2)
    else format_binding_table_loop action rest labels

/-- The labels that `format_binding_keys` collects; `default_specs = none` is NULL. -/
def format_binding_labels (env : ic_env_t) (action : Int) (default_specs : Option (List Nat)) :
    List (List Nat) :=
  let specs_to_use :=
    if (default_specs = none ∨ default_specs = some []) ∧ action > IC_KEY_ACTION_NONE ∧
        action < IC_KEY_ACTION__MAX then
      ic_key_binding_profile_default_specs env action
    else default_specs
  let labels1 :=
    match specs_to_use with
    | some (c :: rest) => format_binding_specs_loop env action (c :: rest) [] []
    | _ => []
  format_binding_table_loop action env.key_bindings labels1

/-- The output loop of `format_binding_keys`: `snprintf` of the labels, the later ones
after `, `, into what is left of the buffer. -/
def format_binding_join : Nat → List (List Nat) → Nat → Nat → List Nat → List Nat
  | _, [], _, _, buffer => buffer
  | buflen, l :: ls, i, pos, buffer =>
    let text := (if i = 0 then [] else cstr ", ") ++ l
    let buffer1 := buffer.take pos ++ text.take (buflen - pos - 1)
    if pos + text.length ≥ buflen then buffer1
    else format_binding_join buflen ls (i + 1) (pos + text.length) buffer1

/-- The function `format_binding_keys` on a buffer of `buflen > 0` bytes: the string
left in the buffer. -/
def format_binding_keys (env : ic_env_t) (action : Int) (default_specs : Option (List Nat))
    (buflen : Nat) : List Nat :=
  let labels := format_binding_labels env action default_specs
  if labels.length = 0 then ic_strncpy buflen (cstr "(unbound)") (buflen - 1)
  else format_binding_join buflen labels 0 0 []

/-! ## The default specs against the hardcoded dispatch -/

/-- The alternatives of a spec string: its parts between the `|` separators. -/
def spec_alternatives_loop : List Nat → List Nat → List (List Nat)
  | [], cur => [cur]
  | c :: rest, cur =>
    if c = 124 then cur :: spec_alternatives_loop rest []
    else spec_alternatives_loop rest (cur ++ [c])

def spec_alternatives (specs : List Nat) : List (List Nat) := spec_alternatives_loop specs []

/-- Every action of the table of the default profile with each alternative of its spec
string. -/
def default_spec_alternatives : List (Int × List Nat) :=
  keybinding_profile_default_spec_entries.flatMap
    (fun e => (spec_alternatives e.2).map (fun s => (e.1, s)))

/-- Whether the spec parses and, with no binding for its key, the round of the editor
loop for the parsed key runs the operation of the action and goes on. -/
def spec_dispatch_agrees (code_is_ascii_char code_is_unicode : Nat → Bool) (env : ic_env_t)
    (eb : editor_t) (at_row_end : Bool) (action : Int) (spec : List Nat) : Bool :=
  match ic_parse_key_spec spec, key_action_execute env eb action with
  | some key, some op =>
    decide (edit_line_key code_is_ascii_char code_is_unicode env eb at_row_end key
      = .hardcoded op)
  | _, _ => false

/-! ## Formatting a key and parsing the text again -/

/-- The bases that `ic_parse_key_spec` reads back from the name `ic_format_key_spec`
gives them: a printable ASCII character other than `+` and `-` (the separators), an
upper-case letter (tokens are read in lower case) and the letters `c` and `s`, and,
under the Ctrl flag, other than a lower-case letter (Ctrl with a letter is read as a
control code); tab, enter, linefeed, backspace, esc, the virtual keys up .. insert and
F1 .. F24. -/
def round_trip_base (ctrl : Bool) (b : Nat) : Bool :=
  decide ((32 ≤ b ∧ b ≤ 127 ∧ b ≠ 43 ∧ b ≠ 45 ∧ ¬(65 ≤ b ∧ b ≤ 90) ∧ b ≠ 99 ∧ b ≠ 115 ∧
      (ctrl = true → ¬(97 ≤ b ∧ b ≤ 122)))
    ∨ b = IC_KEY_TAB ∨ b = IC_KEY_ENTER ∨ b = IC_KEY_LINEFEED ∨ b = IC_KEY_BACKSP
    ∨ b = IC_KEY_ESC ∨ (IC_KEY_UP ≤ b ∧ b ≤ IC_KEY_INS)
    ∨ (IC_KEY_F1 ≤ b ∧ b ≤ IC_KEY_F1 + 23))

/-- The key codes below `2^31` (no bit above the three modifier flags) that are a
control code 1..26 other than Ctrl+C and Ctrl+S, or whose base is read back. -/
def round_trip_key (k : Nat) : Bool :=
  decide (k < 2 ^ 31) &&
    (decide (1 ≤ k ∧ k ≤ 26 ∧ k ≠ 3 ∧ k ≠ 19) ||
      round_trip_base (decide (k &&& IC_KEY_MOD_CTRL ≠ 0)) (IC_KEY_NO_MODS k))

/-- Whether formatting `k` in a buffer of 64 bytes succeeds with a text other than
`none` that parses to `k` again. -/
def format_parse_round_trip (k : Nat) : Bool :=
  (ic_format_key_spec k 64).1 && (ic_format_key_spec k 64).2 != cstr "none" &&
    (ic_parse_key_spec (ic_format_key_spec k 64).2 == some k)

/-- The bases that have a name, as a list, and the keys made of three flag bits and such
a base. -/
def named_bases : List Nat :=
  List.range' 1 127 ++ List.range' IC_KEY_VIRT 10 ++ List.range' IC_KEY_F1 24

def named_keys : List Nat :=
  (List.range 8).flatMap (fun q => named_bases.map (fun b => 2 ^ 28 * q ||| b))

/-! ## Rendering a row (`editline.c`) -/

theorem find_entry_index_eq_none (l : List ic_key_binding_entry_t) (k : Nat) :
    find_entry_index l k = none ↔ ∀ e ∈ l, e.key ≠ k := by
  induction l with
  | nil => simp [find_entry_index]
  | cons e es ih =>
    by_cases h : e.key = k
    · simp [find_entry_index, h]
    · simp [find_entry_index, h, ih]

theorem find_entry_index_eq_some (l : List ic_key_binding_entry_t) (k i : Nat)
    (h : find_entry_index l k = some i) :
    ∃ pre old post, l = pre ++ old :: post ∧ pre.length = i ∧ old.key = k
      ∧ ∀ e ∈ pre, e.key ≠ k := by
  induction l generalizing i with
  | nil => simp [find_entry_index] at h
  | cons e es ih =>
    by_cases hk : e.key = k
    · simp [find_entry_index, hk] at h
      exact ⟨[], e, es, by simp, by simp [h], hk, by simp⟩
    · simp [find_entry_index, hk] at h
      obtain ⟨j, hj, hji⟩ := h
      obtain ⟨pre, old, post, hl, hlen, hold, hpre⟩ := ih j hj
      refine ⟨e :: pre, old, post, by simp [hl], by simp [hlen, hji], hold, ?_⟩
      intro x hx
      rcases List.mem_cons.mp hx with hx | hx
      · rw [hx]; exact hk
      · exact hpre x hx

theorem find_entry_index_append (pre post : List ic_key_binding_entry_t)
    (old : ic_key_binding_entry_t) (k : Nat) (hold : old.key = k)
    (hpre : ∀ e ∈ pre, e.key ≠ k) :
    find_entry_index (pre ++ old :: post) k = some pre.length := by
  induction pre with
  | nil => simp [find_entry_index, hold]
  | cons e es ih =>
    have he : e.key ≠ k := hpre e (by simp)
    have ih1 := ih (fun x hx => hpre x (by simp [hx]))
    simp [find_entry_index, he, ih1]

/-- The action reported by `ic_get_key_binding` is that of the first entry with the key. -/
theorem ic_get_key_binding_eq_find (env : ic_env_t) (k : Nat) :
    ic_get_key_binding env k
      = (env.key_bindings.find? (fun e => decide (e.key = k))).map (fun e => e.action) := by
  unfold ic_get_key_binding key_binding_find_entry
  generalize env.key_bindings = l
  induction l with
  | nil => simp [find_entry_index]
  | cons e es ih =>
    by_cases hk : e.key = k
    · simp [find_entry_index, hk]
    · simp only [find_entry_index, hk, if_false, List.find?_cons, decide_False]
      cases hf : find_entry_index es k with
      | none => rw [hf] at ih; simpa using ih
      | some j => rw [hf] at ih; simpa using ih

theorem modify_at_split (pre post : List ic_key_binding_entry_t)
    (old : ic_key_binding_entry_t) (f : ic_key_binding_entry_t → ic_key_binding_entry_t) :
    (pre ++ old :: post).modify f pre.length = pre ++ f old :: post := by
  induction pre with
  | nil => simp [List.modify]
  | cons e es ih =>
    show e :: List.modify f es.length (es ++ old :: post) = e :: (es ++ f old :: post)
    rw [ih]

theorem grow_capacity_ge (fuel c needed : Nat) (h : needed ≤ c * 2 ^ fuel) :
    needed ≤ grow_capacity fuel c needed := by
  induction fuel generalizing c with
  | zero => simpa [grow_capacity] using h
  | succ n ih =>
    unfold grow_capacity
    split
    · apply ih
      rw [pow_succ] at h
      calc needed ≤ c * (2 ^ n * 2) := h
        _ = c * 2 * 2 ^ n := by ring
    · omega

/-- What `key_bindings_ensure_capacity` does: on failure nothing changes, on success
only the capacity may change, and it is then at least `needed`. -/
theorem key_bindings_ensure_capacity_spec (env : ic_env_t) (needed : Nat) :
    (∃ c, (key_bindings_ensure_capacity env needed).2 = { env with key_binding_capacity := c })
    ∧ ((key_bindings_ensure_capacity env needed).1 = false →
      (key_bindings_ensure_capacity env needed).2 = env)
    ∧ ((key_bindings_ensure_capacity env needed).1 = true →
      needed ≤ (key_bindings_ensure_capacity env needed).2.key_binding_capacity)
    ∧ (needed ≤ env.key_binding_capacity → key_bindings_ensure_capacity env needed = (true, env)) := by
  unfold key_bindings_ensure_capacity
  by_cases hc : env.key_binding_capacity ≥ needed
  · rw [if_pos hc]
    exact ⟨⟨env.key_binding_capacity, rfl⟩, fun _ => rfl, fun _ => hc, fun _ => rfl⟩
  · rw [if_neg hc]
    have hpow : needed ≤ 2 ^ needed := Nat.le_of_lt (Nat.lt_two_pow needed)
    have hgrow : needed ≤ grow_capacity needed
        (if env.key_binding_capacity = 0 then 8 else env.key_binding_capacity * 2) needed := by
      apply grow_capacity_ge
      split
      · calc needed ≤ 2 ^ needed := hpow
          _ ≤ 8 * 2 ^ needed := by omega
      · rename_i h0
        have h1 : 1 ≤ env.key_binding_capacity * 2 := by omega
        calc needed ≤ 1 * 2 ^ needed := by simpa using hpow
          _ ≤ env.key_binding_capacity * 2 * 2 ^ needed := Nat.mul_le_mul_right _ h1
    by_cases hm : env.mem_realloc_ok (grow_capacity needed
        (if env.key_binding_capacity = 0 then 8 else env.key_binding_capacity * 2) needed) = true
    · simp only [hm, if_true]
      exact ⟨⟨_, rfl⟩, fun h => by simp at h, fun _ => hgrow, fun h => absurd h hc⟩
    · simp only [hm]
      exact ⟨⟨env.key_binding_capacity, rfl⟩, fun _ => rfl, fun h => by simp at h,
        fun h => absurd h hc⟩

/-- A failing `ic_bind_key` leaves the environment as it was. -/
theorem ic_bind_key_false (env env1 : ic_env_t) (key : Nat) (action : Int)
    (h : ic_bind_key env key action = (false, env1)) : env1 = env := by
  unfold ic_bind_key at h
  split at h
  · simpa using h.symm
  · split at h
    · simp at h
    · have hs := key_bindings_ensure_capacity_spec env (env.key_binding_count + 1)
      split at h
      · rename_i e1 he
        rw [he] at hs
        have := hs.2.1 rfl
        simp only [Prod.mk.injEq, true_and] at h
        rw [← h]; exact this
      · simp at h

/-- What a successful `ic_bind_key` does to the table: an existing entry for the key
has its action replaced in place, otherwise one entry is appended; the profile and
the allocator stay, and the capacity covers the table if it did before. -/
theorem ic_bind_key_true (env env1 : ic_env_t) (key : Nat) (action : Int)
    (h : ic_bind_key env key action = (true, env1)) :
    IC_KEY_ACTION_NONE ≤ action ∧ action < IC_KEY_ACTION__MAX
    ∧ env1.key_binding_profile = env.key_binding_profile
    ∧ env1.mem_realloc_ok = env.mem_realloc_ok
    ∧ env1.singleline_only = env.singleline_only
    ∧ env1.multiline_eol = env.multiline_eol
    ∧ ((∃ pre old post, env.key_bindings = pre ++ old :: post ∧ old.key = key
          ∧ (∀ e ∈ pre, e.key ≠ key)
          ∧ env1.key_bindings = pre ++ { key := key, action := action } :: post
          ∧ env1.key_binding_capacity = env.key_binding_capacity)
        ∨ ((∀ e ∈ env.key_bindings, e.key ≠ key)
          ∧ env1.key_bindings = env.key_bindings ++ [{ key := key, action := action }]
          ∧ env1.key_bindings.length ≤ env1.key_binding_capacity)) := by
  unfold ic_bind_key at h
  split at h
  · simp at h
  · rename_i hact
    have ha : IC_KEY_ACTION_NONE ≤ action ∧ action < IC_KEY_ACTION__MAX := by
      constructor <;> omega
    refine ⟨ha.1, ha.2, ?_⟩
    split at h
    · rename_i index hfind
      obtain ⟨pre, old, post, hl, hlen, hold, hpre⟩ :=
        find_entry_index_eq_some env.key_bindings key index hfind
      simp only [Prod.mk.injEq, true_and] at h
      subst h
      refine ⟨rfl, rfl, rfl, rfl, Or.inl ⟨pre, old, post, hl, hold, hpre, ?_, rfl⟩⟩
      show List.modify _ index env.key_bindings = _
      rw [hl, ← hlen, modify_at_split]
      simp [hold]
    · rename_i hfind
      have hnone := (find_entry_index_eq_none env.key_bindings key).mp hfind
      have hs := key_bindings_ensure_capacity_spec env (env.key_binding_count + 1)
      split at h
      · simp at h
      · rename_i e1 he
        rw [he] at hs
        obtain ⟨⟨c, hc⟩, _, hcap, _⟩ := hs
        simp only [Prod.mk.injEq, true_and] at h
        subst h
        have hcap1 := hcap rfl
        simp only at hc hcap1
        subst hc
        refine ⟨rfl, rfl, rfl, rfl, Or.inr ⟨hnone, rfl, ?_⟩⟩
        simp only [List.length_append, List.length_singleton]
        exact hcap1

theorem find_key_append_self (pre post : List ic_key_binding_entry_t)
    (x : ic_key_binding_entry_t) (k : Nat) (hx : x.key = k) (hpre : ∀ e ∈ pre, e.key ≠ k) :
    (pre ++ x :: post).find? (fun e => decide (e.key = k)) = some x := by
  induction pre with
  | nil => simp [hx]
  | cons e es ih =>
    have he : e.key ≠ k := hpre e (by simp)
    simpa [List.find?_cons, he] using ih (fun y hy => hpre y (by simp [hy]))

theorem find_key_append_other (pre post : List ic_key_binding_entry_t)
    (x : ic_key_binding_entry_t) (k : Nat) (hx : x.key ≠ k) :
    (pre ++ x :: post).find? (fun e => decide (e.key = k))
      = (pre ++ post).find? (fun e => decide (e.key = k)) := by
  induction pre with
  | nil => simp [List.find?_cons, hx]
  | cons e es ih =>
    by_cases he : e.key = k
    · simp [List.find?_cons, he]
    · simpa [List.find?_cons, he] using ih

theorem find_key_none (l : List ic_key_binding_entry_t) (k : Nat) (h : ∀ e ∈ l, e.key ≠ k) :
    l.find? (fun e => decide (e.key = k)) = none := by
  simpa using h

theorem clear_shift_loop_take (post pre : List ic_key_binding_entry_t)
    (x : ic_key_binding_entry_t) (fuel : Nat) (hfuel : post.length ≤ fuel) :
    (clear_shift_loop fuel (pre ++ x :: post) pre.length).take (pre.length + post.length)
      = pre ++ post := by
  induction post generalizing pre x fuel with
  | nil =>
    cases fuel <;> simp [clear_shift_loop]
  | cons y ys ih =>
    cases fuel with
    | zero => simp at hfuel
    | succ f =>
      have hlt : pre.length + 1 < (pre ++ x :: y :: ys).length := by simp
      have hget : (pre ++ x :: y :: ys).getD (pre.length + 1) default = y := by
        clear hlt ih hfuel
        induction pre with
        | nil => rfl
        | cons e es ih1 => simpa using ih1
      have hset : (pre ++ x :: y :: ys).set pre.length y = (pre ++ [y]) ++ y :: ys := by
        simp [List.set_append]
      have hlen : (pre ++ [y]).length = pre.length + 1 := by simp
      unfold clear_shift_loop
      rw [if_pos hlt, hget, hset, ← hlen]
      have := ih (pre ++ [y]) y f (by simpa using hfuel)
      rw [show (pre ++ [y]).length + ys.length = (pre ++ [y]).length - 1 + (y :: ys).length by
        simp; omega] at this
      simpa using this

/-- What `ic_clear_key_binding` does to the table: without an entry for the key it
fails and changes nothing; otherwise it removes the first entry with that key and
keeps all others in place. -/
theorem ic_clear_key_binding_cases (env : ic_env_t) (k : Nat) :
    ((∀ e ∈ env.key_bindings, e.key ≠ k) ∧ ic_clear_key_binding env k = (false, env))
    ∨ (∃ pre old post, env.key_bindings = pre ++ old :: post ∧ old.key = k
        ∧ (∀ e ∈ pre, e.key ≠ k)
        ∧ ic_clear_key_binding env k = (true, { env with key_bindings := pre ++ post })) := by
  unfold ic_clear_key_binding key_binding_find_entry
  cases hfind : find_entry_index env.key_bindings k with
  | none =>
    exact Or.inl ⟨(find_entry_index_eq_none _ _).mp hfind, rfl⟩
  | some index =>
    obtain ⟨pre, old, post, hl, hlen, hold, hpre⟩ :=
      find_entry_index_eq_some env.key_bindings k index hfind
    refine Or.inr ⟨pre, old, post, hl, hold, hpre, ?_⟩
    have hcount : env.key_binding_count = pre.length + post.length + 1 := by
      simp [ic_env_t.key_binding_count, hl]; omega
    have htake := clear_shift_loop_take post pre old env.key_binding_count (by omega)
    simp only
    rw [if_pos (by omega : env.key_binding_count > 0)]
    rw [show env.key_binding_count - 1 = pre.length + post.length by omega, ← hlen] at *
    rw [hl, hlen, htake]

/-! ### The keys of a reachable table are distinct -/

theorem ic_bind_key_keys_nodup (env : ic_env_t) (key : Nat) (action : Int)
    (h : keys_nodup env) : keys_nodup (ic_bind_key env key action).2 := by
  rcases hb : ic_bind_key env key action with ⟨b, e⟩
  cases b
  · rw [ic_bind_key_false env e key action hb]; exact h
  · obtain ⟨_, _, _, _, _, _, hcase⟩ := ic_bind_key_true env e key action hb
    unfold keys_nodup at h ⊢
    rcases hcase with ⟨pre, old, post, hl, hold, _, hl1, _⟩ | ⟨hnone, hl1, _⟩
    · simp only [hl1]
      rw [hl] at h
      simpa [hold] using h
    · simp only [hl1, List.map_append, List.map_cons, List.map_nil]
      rw [List.nodup_append]
      refine ⟨h, by simp, ?_⟩
      intro a ha hb'
      simp only [List.mem_singleton] at hb'
      subst hb'
      obtain ⟨x, hx, hxa⟩ := List.mem_map.mp ha
      exact hnone x hx hxa

theorem bind_string_loop_keys_nodup (fuel : Nat) (env : ic_env_t) (action : Int)
    (p : List Nat) (h : keys_nodup env) :
    keys_nodup (bind_string_loop fuel env action p).2 := by
  induction fuel generalizing env p with
  | zero => exact h
  | succ n ih =>
    unfold bind_string_loop
    simp only []
    split_ifs
    · exact h
    · exact ih _ _ h
    · exact h
    · split
      · exact h
      · rename_i key _
        have hk := ic_bind_key_keys_nodup env key action h
        split
        · rename_i e1 he; rw [he] at hk; exact hk
        · rename_i e1 he; rw [he] at hk; exact ih _ _ hk

theorem apply_bindings_keys_nodup (bs : List (Int × List Nat)) (env : ic_env_t)
    (h : keys_nodup env) : keys_nodup (apply_bindings env bs).2 := by
  induction bs generalizing env with
  | nil => exact h
  | cons b bs ih =>
    unfold apply_bindings
    have hk := bind_string_loop_keys_nodup (b.2.length + 1) env b.1 b.2 h
    unfold keybinding_profile_bind_string
    split
    · rename_i e1 he; rw [he] at hk; exact hk
    · rename_i e1 he; rw [he] at hk; exact ih _ hk

theorem apply_recursive_keys_nodup (profile : keybinding_profile_ptr) (env : ic_env_t)
    (h : keys_nodup env) : keys_nodup (keybinding_profile_apply_recursive env profile).2 := by
  induction profile generalizing env with
  | NULL => exact h
  | profile name description parent specs bindings ih =>
    unfold keybinding_profile_apply_recursive
    have hk := ih env h
    split
    · rename_i e1 he; rw [he] at hk; exact hk
    · rename_i e1 he; rw [he] at hk; exact apply_bindings_keys_nodup _ _ hk

theorem key_binding_clear_all_keys_nodup (env : ic_env_t) :
    keys_nodup (key_binding_clear_all env) := by
  simp [keys_nodup, key_binding_clear_all]

theorem ic_bind_key_named_keys_nodup (env : ic_env_t) (spec name : Option (List Nat))
    (h : keys_nodup env) : keys_nodup (ic_bind_key_named env spec name).2 := by
  unfold ic_bind_key_named
  cases spec with
  | none => exact h
  | some sp =>
    cases name with
    | none => exact h
    | some n =>
      simp only
      cases ic_parse_key_spec sp with
      | none => exact h
      | some key =>
        simp only
        split_ifs
        · exact h
        · exact ic_bind_key_keys_nodup _ _ _ h

theorem ic_set_key_binding_profile_keys_nodup (env : ic_env_t) (name : Option (List Nat))
    (h : keys_nodup env) : keys_nodup (ic_set_key_binding_profile env name).2 := by
  unfold ic_set_key_binding_profile
  simp only []
  generalize (match name with
    | none => keybinding_profile_default
    | some n => keybinding_profile_lookup n) = profile
  by_cases h1 : profile = .NULL
  · simp only [h1, if_true]; exact h
  · simp only [h1, if_false]
    by_cases h2 : env.key_binding_profile = profile
    · simp only [h2, if_true]
      exact apply_recursive_keys_nodup _ _ (key_binding_clear_all_keys_nodup env)
    · simp only [h2, if_false]
      have hk := apply_recursive_keys_nodup profile
        (key_binding_clear_all { env with key_binding_profile := profile })
        (key_binding_clear_all_keys_nodup _)
      rcases happ : keybinding_profile_apply_recursive
        (key_binding_clear_all { env with key_binding_profile := profile }) profile with ⟨b, e2⟩
      rw [happ] at hk
      cases b
      · exact apply_recursive_keys_nodup _ _ (key_binding_clear_all_keys_nodup _)
      · exact hk

/-- Every environment that the key-binding API produces from a fresh one has pairwise
distinct keys in its table. -/
theorem reachable_keys_nodup (env : ic_env_t) (h : reachable env) : keys_nodup env := by
  induction h with
  | create mem => simp [keys_nodup, ic_env_create]
  | bind_key env key action _ ih => exact ic_bind_key_keys_nodup env key action ih
  | bind_key_named env spec name _ ih => exact ic_bind_key_named_keys_nodup env spec name ih
  | clear_key_binding env key _ ih =>
    rcases ic_clear_key_binding_cases env key with ⟨_, hres⟩ | ⟨pre, old, post, hl, _, _, hres⟩
    · rw [hres]; exact ih
    · rw [hres]
      unfold keys_nodup at ih ⊢
      rw [hl] at ih
      simp only [List.map_append, List.map_cons] at ih ⊢
      exact List.Nodup.sublist (List.Sublist.append_left (List.sublist_cons_self _ _) _) ih
  | reset_key_bindings env _ ih =>
    unfold ic_reset_key_bindings
    simp only []
    split
    · exact apply_recursive_keys_nodup _ _ (key_binding_clear_all_keys_nodup env)
    · exact key_binding_clear_all_keys_nodup env
  | set_key_binding_profile env name _ ih =>
    exact ic_set_key_binding_profile_keys_nodup env name ih

/-! ### The fuel of the spec-string loop is enough -/

theorem bind_string_rest_shorter (p : List Nat)
    (h : p.dropWhile (fun c => decide (c = 32 ∨ c = 9 ∨ c = 124)) ≠ []) :
    ((p.dropWhile (fun c => decide (c = 32 ∨ c = 9 ∨ c = 124))).dropWhile
      (fun c => decide (c ≠ 124))).length < p.length := by
  have hsuf : (p.dropWhile (fun c => decide (c = 32 ∨ c = 9 ∨ c = 124))).length ≤ p.length :=
    (List.dropWhile_sublist _).length_le
  have hhead := List.head_dropWhile_not (fun c => decide (c = 32 ∨ c = 9 ∨ c = 124)) p h
  revert h hsuf hhead
  generalize p.dropWhile (fun c => decide (c = 32 ∨ c = 9 ∨ c = 124)) = p1
  intro h hsuf hhead
  cases p1 with
  | nil => exact absurd rfl h
  | cons c cs =>
    simp only [List.head_cons, decide_eq_false_iff_not, not_or] at hhead
    have hc : decide (c ≠ 124) = true := by simp [hhead.2.2]
    rw [List.dropWhile_cons, if_pos hc]
    have := (List.dropWhile_sublist (l := cs) (fun c => decide (c ≠ 124))).length_le
    simp only [List.length_cons] at hsuf
    omega

/-- Any fuel above the length of the rest of the spec string gives the same result:
the loop of `keybinding_profile_bind_string` always ends by reaching the end of the
string, never by running out of fuel. -/
theorem bind_string_loop_fuel (fuel1 fuel2 : Nat) (env : ic_env_t) (action : Int)
    (p : List Nat) (h1 : p.length < fuel1) (h2 : p.length < fuel2) :
    bind_string_loop fuel1 env action p = bind_string_loop fuel2 env action p := by
  induction fuel1 generalizing fuel2 env p with
  | zero => omega
  | succ n ih =>
    cases fuel2 with
    | zero => omega
    | succ m =>
      unfold bind_string_loop
      simp only []
      by_cases hp1 : p.dropWhile (fun c => decide (c = 32 ∨ c = 9 ∨ c = 124)) = []
      · simp only [hp1, if_true]
      · have hlt := bind_string_rest_shorter p hp1
        simp only [hp1, if_false]
        split_ifs
        · exact ih m env _ (by omega) (by omega)
        · rfl
        · split
          · rfl
          · split
            · rfl
            · exact ih m _ _ (by omega) (by omega)

/-! ### Applying a profile -/

/-- A spec string that is a single token is bound by one call of `ic_bind_key`. -/
theorem bind_string_single (env : ic_env_t) (action : Int) (t : List Nat) (key : Nat)
    (h1 : t.dropWhile (fun c => decide (c = 32 ∨ c = 9 ∨ c = 124)) = t) (hne : t ≠ [])
    (h2 : t.takeWhile (fun c => decide (c ≠ 124)) = t)
    (h3 : t.dropWhile (fun c => decide (c ≠ 124)) = [])
    (h4 : bind_string_trim t = t) (hlen : t.length < 64)
    (hp : ic_parse_key_spec t = some key) :
    keybinding_profile_bind_string env action t = ic_bind_key env key action := by
  unfold keybinding_profile_bind_string
  rw [bind_string_loop]
  simp only [h1, hne, h2, h3, h4, hp, if_false, ge_iff_le, Nat.not_le.mpr hlen]
  rcases hb : ic_bind_key env key action with ⟨b, e⟩
  cases b
  · rfl
  · cases ht : t.length <;> simp [bind_string_loop]

theorem apply_vim_eq (env : ic_env_t) :
    keybinding_profile_apply_recursive env keybinding_profile_vim = bind_all env vim_table := by
  have hh := fun (e : ic_env_t) (a : Int) => bind_string_single e a (cstr "alt+h")
    (IC_KEY_WITH_ALT 104) (by decide) (by decide) (by decide) (by decide) (by decide)
    (by decide) (by decide)
  have hl := fun (e : ic_env_t) (a : Int) => bind_string_single e a (cstr "alt+l")
    (IC_KEY_WITH_ALT 108) (by decide) (by decide) (by decide) (by decide) (by decide)
    (by decide) (by decide)
  have hk := fun (e : ic_env_t) (a : Int) => bind_string_single e a (cstr "alt+k")
    (IC_KEY_WITH_ALT 107) (by decide) (by decide) (by decide) (by decide) (by decide)
    (by decide) (by decide)
  have hj := fun (e : ic_env_t) (a : Int) => bind_string_single e a (cstr "alt+j")
    (IC_KEY_WITH_ALT 106) (by decide) (by decide) (by decide) (by decide) (by decide)
    (by decide) (by decide)
  have hw := fun (e : ic_env_t) (a : Int) => bind_string_single e a (cstr "alt+w")
    (IC_KEY_WITH_ALT 119) (by decide) (by decide) (by decide) (by decide) (by decide)
    (by decide) (by decide)
  simp only [keybinding_profile_vim, keybinding_profile_default,
    keybinding_profile_apply_recursive, apply_bindings, keybinding_profile_vim_bindings,
    hh, hl, hk, hj, hw, bind_all, vim_table]

theorem apply_default_eq (env : ic_env_t) :
    keybinding_profile_apply_recursive env keybinding_profile_default = (true, env) := by
  simp only [keybinding_profile_default, keybinding_profile_apply_recursive, apply_bindings]

/-- Binding fresh, distinct keys with valid actions: if all calls succeed, the
entries are appended in order, nothing else but the capacity changes, and the
capacity covers the table. -/
theorem bind_all_fresh (es : List ic_key_binding_entry_t) (env env1 : ic_env_t)
    (hnd : (es.map (fun e => e.key)).Nodup)
    (hfresh : ∀ e ∈ es, ∀ e' ∈ env.key_bindings, e'.key ≠ e.key)
    (hcap : env.key_bindings.length ≤ env.key_binding_capacity)
    (h : bind_all env es = (true, env1)) :
    env1.key_bindings = env.key_bindings ++ es
    ∧ env1.key_binding_profile = env.key_binding_profile
    ∧ env1.key_bindings.length ≤ env1.key_binding_capacity := by
  induction es generalizing env with
  | nil =>
    simp only [bind_all, Prod.mk.injEq, true_and] at h
    subst h
    exact ⟨by simp, rfl, hcap⟩
  | cons e es ih =>
    simp only [bind_all] at h
    rcases hb : ic_bind_key env e.key e.action with ⟨b, e1⟩
    rw [hb] at h
    cases b
    · simp at h
    · simp only at h
      obtain ⟨_, _, hprof, _, _, _, hcase⟩ := ic_bind_key_true env e1 e.key e.action hb
      have hfr : ∀ e' ∈ env.key_bindings, e'.key ≠ e.key := hfresh e (by simp)
      rcases hcase with ⟨pre, old, post, hl, hold, _, _, _⟩ | ⟨_, hl1, hcap1⟩
      · exact absurd hold (hfr old (by simp [hl]))
      · have hnd' : e.key ∉ es.map (fun e => e.key) ∧ (es.map (fun e => e.key)).Nodup :=
          List.nodup_cons.mp (by rw [List.map_cons] at hnd; exact hnd)
        have := ih e1 hnd'.2 (by
          intro x hx y hy
          rw [hl1] at hy
          rcases List.mem_append.mp hy with hy | hy
          · exact hfresh x (by simp [hx]) y hy
          · simp only [List.mem_singleton] at hy
            subst hy
            intro hxy
            apply hnd'.1
            simp only at hxy
            rw [hxy]
            exact List.mem_map_of_mem _ hx) hcap1 h
        refine ⟨?_, by rw [this.2.1, hprof], this.2.2⟩
        rw [this.1, hl1]
        simp

/-- Binding fresh, distinct keys with valid actions when the capacity is there: all
calls succeed and only the table changes. -/
theorem bind_all_within_capacity (es : List ic_key_binding_entry_t) (env : ic_env_t)
    (hvalid : ∀ e ∈ es, IC_KEY_ACTION_NONE ≤ e.action ∧ e.action < IC_KEY_ACTION__MAX)
    (hnd : (es.map (fun e => e.key)).Nodup)
    (hfresh : ∀ e ∈ es, ∀ e' ∈ env.key_bindings, e'.key ≠ e.key)
    (hcap : env.key_bindings.length + es.length ≤ env.key_binding_capacity) :
    bind_all env es = (true, { env with key_bindings := env.key_bindings ++ es }) := by
  induction es generalizing env with
  | nil => simp [bind_all]
  | cons e es ih =>
    have hv := hvalid e (by simp)
    have hfr : ∀ e' ∈ env.key_bindings, e'.key ≠ e.key := hfresh e (by simp)
    have hb : ic_bind_key env e.key e.action
        = (true, { env with key_bindings := env.key_bindings ++ [e] }) := by
      unfold ic_bind_key
      rw [if_neg (by omega)]
      have hf : key_binding_find_entry env e.key = none :=
        (find_entry_index_eq_none _ _).mpr hfr
      rw [hf]
      simp only
      rw [(key_bindings_ensure_capacity_spec env (env.key_binding_count + 1)).2.2.2
        (by simp only [ic_env_t.key_binding_count, List.length_cons] at hcap ⊢; omega)]
    simp only [bind_all, hb]
    have hnd' : e.key ∉ es.map (fun e => e.key) ∧ (es.map (fun e => e.key)).Nodup :=
          List.nodup_cons.mp (by rw [List.map_cons] at hnd; exact hnd)
    rw [ih { env with key_bindings := env.key_bindings ++ [e] }
      (fun x hx => hvalid x (by simp [hx])) hnd'.2 (by
        intro x hx y hy
        simp only at hy
        rcases List.mem_append.mp hy with hy | hy
        · exact hfresh x (by simp [hx]) y hy
        · simp only [List.mem_singleton] at hy
          subst hy
          intro hxy
          apply hnd'.1
          rw [hxy]
          exact List.mem_map_of_mem _ hx) (by
        show (env.key_bindings ++ [e]).length + es.length ≤ env.key_binding_capacity
        simp only [List.length_append, List.length_cons, List.length_nil] at hcap ⊢
        omega)]
    simp

theorem apply_builtin_on_cleared (profile : keybinding_profile_ptr)
    (hp : profile = keybinding_profile_default ∨ profile = keybinding_profile_vim)
    (env env1 : ic_env_t) (hprof : env.key_binding_profile = profile)
    (h : keybinding_profile_apply_recursive (key_binding_clear_all env) profile = (true, env1)) :
    in_profile_state profile env1 := by
  rcases hp with hp | hp
  · subst hp
    rw [apply_default_eq] at h
    simp only [Prod.mk.injEq, true_and] at h
    subst h
    refine ⟨?_, hprof, ?_⟩
    · simp [key_binding_clear_all, profile_table, show keybinding_profile_default ≠ keybinding_profile_vim by decide]
    · simp [profile_table, show keybinding_profile_default ≠ keybinding_profile_vim by decide]
  · subst hp
    rw [apply_vim_eq] at h
    have := bind_all_fresh vim_table (key_binding_clear_all env) env1 (by decide)
      (by simp [key_binding_clear_all]) (by simp [key_binding_clear_all]) h
    refine ⟨?_, ?_, ?_⟩
    · rw [this.1]; simp [key_binding_clear_all, profile_table]
    · rw [this.2.1]; exact hprof
    · have h3 := this.2.2
      rw [this.1] at h3
      simpa [key_binding_clear_all, profile_table] using h3

theorem ic_set_key_binding_profile_state (profile : keybinding_profile_ptr)
    (hp : profile = keybinding_profile_default ∨ profile = keybinding_profile_vim)
    (name : List Nat) (hname : keybinding_profile_lookup name = profile)
    (env env1 : ic_env_t) (h : ic_set_key_binding_profile env (some name) = (true, env1)) :
    in_profile_state profile env1 := by
  have hnn : profile ≠ .NULL := by rcases hp with hp | hp <;> subst hp <;> decide
  unfold ic_set_key_binding_profile at h
  simp only [hname, hnn, if_false] at h
  split at h
  · rename_i heq
    exact apply_builtin_on_cleared profile hp env env1 heq h
  · split at h
    · rename_i env2 happ
      simp only [Prod.mk.injEq, true_and] at h
      subst h
      exact apply_builtin_on_cleared profile hp { env with key_binding_profile := profile } _ rfl happ
    · simp at h

theorem ic_reset_key_bindings_fixed (profile : keybinding_profile_ptr)
    (hp : profile = keybinding_profile_default ∨ profile = keybinding_profile_vim)
    (env : ic_env_t) (h : in_profile_state profile env) : ic_reset_key_bindings env = env := by
  obtain ⟨hkb, hprof, hcap⟩ := h
  have hnn : profile ≠ .NULL := by rcases hp with hp | hp <;> subst hp <;> decide
  unfold ic_reset_key_bindings
  simp only [key_binding_clear_all, hprof, ne_eq, hnn, not_false_eq_true, if_true]
  rcases hp with hp | hp
  · subst hp
    rw [apply_default_eq]
    cases env
    simp only at hkb hprof ⊢
    subst hprof
    rw [hkb]
    simp [profile_table, show keybinding_profile_default ≠ keybinding_profile_vim by decide]
  · subst hp
    rw [apply_vim_eq, bind_all_within_capacity vim_table _ (by decide) (by decide) (by simp)
      (by simpa [profile_table] using hcap)]
    cases env
    simp only at hkb hprof ⊢
    subst hprof
    rw [hkb]
    simp [profile_table]

theorem ic_reset_key_bindings_iterate (profile : keybinding_profile_ptr)
    (hp : profile = keybinding_profile_default ∨ profile = keybinding_profile_vim)
    (env : ic_env_t) (h : in_profile_state profile env) (n : Nat) :
    ic_reset_key_bindings^[n] env = env := by
  induction n with
  | zero => rfl
  | succ n ih =>
    rw [Function.iterate_succ_apply, ic_reset_key_bindings_fixed profile hp env h, ih]

/-! ### Formatting -/

theorem append_token_ok (buflen : Nat) (fs : format_state) (token : List Nat)
    (h : fs.buffer.length + 1 + token.length + 1 ≤ buflen) :
    append_token buflen fs token
      = some { first := false,
               buffer := (if fs.first then fs.buffer else fs.buffer ++ [43]) ++ token } := by
  unfold append_token
  have h1 : ¬ (fs.buffer.length + (if fs.first = true then 0 else 1) + token.length + 1 > buflen) := by
    split <;> omega
  simp only [h1, if_false]
  cases fs.first <;> simp

/-- Formatting succeeds in a buffer of at least 64 bytes as soon as the base has a
name of at most 9 bytes, and the string left is at most 24 bytes long. -/
theorem format_ok_of_base_name (key buflen : Nat) (h64 : 64 ≤ buflen) (name : List Nat)
    (hname : format_base_name
      (decide ((IC_KEY_MODS key &&& IC_KEY_MOD_CTRL) = 0 ∧ key ≥ IC_KEY_CTRL_A ∧ key ≤ IC_KEY_CTRL_Z))
      (if decide ((IC_KEY_MODS key &&& IC_KEY_MOD_CTRL) = 0 ∧ key ≥ IC_KEY_CTRL_A
          ∧ key ≤ IC_KEY_CTRL_Z) = true then key else IC_KEY_NO_MODS key) = some name)
    (hlen : name.length ≤ 9) :
    (ic_format_key_spec key buflen).1 = true
    ∧ (ic_format_key_spec key buflen).2.length ≤ 24 := by
  have l4 : (cstr "ctrl").length = 4 := rfl
  have l3 : (cstr "alt").length = 3 := rfl
  have l5 : (cstr "shift").length = 5 := rfl
  have ln : (cstr "none").length = 4 := rfl
  unfold ic_format_key_spec
  rw [if_neg (by omega)]
  simp only [hname]
  generalize (decide ((IC_KEY_MODS key &&& IC_KEY_MOD_CTRL) = 0 ∧ key ≥ IC_KEY_CTRL_A
    ∧ key ≤ IC_KEY_CTRL_Z)) = imp
  by_cases hc : (IC_KEY_MODS key &&& IC_KEY_MOD_CTRL ≠ 0 ∨ imp = true)
  all_goals by_cases ha : (IC_KEY_MODS key &&& IC_KEY_MOD_ALT ≠ 0)
  all_goals by_cases hs : (IC_KEY_MODS key &&& IC_KEY_MOD_SHIFT ≠ 0)
  all_goals by_cases hn : name = []
  all_goals simp only [hc, ha, hs, hn, if_true, if_false, ne_eq, not_true_eq_false,
    not_false_eq_true]
  all_goals simp (disch := (simp only [l4, l3, l5, ln, List.length_append, List.length_nil,
    List.length_cons, Bool.false_eq_true, if_false, if_true]; omega)) only [append_token_ok,
    Bool.false_eq_true, if_false, if_true, List.length_append, List.length_nil,
    List.length_cons, l4, l3, l5, ln, List.nil_append, true_and]
  all_goals omega

theorem control_code_has_no_mods (key : Nat) (h1 : 1 ≤ key) (h26 : key ≤ 26) :
    (IC_KEY_MODS key &&& IC_KEY_MOD_CTRL) = 0 ∧ IC_KEY_NO_MODS key = key := by
  interval_cases key <;> exact ⟨rfl, rfl⟩

theorem format_base_name_of_class (b : Nat)
    (h : b = IC_KEY_NONE ∨ (32 ≤ b ∧ b ≤ 127) ∨ b = IC_KEY_TAB ∨ b = IC_KEY_ENTER
      ∨ b = IC_KEY_LINEFEED ∨ b = IC_KEY_BACKSP ∨ b = IC_KEY_ESC
      ∨ (IC_KEY_UP ≤ b ∧ b ≤ IC_KEY_INS) ∨ (IC_KEY_F1 ≤ b ∧ b ≤ IC_KEY_F1 + 23)) :
    ∃ name, format_base_name false b = some name ∧ name.length ≤ 9 := by
  rcases h with h | ⟨h1, h2⟩ | h | h | h | h | h | ⟨h1, h2⟩ | ⟨h1, h2⟩
  · subst h; exact ⟨_, rfl, by decide⟩
  · interval_cases b <;> exact ⟨_, rfl, by decide⟩
  · subst h; exact ⟨_, rfl, by decide⟩
  · subst h; exact ⟨_, rfl, by decide⟩
  · subst h; exact ⟨_, rfl, by decide⟩
  · subst h; exact ⟨_, rfl, by decide⟩
  · subst h; exact ⟨_, rfl, by decide⟩
  · simp only [IC_KEY_UP, IC_KEY_INS, IC_KEY_VIRT] at h1 h2
    interval_cases b <;> exact ⟨_, rfl, by decide⟩
  · simp only [IC_KEY_F1, IC_KEY_VIRT] at h1 h2
    interval_cases b <;> exact ⟨_, rfl, by decide⟩

/-! ### Parsing: the scanning loop and the tokens -/

theorem modifyHead_nil_append (l : List (List Nat)) :
    l.modifyHead (fun s => [] ++ s) = l := by
  cases l <;> simp

theorem parse_loop_eq_run_tokens (p : List Nat) (st : key_spec_state) (tok : List Nat)
    (htok : tok.length ≤ 31) :
    parse_loop p st tok
      = run_tokens st ((p.splitOnP is_spec_separator).modifyHead (fun s => tok ++ s)) := by
  induction p generalizing st tok with
  | nil =>
    simp only [parse_loop, List.splitOnP_nil, List.modifyHead_cons, List.append_nil, run_tokens,
      List.reverse_nil]
    cases tok with
    | nil => simp
    | cons c cs =>
      have h32 : ¬ 32 ≤ (c :: cs).length := by omega
      simp only [List.length_cons, gt_iff_lt, Nat.zero_lt_succ, if_true, reduceCtorEq, if_false]
      simp only [List.length_cons] at h32
      simp only [h32, if_false]
      cases parse_token st (c :: cs) <;> rfl
  | cons ch p ih =>
    by_cases hsep : ch = 43 ∨ ch = 45 ∨ ch = 32 ∨ ch = 9
    · have hs : is_spec_separator ch = true := by simp [is_spec_separator, hsep]
      simp only [parse_loop, hsep, if_true, List.splitOnP_cons, hs, List.modifyHead_cons,
        List.append_nil, run_tokens]
      cases tok with
      | nil =>
        simp only [List.length_nil, gt_iff_lt, Nat.lt_irrefl, if_false, if_true]
        rw [ih st [] (by simp), modifyHead_nil_append]
      | cons c cs =>
        have h32 : ¬ 32 ≤ (c :: cs).length := by omega
        simp only [List.length_cons] at h32
        simp only [List.length_cons, gt_iff_lt, Nat.zero_lt_succ, if_true, reduceCtorEq,
          if_false, h32]
        cases parse_token st (c :: cs) with
        | none => rfl
        | some st1 =>
          simp only
          rw [ih st1 [] (by simp), modifyHead_nil_append]
    · have hs : is_spec_separator ch = false := by simp [is_spec_separator, hsep]
      simp only [parse_loop, hsep, if_false, List.splitOnP_cons, hs, Bool.false_eq_true,
        List.modifyHead_modifyHead]
      by_cases hlen : tok.length + 1 ≥ 32
      · simp only [hlen, if_true]
        cases hsp : List.splitOnP is_spec_separator p with
        | nil => exact absurd hsp (List.splitOnP_ne_nil _ _)
        | cons seg segs =>
          simp only [List.modifyHead_cons, Function.comp, run_tokens]
          have hne : tok ++ ch :: seg ≠ [] := by simp
          have hl : 32 ≤ (tok ++ ch :: seg).length := by
            simp only [List.length_append, List.length_cons]; omega
          simp only [hne, if_false, hl, if_true]
      · simp only [hlen, if_false]
        rw [ih st (tok ++ [ch]) (by simp only [List.length_append, List.length_singleton]; omega)]
        congr 2
        funext s
        simp [Function.comp]

theorem tolower_idem (c : Nat) : tolower (tolower c) = tolower c := by
  unfold tolower
  split_ifs <;> omega

theorem map_tolower_idem (t : List Nat) : (t.map tolower).map tolower = t.map tolower := by
  simp [List.map_map, Function.comp, tolower_idem]

theorem key_name_map_lower : ∀ e ∈ key_name_map, e.1.map tolower = e.1 := by decide

theorem key_lookup_named_isSome (t : List Nat) :
    (key_lookup_named (t.map tolower)).isSome = (is_named_key t || is_fkey_number t) := by
  have hcmp : ∀ e ∈ key_name_map,
      ic_stricmp_eq (t.map tolower) e.1 = (t.map tolower == e.1) := by
    intro e he
    simp only [ic_stricmp_eq, map_tolower_idem, key_name_map_lower e he]
  unfold key_lookup_named
  cases hfind : key_name_map.find? (fun e => ic_stricmp_eq (t.map tolower) e.1) with
  | some e =>
    have hmem := List.mem_of_find?_eq_some hfind
    have hp := List.find?_some hfind
    simp only at hp
    rw [hcmp e hmem] at hp
    have : is_named_key t = true := by
      unfold is_named_key
      exact List.any_eq_true.mpr ⟨e, hmem, hp⟩
    simp [this]
  | none =>
    have hall := List.find?_eq_none.mp hfind
    have : is_named_key t = false := by
      unfold is_named_key
      rw [List.any_eq_false]
      intro e he
      have := hall e he
      rw [hcmp e he] at this
      simpa using this
    simp [this, is_fkey_number]

theorem parse_token_of_modifier (st : key_spec_state) (t : List Nat)
    (h : is_modifier_name t = true) :
    ∃ st1, parse_token st t = some st1 ∧ st1.base_set = st.base_set := by
  simp only [is_modifier_name, decide_eq_true_eq] at h
  unfold parse_token
  simp only []
  split_ifs with h1 h2 h3
  · exact ⟨_, rfl, rfl⟩
  · exact ⟨_, rfl, rfl⟩
  · exact ⟨_, rfl, rfl⟩
  all_goals (exfalso; tauto)

theorem parse_token_of_not_modifier (st : key_spec_state) (t : List Nat)
    (h : is_modifier_name t = false) :
    (st.base_set = true → parse_token st t = none)
    ∧ (st.base_set = false → is_base_token t = true →
        ∃ st1, parse_token st t = some st1 ∧ st1.base_set = true)
    ∧ (is_base_token t = false → parse_token st t = none) := by
  have hb : is_base_token t = (decide (t.length = 1) || (key_lookup_named (t.map tolower)).isSome
      || decide (t.map tolower = cstr "newline")) := by
    simp only [is_base_token, h, Bool.not_false, Bool.true_and, key_lookup_named_isSome,
      Bool.or_assoc]
  simp only [is_modifier_name, decide_eq_false_iff_not, not_or] at h
  obtain ⟨⟨h1, h2, h3⟩, ⟨h4, h5, h6⟩, h7, h8⟩ := h
  have hpt : parse_token st t =
      if st.base_set = true then none
      else if t.length = 1 then
        some { st with base_is_char := true, base_char := (t.map tolower).headD 0, base_set := true }
      else
        match key_lookup_named (t.map tolower) with
        | some named => some { st with base_key := named, base_is_char := false, base_set := true }
        | none =>
          if t.map tolower = cstr "newline" then
            some { st with base_key := IC_KEY_LINEFEED, base_is_char := false, base_set := true }
          else none := by
    unfold parse_token
    simp only [h1, h2, h3, h4, h5, h6, h7, h8, or_self, if_false, List.length_map]
  rw [hpt, hb]
  refine ⟨fun hs => by simp [hs], ?_, ?_⟩
  · intro hs hbase
    simp only [hs, Bool.false_eq_true, if_false]
    by_cases hl : t.length = 1
    · simp only [hl, if_true]; exact ⟨_, rfl, rfl⟩
    · simp only [hl, if_false]
      cases hk : key_lookup_named (t.map tolower) with
      | some named => exact ⟨_, rfl, rfl⟩
      | none =>
        simp only [hl, hk, decide_False, Option.isSome_none, Bool.or_self, Bool.false_or,
          decide_eq_true_eq] at hbase
        simp only [hbase, if_true]
        exact ⟨_, rfl, rfl⟩
  · intro hbase
    simp only [Bool.or_eq_false_iff, decide_eq_false_iff_not] at hbase
    obtain ⟨⟨hl, hk⟩, hn⟩ := hbase
    have hk' : key_lookup_named (t.map tolower) = none := by
      cases hkk : key_lookup_named (t.map tolower) with
      | none => rfl
      | some v => rw [hkk] at hk; simp at hk
    simp only [hl, hk', hn, if_false]
    split <;> rfl

theorem base_token_not_modifier (t : List Nat) (h : is_base_token t = true) :
    is_modifier_name t = false := by
  unfold is_base_token at h
  cases hm : is_modifier_name t
  · rfl
  · rw [hm] at h; simp at h

/-- What the run over the pieces of a spec comes to: it succeeds exactly when every
non-empty piece is a short enough modifier name or base token and at most one base is
seen (counting one already set), and then a base is set exactly when one was seen. -/
theorem run_tokens_spec (segs : List (List Nat)) (st : key_spec_state) :
    (∀ st1, run_tokens st segs = some st1 →
      (∀ t ∈ segs.filter (fun t => decide (t ≠ [])),
        t.length ≤ 31 ∧ (is_modifier_name t = true ∨ is_base_token t = true))
      ∧ ((segs.filter (fun t => decide (t ≠ []))).filter is_base_token).length
          + (if st.base_set = true then 1 else 0) ≤ 1
      ∧ (st1.base_set = true ↔
          ((segs.filter (fun t => decide (t ≠ []))).filter is_base_token).length
            + (if st.base_set = true then 1 else 0) = 1))
    ∧ (run_tokens st segs = none →
      ¬ ((∀ t ∈ segs.filter (fun t => decide (t ≠ [])),
          t.length ≤ 31 ∧ (is_modifier_name t = true ∨ is_base_token t = true))
        ∧ ((segs.filter (fun t => decide (t ≠ []))).filter is_base_token).length
            + (if st.base_set = true then 1 else 0) ≤ 1)) := by
  induction segs generalizing st with
  | nil =>
    refine ⟨?_, fun h => by simp [run_tokens] at h⟩
    intro st1 h
    simp only [run_tokens, Option.some.injEq] at h
    subst h
    cases st.base_set <;> simp
  | cons seg segs ih =>
    by_cases hnil : seg = []
    · subst hnil
      simpa [run_tokens] using ih st
    · have hfilter : (seg :: segs).filter (fun t => decide (t ≠ []))
          = seg :: segs.filter (fun t => decide (t ≠ [])) := by
        simp [List.filter_cons, hnil]
      rw [hfilter]
      by_cases h32 : 32 ≤ seg.length
      · have hrun : run_tokens st (seg :: segs) = none := by
          simp [run_tokens, hnil, h32]
        rw [hrun]
        refine ⟨fun st1 h => by simp at h, fun _ hh => ?_⟩
        have := (hh.1 seg (by simp)).1
        omega
      · cases hmod : is_modifier_name seg with
        | true =>
          obtain ⟨st1, hpt, hbs⟩ := parse_token_of_modifier st seg hmod
          have hrun : run_tokens st (seg :: segs) = run_tokens st1 segs := by
            simp [run_tokens, hnil, h32, hpt]
          have hnb : is_base_token seg = false := by
            simp [is_base_token, hmod]
          rw [hrun]
          have ih1 := ih st1
          rw [hbs] at ih1
          simp only [List.filter_cons, hnb, Bool.false_eq_true, if_false, List.mem_cons,
            forall_eq_or_imp, hmod, true_or, and_true]
          have hlen : seg.length ≤ 31 := by omega
          simp only [hlen, true_and]
          exact ih1
        | false =>
          obtain ⟨p1, p2, p3⟩ := parse_token_of_not_modifier st seg hmod
          cases hbase : is_base_token seg with
          | false =>
            have hrun : run_tokens st (seg :: segs) = none := by
              simp [run_tokens, hnil, h32, p3 hbase]
            rw [hrun]
            refine ⟨fun st1 h => by simp at h, fun _ hh => ?_⟩
            have := (hh.1 seg (by simp)).2
            rw [hmod, hbase] at this
            simp at this
          | true =>
            cases hset : st.base_set with
            | true =>
              have hrun : run_tokens st (seg :: segs) = none := by
                simp [run_tokens, hnil, h32, p1 hset]
              rw [hrun]
              refine ⟨fun st1 h => by simp at h, fun _ hh => ?_⟩
              have := hh.2
              simp only [List.filter_cons, hbase, if_true, List.length_cons] at this
              omega
            | false =>
              obtain ⟨st1, hpt, hbs⟩ := p2 hset hbase
              have hrun : run_tokens st (seg :: segs) = run_tokens st1 segs := by
                simp [run_tokens, hnil, h32, hpt]
              rw [hrun]
              have ih1 := ih st1
              rw [hbs] at ih1
              simp only [if_true] at ih1
              simp only [List.filter_cons, hbase, if_true, List.length_cons, List.mem_cons,
                forall_eq_or_imp, or_true, and_true, Bool.false_eq_true, if_false,
                Nat.add_zero]
              have hlen : seg.length ≤ 31 := by omega
              simp only [hlen, true_and]
              exact ih1

theorem ic_parse_key_spec_isSome_iff (spec : List Nat) :
    (ic_parse_key_spec spec).isSome = true ↔ spec_accepted spec := by
  unfold ic_parse_key_spec spec_accepted spec_tokens
  rw [parse_loop_eq_run_tokens spec key_spec_state_init [] (by simp), modifyHead_nil_append]
  have hs := run_tokens_spec (spec.splitOnP is_spec_separator) key_spec_state_init
  have hinit : key_spec_state_init.base_set = false := rfl
  simp only [hinit, Bool.false_eq_true, if_false, Nat.add_zero] at hs
  cases hrun : run_tokens key_spec_state_init (spec.splitOnP is_spec_separator) with
  | none =>
    have h2 := hs.2 hrun
    simp only [Option.isSome_none, Bool.false_eq_true, false_iff]
    intro hacc
    exact h2 ⟨hacc.1, by omega⟩
  | some st1 =>
    obtain ⟨hall, hle, hiff⟩ := hs.1 st1 hrun
    simp only
    constructor
    · intro h
      by_cases hb : st1.base_set = true
      · exact ⟨hall, hiff.mp hb⟩
      · simp [hb] at h
    · intro hacc
      have hb := hiff.mpr hacc.2
      simp [hb]

/-- C1, the code at the failing input: in a fresh environment with an empty input
buffer (no initial input, or the empty one), a read whose first key is Ctrl+C ends
with the NULL result, and so does one whose first key is Ctrl+D; neither returns
the token `"<CTRL+C>"` or `"<CTRL+D>"`. -/
theorem ic_readline_ctrl_c_ctrl_d_give_null
    (code_is_ascii_char code_is_unicode : Nat → Bool) (tty_is_utf8 : Bool)
    (from_utf8 : List Nat → List Nat) (mem : Nat → Bool) (at_row_end : Bool)
    (empty_initial_input : Bool) :
    ic_readline_first_key code_is_ascii_char code_is_unicode tty_is_utf8 from_utf8
        (ic_env_create mem) (if empty_initial_input then some [] else none) at_row_end
        IC_KEY_CTRL_C = some none
    ∧ ic_readline_first_key code_is_ascii_char code_is_unicode tty_is_utf8 from_utf8
        (ic_env_create mem) (if empty_initial_input then some [] else none) at_row_end
        IC_KEY_CTRL_C ≠ some (some IC_READLINE_TOKEN_CTRL_C)
    ∧ ic_readline_first_key code_is_ascii_char code_is_unicode tty_is_utf8 from_utf8
        (ic_env_create mem) (if empty_initial_input then some [] else none) at_row_end
        IC_KEY_CTRL_D = some none
    ∧ ic_readline_first_key code_is_ascii_char code_is_unicode tty_is_utf8 from_utf8
        (ic_env_create mem) (if empty_initial_input then some [] else none) at_row_end
        IC_KEY_CTRL_D ≠ some (some IC_READLINE_TOKEN_CTRL_D) := by
  have h1 : ic_readline_first_key code_is_ascii_char code_is_unicode tty_is_utf8 from_utf8
        (ic_env_create mem) (if empty_initial_input then some [] else none) at_row_end
        IC_KEY_CTRL_C = some none := by cases empty_initial_input <;> rfl
  have h2 : ic_readline_first_key code_is_ascii_char code_is_unicode tty_is_utf8 from_utf8
        (ic_env_create mem) (if empty_initial_input then some [] else none) at_row_end
        IC_KEY_CTRL_D = some none := by cases empty_initial_input <;> rfl
  refine ⟨h1, ?_, h2, ?_⟩
  · rw [h1]; simp
  · rw [h2]; simp

/-- C2, the code at the failing input: after `ic_set_key_binding_profile("vim")` the table
binds alt+h (a key, not an event: without its modifier flags it is `h`, below
0x02000000) to cursor-left and `key_binding_execute` would run `edit_cursor_left`
for it, but the editor loop never asks the table: on reading alt+h it runs the
hardcoded dispatch, which reaches the final branch of the `switch`. -/
theorem vim_alt_h_skips_binding_table
    (code_is_ascii_char code_is_unicode : Nat → Bool) (eb : editor_t) (at_row_end : Bool) :
    (ic_set_key_binding_profile (ic_env_create (fun _ => true)) (some (cstr "vim"))).1 = true
    ∧ ic_parse_key_spec (cstr "alt+h") = some (IC_KEY_WITH_ALT 104)
    ∧ IC_KEY_NO_MODS (IC_KEY_WITH_ALT 104) < IC_KEY_EVENT_BASE
    ∧ ic_get_key_binding vim_env (IC_KEY_WITH_ALT 104) = some IC_KEY_ACTION_CURSOR_LEFT
    ∧ key_binding_execute vim_env eb (IC_KEY_WITH_ALT 104) = some .edit_cursor_left
    ∧ edit_line_key code_is_ascii_char code_is_unicode vim_env eb at_row_end
        (IC_KEY_WITH_ALT 104)
      = .hardcoded (if code_is_ascii_char (IC_KEY_WITH_ALT 104) then .edit_insert_char 104
          else if code_is_unicode (IC_KEY_WITH_ALT 104) then
            .edit_insert_unicode (IC_KEY_WITH_ALT 104)
          else .ignore)
    ∧ edit_line_key code_is_ascii_char code_is_unicode vim_env eb at_row_end
        (IC_KEY_WITH_ALT 104) ≠ .bound .edit_cursor_left := by
  have h6 : edit_line_key code_is_ascii_char code_is_unicode vim_env eb at_row_end
        (IC_KEY_WITH_ALT 104)
      = .hardcoded (if code_is_ascii_char (IC_KEY_WITH_ALT 104) then .edit_insert_char 104
          else if code_is_unicode (IC_KEY_WITH_ALT 104) then
            .edit_insert_unicode (IC_KEY_WITH_ALT 104)
          else .ignore) := rfl
  refine ⟨by decide, by decide, by decide, by decide, rfl, h6, ?_⟩
  rw [h6]
  simp

/-- C3, the code at the failing inputs: the spec `"alt+ctrl+a"` parses (to Alt with the
compressed code of Ctrl+A), but formatting that key in a 64-byte buffer returns
`false`, leaving only `"alt"`; and `"tab"` parses to 9, which is formatted as
`"ctrl+i"`, not `"tab"`. The spec `"Shift-Tab"` does give `"shift+tab"`. -/
theorem format_of_parse_alt_ctrl_a_and_tab :
    ic_parse_key_spec (cstr "alt+ctrl+a") = some (IC_KEY_WITH_ALT IC_KEY_CTRL_A)
    ∧ ic_format_key_spec (IC_KEY_WITH_ALT IC_KEY_CTRL_A) 64 = (false, cstr "alt")
    ∧ ic_parse_key_spec (cstr "tab") = some IC_KEY_TAB
    ∧ ic_format_key_spec IC_KEY_TAB 64 = (true, cstr "ctrl+i")
    ∧ format_of_spec (cstr "Shift-Tab") 64 = some (true, cstr "shift+tab") := by
  decide

/-- C4, the code at the failing inputs: for the `i`-th letter `x`, lower or upper case,
parsing `"ctrl+x"` and `"ctrl-x"` gives the compressed control code `1 + i`, except
for `x = c` and `x = s`, which are read as the modifier names `c` (ctrl) and
`s` (shift), so that the spec has no base and is rejected. In particular `"ctrl-c"`
and `"ctrl+s"` are rejected. -/
theorem parse_ctrl_letter :
    (∀ (i : Fin 26) (dash upper : Bool),
      ic_parse_key_spec
          (cstr "ctrl" ++ [if dash then 45 else 43, (if upper then 65 else 97) + i.val])
        = if i.val = 2 ∨ i.val = 18 then none else some (IC_KEY_CTRL_A + i.val))
    ∧ ic_parse_key_spec (cstr "ctrl-c") = none
    ∧ ic_parse_key_spec (cstr "ctrl+s") = none := by
  decide

/-- C7: a failing binding call changes nothing. `ic_bind_key_named` returns `false`
when the key spec does not parse or the action name is unknown, `ic_bind_key`
returns `false` for an action outside `[IC_KEY_ACTION_NONE, IC_KEY_ACTION__MAX)`,
`ic_set_key_binding_profile` returns `false` for an unknown profile name; and whenever
`ic_bind_key_named` or `ic_bind_key` returns `false`, and when
`ic_set_key_binding_profile` is given an unknown name, the environment (binding table
with its entries, order and count, and active profile) is the one before the call. -/
theorem failed_binding_call_changes_nothing :
    (∀ (env : ic_env_t) (spec name : Option (List Nat)),
      (ic_bind_key_named env spec name).1 = false → (ic_bind_key_named env spec name).2 = env)
    ∧ (∀ (env : ic_env_t) (spec : List Nat) (name : Option (List Nat)),
      ic_parse_key_spec spec = none → ic_bind_key_named env (some spec) name = (false, env))
    ∧ (∀ (env : ic_env_t) (spec : Option (List Nat)) (name : List Nat),
      ic_key_action_from_name (some name) = IC_KEY_ACTION__MAX →
        ic_bind_key_named env spec (some name) = (false, env))
    ∧ (∀ (env : ic_env_t) (key : Nat) (action : Int),
      (ic_bind_key env key action).1 = false → (ic_bind_key env key action).2 = env)
    ∧ (∀ (env : ic_env_t) (key : Nat) (action : Int),
      action < IC_KEY_ACTION_NONE ∨ IC_KEY_ACTION__MAX ≤ action →
        ic_bind_key env key action = (false, env))
    ∧ (∀ (env : ic_env_t) (name : List Nat),
      keybinding_profile_lookup name = .NULL →
        ic_set_key_binding_profile env (some name) = (false, env)) := by
  have hbind : ∀ (env : ic_env_t) (key : Nat) (action : Int),
      (ic_bind_key env key action).1 = false → (ic_bind_key env key action).2 = env := by
    intro env key action h
    exact ic_bind_key_false env _ key action (Prod.ext h rfl)
  refine ⟨?_, ?_, ?_, hbind, ?_, ?_⟩
  · intro env spec name h
    unfold ic_bind_key_named at h ⊢
    split
    · rename_i s n
      simp only at h
      cases hp : ic_parse_key_spec s with
      | none => rfl
      | some key =>
        rw [hp] at h
        simp only at h ⊢
        split
        · rfl
        · rename_i hne
          rw [if_neg hne] at h
          exact hbind env key _ h
    · rfl
  · intro env spec name h
    unfold ic_bind_key_named
    cases name with
    | none => rfl
    | some n => simp only [h]
  · intro env spec name h
    unfold ic_bind_key_named
    cases spec with
    | none => rfl
    | some sp =>
      simp only
      cases ic_parse_key_spec sp with
      | none => rfl
      | some key => simp only [h, if_true]
  · intro env key action h
    unfold ic_bind_key
    rw [if_pos (by omega)]
  · intro env name h
    unfold ic_set_key_binding_profile
    simp only [h, if_true]

/-- C7, a concrete instance: on the table of the vim profile, binding the spec
`"ctrl+c"` (which does not parse), binding to the unknown action name `"frobnicate"`,
binding action 29 (`IC_KEY_ACTION__MAX`) and selecting the unknown profile `"vi"` all
fail and leave the environment as it was. -/
theorem failed_binding_call_changes_nothing_witness :
    ((ic_bind_key_named vim_env (some (cstr "ctrl+c")) (some (cstr "undo"))).1 = false
      ∧ (ic_bind_key_named vim_env (some (cstr "ctrl+c")) (some (cstr "undo"))).2 = vim_env)
    ∧ ic_bind_key_named vim_env (some (cstr "ctrl+c")) (some (cstr "undo")) = (false, vim_env)
    ∧ ic_bind_key_named vim_env (some (cstr "alt+h")) (some (cstr "frobnicate"))
        = (false, vim_env)
    ∧ ((ic_bind_key vim_env (IC_KEY_WITH_ALT 104) IC_KEY_ACTION__MAX).1 = false
      ∧ (ic_bind_key vim_env (IC_KEY_WITH_ALT 104) IC_KEY_ACTION__MAX).2 = vim_env)
    ∧ ic_bind_key vim_env (IC_KEY_WITH_ALT 104) IC_KEY_ACTION__MAX = (false, vim_env)
    ∧ ic_set_key_binding_profile vim_env (some (cstr "vi")) = (false, vim_env) :=
  ⟨⟨by decide, failed_binding_call_changes_nothing.1 vim_env _ _ (by decide)⟩,
   failed_binding_call_changes_nothing.2.1 vim_env _ _ (by decide),
   failed_binding_call_changes_nothing.2.2.1 vim_env _ _ (by decide),
   ⟨by decide, failed_binding_call_changes_nothing.2.2.2.1 vim_env _ _ (by decide)⟩,
   failed_binding_call_changes_nothing.2.2.2.2.1 vim_env _ _ (by decide),
   failed_binding_call_changes_nothing.2.2.2.2.2 vim_env _ (by decide)⟩

/-- C8: after `ic_bind_key(k, a)` returns `true`, `ic_get_key_binding(k)` reports `a`
and `ic_get_key_binding(k')` is unchanged for every other key `k'`. If `k` was bound,
its entry is overwritten in place (the entries before and after it, the count and the
order of the keys are unchanged); otherwise exactly one entry `(k, a)` is appended at
the end. -/
theorem ic_bind_key_get (env env1 : ic_env_t) (k : Nat) (a : Int)
    (h : ic_bind_key env k a = (true, env1)) :
    ic_get_key_binding env1 k = some a
    ∧ (∀ k', k' ≠ k → ic_get_key_binding env1 k' = ic_get_key_binding env k')
    ∧ (ic_get_key_binding env k ≠ none →
        ∃ pre old post, env.key_bindings = pre ++ old :: post ∧ old.key = k
          ∧ (∀ e ∈ pre, e.key ≠ k)
          ∧ env1.key_bindings = pre ++ { key := k, action := a } :: post
          ∧ env1.key_binding_count = env.key_binding_count
          ∧ env1.key_bindings.map (fun e => e.key) = env.key_bindings.map (fun e => e.key))
    ∧ (ic_get_key_binding env k = none →
        env1.key_bindings = env.key_bindings ++ [{ key := k, action := a }]) := by
  obtain ⟨_, _, _, _, _, _, hcase⟩ := ic_bind_key_true env env1 k a h
  simp only [ic_get_key_binding_eq_find]
  rcases hcase with ⟨pre, old, post, hl, hold, hpre, hl1, _⟩ | ⟨hnone, hl1, _⟩
  · refine ⟨?_, ?_, ?_, ?_⟩
    · rw [hl1, find_key_append_self pre post _ k rfl hpre]; rfl
    · intro k' hk'
      rw [hl1, hl, find_key_append_other pre post _ k' (by simpa using fun h => hk' h.symm),
        find_key_append_other pre post old k' (by rw [hold]; exact fun h => hk' h.symm)]
    · intro _
      refine ⟨pre, old, post, hl, hold, hpre, hl1, ?_, ?_⟩
      · simp [ic_env_t.key_binding_count, hl, hl1]
      · simp [hl, hl1, hold]
    · intro hn
      rw [hl, find_key_append_self pre post old k hold hpre] at hn
      simp at hn
  · refine ⟨?_, ?_, ?_, ?_⟩
    · rw [hl1, find_key_append_self env.key_bindings [] _ k rfl hnone]; rfl
    · intro k' hk'
      rw [hl1, find_key_append_other env.key_bindings [] _ k'
        (by simpa using fun h => hk' h.symm)]
      simp
    · intro hn
      rw [find_key_none _ _ hnone] at hn
      simp at hn
    · intro _
      exact hl1

/-- C8, a concrete instance: on the vim table, rebinding alt+k (the third entry) to undo
succeeds and overwrites that entry in place. -/
theorem ic_bind_key_get_witness :
    ic_bind_key vim_env (IC_KEY_WITH_ALT 107) IC_KEY_ACTION_UNDO
      = (true, (ic_bind_key vim_env (IC_KEY_WITH_ALT 107) IC_KEY_ACTION_UNDO).2)
    ∧ ic_get_key_binding (ic_bind_key vim_env (IC_KEY_WITH_ALT 107) IC_KEY_ACTION_UNDO).2
        (IC_KEY_WITH_ALT 107) = some IC_KEY_ACTION_UNDO :=
  ⟨rfl, (ic_bind_key_get vim_env _ (IC_KEY_WITH_ALT 107) IC_KEY_ACTION_UNDO rfl).1⟩

/-- C9: `ic_clear_key_binding(k)` returns `true` if and only if `k` had a binding.
After a `true` return the first entry for `k` is gone, the count is one less, all other
entries are still there with their actions and in the same order, so every other key
reports what it reported before; and `k` itself is unbound in every environment the
key-binding API can produce (there the keys of the table are distinct). After a `false`
return the environment is unchanged. -/
theorem ic_clear_key_binding_spec (env : ic_env_t) (k : Nat) :
    ((ic_clear_key_binding env k).1 = true ↔ ic_get_key_binding env k ≠ none)
    ∧ ((ic_clear_key_binding env k).1 = true →
        (∃ pre old post, env.key_bindings = pre ++ old :: post ∧ old.key = k
          ∧ (∀ e ∈ pre, e.key ≠ k)
          ∧ (ic_clear_key_binding env k).2.key_bindings = pre ++ post)
        ∧ (ic_clear_key_binding env k).2.key_binding_count + 1 = env.key_binding_count
        ∧ (ic_clear_key_binding env k).2.key_binding_profile = env.key_binding_profile
        ∧ (∀ k', k' ≠ k →
            ic_get_key_binding (ic_clear_key_binding env k).2 k' = ic_get_key_binding env k')
        ∧ (reachable env →
            ic_get_key_binding (ic_clear_key_binding env k).2 k = none))
    ∧ ((ic_clear_key_binding env k).1 = false → (ic_clear_key_binding env k).2 = env) := by
  simp only [ic_get_key_binding_eq_find]
  rcases ic_clear_key_binding_cases env k with ⟨hnone, hres⟩ | ⟨pre, old, post, hl, hold, hpre, hres⟩
  · rw [hres]
    refine ⟨?_, ?_, fun _ => rfl⟩
    · simp [find_key_none _ _ hnone]
    · intro h; simp at h
  · rw [hres]
    refine ⟨?_, ?_, ?_⟩
    · simp [hl, find_key_append_self pre post old k hold hpre]
    · intro _
      refine ⟨⟨pre, old, post, hl, hold, hpre, rfl⟩, ?_, rfl, ?_, ?_⟩
      · simp [ic_env_t.key_binding_count, hl]; omega
      · intro k' hk'
        simp only [hl]
        rw [find_key_append_other pre post old k' (by rw [hold]; exact fun h => hk' h.symm)]
      · intro hreach
        have hnd := reachable_keys_nodup env hreach
        unfold keys_nodup at hnd
        show Option.map _ (List.find? _ (pre ++ post)) = none
        rw [find_key_none (pre ++ post) k, Option.map_none']
        rw [hl] at hnd
        simp only [List.map_append, List.map_cons] at hnd
        have hnot : old.key ∉ post.map (fun e => e.key) := by
          have h2 := (List.nodup_append.mp hnd).2.1
          exact (List.nodup_cons.mp h2).1
        intro e he
        rcases List.mem_append.mp he with he | he
        · exact hpre e he
        · intro hek
          apply hnot
          rw [hold, ← hek]
          exact List.mem_map_of_mem _ he
    · intro h; simp at h

/-- C9, a concrete instance: clearing alt+k on the vim table succeeds and leaves alt+k
unbound. -/
theorem ic_clear_key_binding_spec_witness :
    (ic_clear_key_binding vim_env (IC_KEY_WITH_ALT 107)).1 = true
    ∧ reachable vim_env
    ∧ ic_get_key_binding (ic_clear_key_binding vim_env (IC_KEY_WITH_ALT 107)).2
        (IC_KEY_WITH_ALT 107) = none :=
  ⟨by decide, reachable.set_key_binding_profile _ _ (reachable.create _),
   ((ic_clear_key_binding_spec vim_env (IC_KEY_WITH_ALT 107)).2.1 (by decide)).2.2.2.2
     (reachable.set_key_binding_profile _ _ (reachable.create _))⟩

/-- C10: for a built-in profile name `x` (`"emacs"` or `"vim"`) and any two prior
environments, after a successful `ic_set_key_binding_profile(x)` the table is the one
of the profile whatever the prior state was, so the output of `ic_list_key_bindings`
(for any buffer) depends only on `x`; any number of calls of `ic_reset_key_bindings`
afterwards leaves that output unchanged; and for `"emacs"` it is the output of a
fresh environment. -/
theorem set_profile_then_reset_list (x : List Nat) (hx : x = cstr "emacs" ∨ x = cstr "vim")
    (env1 env2 env1' env2' : ic_env_t)
    (h1 : ic_set_key_binding_profile env1 (some x) = (true, env1'))
    (h2 : ic_set_key_binding_profile env2 (some x) = (true, env2'))
    (n m : Nat) (has_buffer : Bool) (capacity : Nat) :
    (ic_reset_key_bindings^[n] env1').key_bindings = profile_table (keybinding_profile_lookup x)
    ∧ ic_list_key_bindings (ic_reset_key_bindings^[n] env1') has_buffer capacity
      = ic_list_key_bindings (ic_reset_key_bindings^[m] env2') has_buffer capacity
    ∧ ic_list_key_bindings (ic_reset_key_bindings^[n] env1') has_buffer capacity
      = ic_list_key_bindings env1' has_buffer capacity
    ∧ (x = cstr "emacs" → ∀ mem : Nat → Bool,
        ic_list_key_bindings (ic_reset_key_bindings^[n] env1') has_buffer capacity
          = ic_list_key_bindings (ic_env_create mem) has_buffer capacity) := by
  have hp : keybinding_profile_lookup x = keybinding_profile_default
      ∨ keybinding_profile_lookup x = keybinding_profile_vim := by
    rcases hx with hx | hx <;> subst hx
    · exact Or.inl (by decide)
    · exact Or.inr (by decide)
  have s1 := ic_set_key_binding_profile_state _ hp x rfl env1 env1' h1
  have s2 := ic_set_key_binding_profile_state _ hp x rfl env2 env2' h2
  have r1 := ic_reset_key_bindings_iterate _ hp env1' s1 n
  have r2 := ic_reset_key_bindings_iterate _ hp env2' s2 m
  have hlist : ∀ e e' : ic_env_t, e.key_bindings = e'.key_bindings →
      ic_list_key_bindings e has_buffer capacity = ic_list_key_bindings e' has_buffer capacity := by
    intro e e' he
    simp only [ic_list_key_bindings, ic_env_t.key_binding_count, he]
  rw [r1, r2]
  refine ⟨s1.1, hlist _ _ (by rw [s1.1, s2.1]), rfl, ?_⟩
  intro hem mem
  apply hlist
  rw [s1.1, hem]
  show profile_table (keybinding_profile_lookup (cstr "emacs")) = []
  decide

/-- C10, a concrete instance: selecting `"vim"` in a fresh environment and resetting
three times lists the same five entries as selecting `"vim"` in an environment that
had ctrl+a bound to undo. -/
theorem set_profile_then_reset_list_witness :
    ic_list_key_bindings (ic_reset_key_bindings^[3] vim_env) true 16
      = ic_list_key_bindings (ic_reset_key_bindings^[0]
          (ic_set_key_binding_profile
            (ic_bind_key (ic_env_create (fun _ => true)) IC_KEY_CTRL_A IC_KEY_ACTION_UNDO).2
            (some (cstr "vim"))).2) true 16 :=
  (set_profile_then_reset_list (cstr "vim") (Or.inr rfl)
    (ic_env_create (fun _ => true))
    (ic_bind_key (ic_env_create (fun _ => true)) IC_KEY_CTRL_A IC_KEY_ACTION_UNDO).2
    _ _ rfl rfl 3 0 true 16).2.1

/-- C6 as stated fails: the event code `IC_KEY_EVENT_RESIZE` has no key name, and
formatting it in a 64-byte buffer returns `false`. -/
theorem ic_format_key_spec_event_fails :
    64 ≤ 64 ∧ ic_format_key_spec IC_KEY_EVENT_RESIZE 64 = (false, []) := by
  decide

/-- C6, amended: for every key code that has a spec name (an unmodified control code
1..26, or a key whose code without the modifier flags is none, a printable ASCII
character 32..127, tab, enter, linefeed, backspace, esc, a virtual key up .. insert,
or F1..F24) and every buffer of at least 64 bytes, `ic_format_key_spec` returns `true`
and the spec string it leaves, of at most 24 bytes, fits the buffer with its
terminating NUL; for an event code, with or without modifier flags, it returns
`false` whatever the size of the buffer. -/
theorem ic_format_key_spec_named (key buflen : Nat) :
    (64 ≤ buflen → has_key_name key →
      (ic_format_key_spec key buflen).1 = true
      ∧ (ic_format_key_spec key buflen).2.length ≤ 24
      ∧ (ic_format_key_spec key buflen).2.length + 1 ≤ buflen)
    ∧ (IC_KEY_EVENT_BASE ≤ IC_KEY_NO_MODS key → (ic_format_key_spec key buflen).1 = false) := by
  constructor
  · intro h64 hname
    have hbase : ∃ name, format_base_name
        (decide ((IC_KEY_MODS key &&& IC_KEY_MOD_CTRL) = 0 ∧ key ≥ IC_KEY_CTRL_A
          ∧ key ≤ IC_KEY_CTRL_Z))
        (if decide ((IC_KEY_MODS key &&& IC_KEY_MOD_CTRL) = 0 ∧ key ≥ IC_KEY_CTRL_A
            ∧ key ≤ IC_KEY_CTRL_Z) = true then key else IC_KEY_NO_MODS key) = some name
        ∧ name.length ≤ 9 := by
      by_cases himp : (IC_KEY_MODS key &&& IC_KEY_MOD_CTRL) = 0 ∧ key ≥ IC_KEY_CTRL_A
          ∧ key ≤ IC_KEY_CTRL_Z
      · simp only [himp, and_self, decide_True, if_true]
        exact ⟨_, rfl, by simp⟩
      · simp only [himp, decide_False, Bool.false_eq_true, if_false]
        apply format_base_name_of_class
        rcases hname with h | h
        · exfalso
          apply himp
          simp only [IC_KEY_CTRL_A, IC_KEY_CTRL_Z] at h ⊢
          exact ⟨(control_code_has_no_mods key h.1 h.2).1, h.1, h.2⟩
        · exact h
    obtain ⟨name, hn, hl⟩ := hbase
    have := format_ok_of_base_name key buflen h64 name hn hl
    exact ⟨this.1, this.2, by omega⟩
  · intro hev
    have hle : IC_KEY_NO_MODS key ≤ key := Nat.and_le_left
    have himp : ¬ ((IC_KEY_MODS key &&& IC_KEY_MOD_CTRL) = 0 ∧ key ≥ IC_KEY_CTRL_A
        ∧ key ≤ IC_KEY_CTRL_Z) := by
      simp only [IC_KEY_EVENT_BASE, IC_KEY_CTRL_Z] at hev ⊢
      omega
    have hnone : format_base_name false (IC_KEY_NO_MODS key) = none := by
      revert hev
      generalize IC_KEY_NO_MODS key = b
      intro hev
      simp only [IC_KEY_EVENT_BASE] at hev
      unfold format_base_name format_switch_name
      simp only [IC_KEY_F1, IC_KEY_VIRT, IC_KEY_TAB, IC_KEY_ENTER, IC_KEY_LINEFEED,
        IC_KEY_BACKSP, IC_KEY_DEL, IC_KEY_INS, IC_KEY_ESC, IC_KEY_SPACE, IC_KEY_LEFT,
        IC_KEY_RIGHT, IC_KEY_UP, IC_KEY_DOWN, IC_KEY_HOME, IC_KEY_END, IC_KEY_PAGEUP,
        IC_KEY_PAGEDOWN, IC_KEY_NONE, Bool.false_eq_true, if_false]
      rw [if_neg (by omega)]
      repeat rw [if_neg (by omega)]
    unfold ic_format_key_spec
    simp only [himp, decide_False, Bool.false_eq_true, if_false, hnone]
    repeat' split
    all_goals rfl

/-- C6 amended, concrete instances: Ctrl+Alt+Shift+Backspace, the key with the longest
spec, in a buffer of 64 bytes; and the event code `IC_KEY_EVENT_STOP` with the Ctrl flag
in a buffer of 1000 bytes. -/
theorem ic_format_key_spec_named_witness :
    ic_format_key_spec (IC_KEY_WITH_CTRL (IC_KEY_WITH_ALT (IC_KEY_WITH_SHIFT IC_KEY_BACKSP))) 64
      = (true, cstr "ctrl+alt+shift+backspace")
    ∧ (ic_format_key_spec
        (IC_KEY_WITH_CTRL (IC_KEY_WITH_ALT (IC_KEY_WITH_SHIFT IC_KEY_BACKSP))) 64).1 = true
    ∧ (ic_format_key_spec (IC_KEY_WITH_CTRL IC_KEY_EVENT_STOP) 1000).1 = false :=
  ⟨by decide,
   ((ic_format_key_spec_named
     (IC_KEY_WITH_CTRL (IC_KEY_WITH_ALT (IC_KEY_WITH_SHIFT IC_KEY_BACKSP))) 64).1
     (by decide) (by unfold has_key_name; decide)).1,
   (ic_format_key_spec_named (IC_KEY_WITH_CTRL IC_KEY_EVENT_STOP) 1000).2 (by decide)⟩

/-- C5 as stated fails: the spec `"f05"` is a single multi-character token that is
neither a modifier name, nor a named key, nor one of `f1`..`f24`, nor `newline`, so the
claim has it rejected; `ic_parse_key_spec` accepts it as F5 (`strtol` reads `05`
as 5). -/
theorem parse_f05_accepted :
    ic_parse_key_spec (cstr "f05") = some IC_KEY_F5
    ∧ spec_tokens (cstr "f05") = [cstr "f05"]
    ∧ is_modifier_name (cstr "f05") = false
    ∧ is_base_token_claim (cstr "f05") = false
    ∧ ¬ spec_accepted_claim (cstr "f05") := by
  refine ⟨by decide, by decide, by decide, by decide, ?_⟩
  unfold spec_accepted_claim
  decide

/-- C5, amended: `ic_parse_key_spec` succeeds exactly when every token of the spec (split
on `+`, `-`, blank and tab) has at most 31 bytes and is a modifier name or a base
token, and exactly one token is a base token; a base token being a token that is not
a modifier name and is a single character, a named key, `f` followed by a number that
`strtol` reads in full with a value in 1..24, or `newline`. So it returns `false`, and
writes no key, for a spec without a base token, for a spec with two or more base
tokens, and for a spec with a token that is neither a modifier name nor a base
token. -/
theorem ic_parse_key_spec_accepts (spec : List Nat) :
    ((ic_parse_key_spec spec).isSome = true ↔ spec_accepted spec)
    ∧ (((spec_tokens spec).filter is_base_token).length = 0 → ic_parse_key_spec spec = none)
    ∧ (2 ≤ ((spec_tokens spec).filter is_base_token).length → ic_parse_key_spec spec = none)
    ∧ ((∃ t ∈ spec_tokens spec, is_modifier_name t = false ∧ is_base_token t = false) →
        ic_parse_key_spec spec = none) := by
  have hiff := ic_parse_key_spec_isSome_iff spec
  have hnone : ¬ spec_accepted spec → ic_parse_key_spec spec = none := by
    intro hn
    cases hp : ic_parse_key_spec spec with
    | none => rfl
    | some k => exact absurd (hiff.mp (by simp [hp])) hn
  refine ⟨hiff, ?_, ?_, ?_⟩
  · intro h0
    apply hnone
    intro hacc
    have := hacc.2
    omega
  · intro h2
    apply hnone
    intro hacc
    have := hacc.2
    omega
  · rintro ⟨t, ht, hm, hb⟩
    apply hnone
    intro hacc
    have := (hacc.1 t ht).2
    rw [hm, hb] at this
    simp at this

/-- C5 amended, concrete instances: `"ctrl+shift"` has no base token, `"a+b"` has two,
`"ctrl+foo"` has the token `foo` that is neither a modifier name nor a base token; all
three are rejected. -/
theorem ic_parse_key_spec_accepts_witness :
    ic_parse_key_spec (cstr "ctrl+shift") = none
    ∧ ic_parse_key_spec (cstr "a+b") = none
    ∧ ic_parse_key_spec (cstr "ctrl+foo") = none :=
  ⟨(ic_parse_key_spec_accepts (cstr "ctrl+shift")).2.1 (by decide),
   (ic_parse_key_spec_accepts (cstr "a+b")).2.2.1 (by decide),
   (ic_parse_key_spec_accepts (cstr "ctrl+foo")).2.2.2
     ⟨cstr "foo", by decide, by decide, by decide⟩⟩

/-! ### Action names -/

set_option maxRecDepth 100000 in
/-- Every action of the enumeration has a name, and the name reads back as the action. -/
theorem ic_key_action_name_table (k : Fin 29) :
    ic_key_action_name (k.val : Int) ≠ none ∧
      ic_key_action_from_name (ic_key_action_name (k.val : Int)) = (k.val : Int) := by
  revert k
  decide

/-- C20: every action `a` with `IC_KEY_ACTION_NONE ≤ a < IC_KEY_ACTION__MAX` has a
name (a non-NULL result of `ic_key_action_name`) and `ic_key_action_from_name` maps that
name back to `a`; for an action outside that range `ic_key_action_name` returns NULL;
and for a name that matches no row of the table when ASCII case is ignored (and for a
NULL name) `ic_key_action_from_name` returns `IC_KEY_ACTION__MAX`. -/
theorem ic_key_action_name_round_trip :
    (∀ a : Int, IC_KEY_ACTION_NONE ≤ a → a < IC_KEY_ACTION__MAX →
      ic_key_action_name a ≠ none ∧ ic_key_action_from_name (ic_key_action_name a) = a) ∧
    (∀ a : Int, a < IC_KEY_ACTION_NONE ∨ IC_KEY_ACTION__MAX ≤ a → ic_key_action_name a = none) ∧
    (∀ n : List Nat, (∀ e ∈ key_action_names, ic_stricmp_eq n e.1 = false) →
      ic_key_action_from_name (some n) = IC_KEY_ACTION__MAX) ∧
    ic_key_action_from_name none = IC_KEY_ACTION__MAX := by
  refine ⟨?_, ?_, ?_, rfl⟩
  · intro a h0 h1
    have h0' : (0 : Int) ≤ a := h0
    have h1' : a < 29 := h1
    obtain ⟨n, rfl⟩ := Int.eq_ofNat_of_zero_le h0'
    have hn : n < 29 := by omega
    exact ic_key_action_name_table ⟨n, hn⟩
  · intro a h
    have h' : a < IC_KEY_ACTION_NONE ∨ a ≥ IC_KEY_ACTION__MAX := h
    unfold ic_key_action_name
    rw [if_pos h']
  · intro n h
    have hfind : key_action_names.find? (fun e => ic_stricmp_eq n e.1) = none := by
      rw [List.find?_eq_none]
      intro e he
      rw [h e he]
      simp
    unfold ic_key_action_from_name
    simp only [hfind]

/-- C20 at the action `IC_KEY_ACTION_UNDO`, at the value `IC_KEY_ACTION__MAX` and at the
name `bogus`. -/
theorem ic_key_action_name_round_trip_witness :
    (ic_key_action_name IC_KEY_ACTION_UNDO ≠ none ∧
      ic_key_action_from_name (ic_key_action_name IC_KEY_ACTION_UNDO) = IC_KEY_ACTION_UNDO) ∧
    ic_key_action_name IC_KEY_ACTION__MAX = none ∧
    ic_key_action_from_name (some (cstr "bogus")) = IC_KEY_ACTION__MAX :=
  ⟨ic_key_action_name_round_trip.1 IC_KEY_ACTION_UNDO (by decide) (by decide),
   ic_key_action_name_round_trip.2.1 IC_KEY_ACTION__MAX (Or.inr (by decide)),
   ic_key_action_name_round_trip.2.2.1 (cstr "bogus") (by decide)⟩

/-! ### The editor: rendering leaves the input alone -/

theorem sbuf_delete_at_zero (s : List Nat) (p : Nat) : sbuf_delete_at s p 0 = s := by
  unfold sbuf_delete_at
  split
  · rfl
  · simp

theorem sbuf_delete_insert (s h : List Nat) (p : Nat) :
    sbuf_delete_at (sbuf_insert_at s h p).1 p h.length = s := by
  unfold sbuf_insert_at
  by_cases hp : p > s.length
  · rw [if_pos hp]
    show sbuf_delete_at s p h.length = s
    unfold sbuf_delete_at
    rw [if_pos (by omega)]
  · rw [if_neg hp]
    have hp' : p ≤ s.length := by omega
    unfold sbuf_delete_at
    split
    · rename_i hlen
      simp only [List.length_append, List.length_take, List.length_drop] at hlen
      have hh : h = [] := List.eq_nil_of_length_eq_zero (by omega)
      subst hh
      simp
    · have h1 : (List.take p s ++ h ++ List.drop p s).take p = List.take p s := by
        rw [List.append_assoc, List.take_append_of_le_length (by simp [hp'])]
        simp [List.take_take]
      have h2 : (List.take p s ++ h ++ List.drop p s).drop (p + h.length) = List.drop p s := by
        have hl : (List.take p s ++ h).length = p + h.length := by simp [hp']
        rw [← hl, List.drop_left]
      rw [h1, h2, List.take_append_drop]

/-- The function `edit_refresh` changes nothing but `extra`. -/
theorem edit_refresh_eq (env : ic_env_t) (eb : editor_t) :
    edit_refresh env eb
      = { eb with extra := sbuf_delete_at eb.extra 0 (sbuf_len eb.hint_help) } := by
  unfold edit_refresh
  have h : sbuf_delete_at
      (if sbuf_len eb.hint > 0 then (sbuf_insert_at eb.input eb.hint eb.pos).1 else eb.input)
      eb.pos (sbuf_len eb.hint) = eb.input := by
    unfold sbuf_len
    split
    · exact sbuf_delete_insert _ _ _
    · rename_i h0
      have : eb.hint.length = 0 := by omega
      rw [this]
      exact sbuf_delete_at_zero _ _
  simp only [h]

/-- The function `edit_resize` changes nothing but `extra`. -/
theorem edit_resize_eq (env : ic_env_t) (w : Bool) (eb : editor_t) :
    (edit_resize env w eb).2 = eb ∨
    (edit_resize env w eb).2
      = { eb with extra := sbuf_delete_at eb.extra 0 (sbuf_len eb.hint_help) } := by
  unfold edit_resize
  cases w
  · left; rfl
  · right
    simp only [Bool.not_true, Bool.false_eq_true, if_false, edit_refresh_eq]
    have h := sbuf_delete_insert eb.input eb.hint eb.pos
    unfold sbuf_len
    simp only [h]

/-- C18: for every editor state, with whatever hint, `edit_refresh` and `edit_resize`
leave the input and the cursor exactly as they were; hence the string that the read
returns and the entry written to the history are those of the input alone, with no
hint text. -/
theorem hint_never_enters_input (env : ic_env_t) (eb : editor_t)
    (width_changed tty_is_utf8 : Bool) (from_utf8 : List Nat → List Nat) (c : Nat) :
    (edit_refresh env eb).input = eb.input ∧ (edit_refresh env eb).pos = eb.pos ∧
    (edit_resize env width_changed eb).2.input = eb.input ∧
    (edit_resize env width_changed eb).2.pos = eb.pos ∧
    (edit_line_finish tty_is_utf8 from_utf8 env eb c).1
      = edit_line_result tty_is_utf8 from_utf8 c eb.input ∧
    (edit_line_finish tty_is_utf8 from_utf8 env eb c).2.history
      = (if (edit_line_result tty_is_utf8 from_utf8 c eb.input).isNone ∨ eb.input.length ≤ 1
          then history_remove_last (history_update env.history eb.input)
          else history_update env.history eb.input) := by
  refine ⟨by rw [edit_refresh_eq], by rw [edit_refresh_eq], ?_, ?_, ?_, ?_⟩
  · rcases edit_resize_eq env width_changed eb with h | h <;> rw [h]
  · rcases edit_resize_eq env width_changed eb with h | h <;> rw [h]
  · unfold edit_line_finish
    simp only [edit_refresh_eq]
  · unfold edit_line_finish
    simp only [edit_refresh_eq, sbuf_len]
    split <;> rfl

/-! ### Undo and redo -/

/-- The function `edit_refresh` leaves the stacks alone. -/
theorem edit_stacks_refresh (env : ic_env_t) (eb : editor_t) :
    edit_stacks (edit_refresh env eb) = edit_stacks eb := by
  rw [edit_refresh_eq]
  rfl

/-- The function `editor_undo_restore` spelled out on the stacks of the state. -/
theorem editor_undo_restore_eq (eb : editor_t) (with_redo : Bool) :
    editor_undo_restore eb with_redo =
      (if eb.disable_undo then eb
      else if eb.undo = [] then eb
      else
        match editstate_restore eb.undo with
        | none => if with_redo then { eb with redo := editor_capture eb eb.redo } else eb
        | some (e, rest) =>
          { eb with undo := rest, input := e.1, pos := e.2, modified := false,
                    redo := if with_redo then editor_capture eb eb.redo else eb.redo }) := by
  obtain ⟨input, pos, extra, hint, hint_help, modified, disable_undo, undo, redo⟩ := eb
  unfold editor_undo_restore editor_restore
  cases disable_undo <;> cases undo <;> cases with_redo <;> simp [editstate_restore]

/-- The function `editor_redo_restore` spelled out on the stacks of the state. -/
theorem editor_redo_restore_eq (eb : editor_t) :
    editor_redo_restore eb =
      (if eb.disable_undo then { eb with modified := false }
      else if eb.redo = [] then { eb with modified := false }
      else
        match editstate_restore eb.redo with
        | none => { eb with undo := editor_capture eb eb.undo, modified := false }
        | some (e, rest) =>
          { eb with redo := rest, input := e.1, pos := e.2, modified := false,
                    undo := editor_capture eb eb.undo }) := by
  obtain ⟨input, pos, extra, hint, hint_help, modified, disable_undo, undo, redo⟩ := eb
  unfold editor_redo_restore editor_restore
  cases disable_undo <;> cases redo <;> simp [editstate_restore]

/-- Undo and then redo on a state with something to undo, or with nothing to redo. -/
theorem editor_undo_then_redo (eb : editor_t) (hundo : eb.disable_undo = false)
    (hs : eb.undo ≠ [] ∨ eb.redo = []) (e1 : List Nat) :
    (editor_redo_restore { editor_undo_restore eb true with extra := e1 }).input = eb.input ∧
    (editor_redo_restore { editor_undo_restore eb true with extra := e1 }).pos = eb.pos := by
  obtain ⟨input, pos, extra, hint, hint_help, modified, disable_undo, undo, redo⟩ := eb
  simp only at hundo hs
  subst hundo
  cases undo with
  | nil =>
    have hr : redo = [] := by simpa using hs
    subst hr
    simp [editor_redo_restore_eq, editor_undo_restore_eq]
  | cons u us =>
    simp [editor_redo_restore_eq, editor_undo_restore_eq, editor_capture, editstate_capture,
      editstate_restore]

/-- C12, the claim at the state after the keys `a`, Ctrl+Z: undo is not suppressed and
the undo stack is empty, so the undo changes nothing, and the redo that follows turns
the empty buffer into `a` with the cursor at 1. -/
theorem undo_redo_after_undo_differs :
    state_after_a_undo.disable_undo = false ∧
    state_after_a_undo.input = [] ∧ state_after_a_undo.pos = 0 ∧
    (edit_undo_restore (ic_env_create (fun _ => true)) state_after_a_undo).input = [] ∧
    (edit_redo_restore (ic_env_create (fun _ => true))
      (edit_undo_restore (ic_env_create (fun _ => true)) state_after_a_undo)).input = cstr "a" ∧
    (edit_redo_restore (ic_env_create (fun _ => true))
      (edit_undo_restore (ic_env_create (fun _ => true)) state_after_a_undo)).pos = 1 ∧
    (edit_redo_restore (ic_env_create (fun _ => true))
      (edit_undo_restore (ic_env_create (fun _ => true)) state_after_a_undo)).input
        ≠ state_after_a_undo.input := by
  decide

/-- C12 as amended: in every editor state in which undo is not suppressed and there is
something to undo (or nothing to redo), an undo followed at once by a redo leaves the
buffer and the cursor as they were before the undo. -/
theorem undo_then_redo_restores (env : ic_env_t) (eb : editor_t)
    (hundo : eb.disable_undo = false) (hs : eb.undo ≠ [] ∨ eb.redo = []) :
    (edit_redo_restore env (edit_undo_restore env eb)).input = eb.input ∧
    (edit_redo_restore env (edit_undo_restore env eb)).pos = eb.pos := by
  unfold edit_redo_restore edit_undo_restore
  simp only [edit_refresh_eq]
  exact editor_undo_then_redo eb hundo hs _

/-- C12 as amended, at the state with the buffer `ab`, the cursor at 2 and one snapshot
to undo. -/
theorem undo_then_redo_restores_witness :
    (edit_redo_restore (ic_env_create (fun _ => true))
      (edit_undo_restore (ic_env_create (fun _ => true))
        { input := cstr "ab", pos := 2, undo := [(cstr "a", 1)] })).input = cstr "ab" ∧
    (edit_redo_restore (ic_env_create (fun _ => true))
      (edit_undo_restore (ic_env_create (fun _ => true))
        { input := cstr "ab", pos := 2, undo := [(cstr "a", 1)] })).pos = 2 :=
  undo_then_redo_restores (ic_env_create (fun _ => true))
    { input := cstr "ab", pos := 2, undo := [(cstr "a", 1)] } rfl (Or.inl (by decide))

/-- The function `edit_refresh_hint` leaves the input, the cursor and the stacks
alone. -/
theorem edit_refresh_hint_core (d : edit_deps) (env : ic_env_t) (eb : editor_t) :
    (edit_refresh_hint d env eb).input = eb.input ∧ (edit_refresh_hint d env eb).pos = eb.pos ∧
    edit_stacks (edit_refresh_hint d env eb) = edit_stacks eb := by
  unfold edit_refresh_hint
  simp only [edit_refresh_eq]
  split
  · split <;> exact ⟨rfl, rfl, rfl⟩
  · split <;> split <;> split <;> exact ⟨rfl, rfl, rfl⟩

/-- The loop of `edit_auto_brace` leaves the cursor and the stacks alone. -/
theorem edit_auto_brace_loop_core (d : edit_deps) (braces : List Nat) (eb : editor_t) (c : Nat) :
    ∀ (n : Nat) (bs : List Nat), bs.length ≤ n →
      (edit_auto_brace_loop d braces eb c bs).pos = eb.pos ∧
      edit_stacks (edit_auto_brace_loop d braces eb c bs) = edit_stacks eb := by
  intro n
  induction n with
  | zero =>
    intro bs hbs
    have : bs = [] := List.eq_nil_of_length_eq_zero (by omega)
    subst this
    exact ⟨rfl, rfl⟩
  | succ n ih =>
    intro bs hbs
    match bs, hbs with
    | [], _ => exact ⟨rfl, rfl⟩
    | [b], _ =>
      unfold edit_auto_brace_loop
      split
      · dsimp only
        split <;> exact ⟨rfl, rfl⟩
      · exact ⟨rfl, rfl⟩
    | b :: close :: rest, hbs =>
      unfold edit_auto_brace_loop
      split
      · dsimp only
        split <;> exact ⟨rfl, rfl⟩
      · split
        · split <;> exact ⟨rfl, rfl⟩
        · exact ih rest (by simp only [List.length_cons] at hbs; omega)

/-- The function `edit_auto_brace` leaves the cursor and the stacks alone. -/
theorem edit_auto_brace_core (d : edit_deps) (env : ic_env_t) (eb : editor_t) (c : Nat) :
    (edit_auto_brace d env eb c).pos = eb.pos ∧
    edit_stacks (edit_auto_brace d env eb c) = edit_stacks eb := by
  unfold edit_auto_brace
  split
  · exact ⟨rfl, rfl⟩
  · exact edit_auto_brace_loop_core d _ eb c _ _ (Nat.le_refl _)

/-- The function `editor_auto_indent` leaves the stacks alone. -/
theorem editor_auto_indent_stacks (eb : editor_t) (pre post : List Nat) :
    edit_stacks (editor_auto_indent eb pre post) = edit_stacks eb := by
  unfold editor_auto_indent
  split
  · split
    · rfl
    · split
      · rfl
      · split <;> rfl
  · rfl

/-- The function `edit_cursor_right` leaves the stacks alone. -/
theorem edit_cursor_right_stacks (env : ic_env_t) (eb : editor_t) :
    edit_stacks (edit_cursor_right env eb) = edit_stacks eb := by
  unfold edit_cursor_right
  split
  · rfl
  · rw [edit_refresh_eq]; rfl

/-- The function `editor_start_modify` pushes the state and empties the redo stack. -/
theorem editor_start_modify_stacks (eb : editor_t) (hundo : eb.disable_undo = false) :
    edit_stacks (editor_start_modify eb) = ((eb.input, eb.pos) :: eb.undo, [], false) ∧
    (editor_start_modify eb).input = eb.input ∧ (editor_start_modify eb).pos = eb.pos := by
  unfold editor_start_modify editor_undo_capture editor_capture editstate_capture editstate_done
    edit_stacks
  simp [hundo]

/-- An undo on a state whose newest snapshot is `(input, pos)` restores them. -/
theorem edit_undo_restore_top (env : ic_env_t) (eb : editor_t) (input : List Nat) (pos : Nat)
    (u r : List (List Nat × Nat)) (h : edit_stacks eb = ((input, pos) :: u, r, false)) :
    (edit_undo_restore env eb).input = input ∧ (edit_undo_restore env eb).pos = pos := by
  unfold edit_stacks at h
  simp only [Prod.mk.injEq] at h
  obtain ⟨hu, _, hd⟩ := h
  unfold edit_undo_restore
  rw [editor_undo_restore_eq]
  simp [edit_refresh_eq, hu, hd, editstate_restore]

/-- A mutating operation either returns at once, leaving the state as it is, or pushes
the state it started from on the undo stack and empties the redo stack. -/
theorem mutating_op_stacks (d : edit_deps) (w : Bool) (env : ic_env_t) (eb : editor_t)
    (op : edit_op) (hop : is_mutating_op op = true) (hundo : eb.disable_undo = false) :
    (edit_apply d w env eb op).2 = eb ∨
    edit_stacks (edit_apply d w env eb op).2 = ((eb.input, eb.pos) :: eb.undo, [], false) := by
  have hsm := (editor_start_modify_stacks eb hundo).1
  cases op <;> simp only [is_mutating_op, Bool.false_eq_true] at hop <;> simp only [edit_apply]
  case edit_backspace =>
    unfold edit_backspace
    split
    · left; rfl
    · right; rw [edit_stacks_refresh]; exact hsm
  case edit_delete_char =>
    unfold edit_delete_char
    split
    · left; rfl
    · right; rw [edit_stacks_refresh]; exact hsm
  case edit_delete_all =>
    unfold edit_delete_all
    split
    · left; rfl
    · right; rw [edit_stacks_refresh]; exact hsm
  case edit_delete_to_end_of_word =>
    unfold edit_delete_to_end_of_word
    split
    · left; rfl
    · right; rw [edit_stacks_refresh]; exact hsm
  case edit_delete_to_start_of_word =>
    unfold edit_delete_to_start_of_word
    split
    · left; rfl
    · right; rw [edit_stacks_refresh]; exact hsm
  case edit_delete_to_start_of_ws_word =>
    unfold edit_delete_to_start_of_ws_word
    split
    · left; rfl
    · right; rw [edit_stacks_refresh]; exact hsm
  case edit_delete_to_end_of_line =>
    unfold edit_delete_to_end_of_line
    split
    · left; rfl
    · split
      · left; rfl
      · right
        dsimp only
        split
        · rw [edit_stacks_refresh]; exact hsm
        · split <;> (rw [edit_stacks_refresh]; exact hsm)
  case edit_delete_to_start_of_line =>
    unfold edit_delete_to_start_of_line
    split
    · left; rfl
    · split
      · left; rfl
      · right
        dsimp only
        rw [edit_stacks_refresh]
        split
        · rw [edit_cursor_right_stacks]; exact hsm
        · exact hsm
  case edit_swap_char =>
    unfold edit_swap_char
    split
    · left; rfl
    · right; rw [edit_stacks_refresh]; exact hsm
  case edit_multiline_eol =>
    unfold edit_multiline_eol
    split
    · left; rfl
    · split
      · left; rfl
      · right; rw [edit_stacks_refresh]; exact hsm
  case edit_insert_unicode u =>
    right
    unfold edit_insert_unicode
    rw [(edit_refresh_hint_core d env _).2.2]
    exact hsm
  case edit_insert_char c =>
    right
    unfold edit_insert_char
    dsimp only
    rw [(edit_refresh_hint_core d env _).2.2]
    split
    · rw [editor_auto_indent_stacks, (edit_auto_brace_core d env _ c).2]; exact hsm
    · rw [(edit_auto_brace_core d env _ c).2]; exact hsm

/-- C13: with undo not suppressed, for every editing operation that mutates the
buffer (insertion of a byte or code point with its auto-brace and auto-indent,
backspace, delete-forward, deletion to a word or line start or end, transposition,
delete-all, a continuation marker turned into a newline) and that changes the editor
state at all, one undo right after it restores the buffer and the cursor to what they
were before the operation, and the operation leaves the redo stack empty. -/
theorem mutation_is_one_undo_step (d : edit_deps) (w : Bool) (env : ic_env_t) (eb : editor_t)
    (op : edit_op) (hop : is_mutating_op op = true) (hundo : eb.disable_undo = false)
    (hmut : (edit_apply d w env eb op).2 ≠ eb) :
    (edit_undo_restore env (edit_apply d w env eb op).2).input = eb.input ∧
    (edit_undo_restore env (edit_apply d w env eb op).2).pos = eb.pos ∧
    (edit_apply d w env eb op).2.redo = [] := by
  rcases mutating_op_stacks d w env eb op hop hundo with h | h
  · exact absurd h hmut
  · have hr : (edit_apply d w env eb op).2.redo = [] := by
      unfold edit_stacks at h
      simp only [Prod.mk.injEq] at h
      exact h.2.1
    exact ⟨(edit_undo_restore_top env _ _ _ _ _ h).1, (edit_undo_restore_top env _ _ _ _ _ h).2, hr⟩

/-- C13 at the insertion of `(` into the buffer `ab` with the cursor at 1 and one
snapshot on the redo stack. -/
theorem mutation_is_one_undo_step_witness :
    (edit_undo_restore (ic_env_create (fun _ => true))
      (edit_apply sample_deps false (ic_env_create (fun _ => true))
        { input := cstr "ab", pos := 1, redo := [(cstr "abc", 3)] }
        (.edit_insert_char 40)).2).input = cstr "ab" ∧
    (edit_undo_restore (ic_env_create (fun _ => true))
      (edit_apply sample_deps false (ic_env_create (fun _ => true))
        { input := cstr "ab", pos := 1, redo := [(cstr "abc", 3)] }
        (.edit_insert_char 40)).2).pos = 1 ∧
    (edit_apply sample_deps false (ic_env_create (fun _ => true))
      { input := cstr "ab", pos := 1, redo := [(cstr "abc", 3)] }
      (.edit_insert_char 40)).2.redo = [] :=
  mutation_is_one_undo_step sample_deps false (ic_env_create (fun _ => true))
    { input := cstr "ab", pos := 1, redo := [(cstr "abc", 3)] } (.edit_insert_char 40)
    rfl rfl (by decide)

/-! ### The loop of `edit_line`: Esc and Enter -/

/-- The function `edit_refresh` keeps the text. -/
theorem same_text_refresh (env : ic_env_t) (eb : editor_t) : same_text (edit_refresh env eb) eb := by
  rw [edit_refresh_eq]
  exact ⟨rfl, rfl, rfl, rfl, rfl, rfl⟩

/-- The function `edit_resize` keeps the text. -/
theorem same_text_resize (env : ic_env_t) (w : Bool) (eb : editor_t) :
    same_text (edit_resize env w eb).2 eb := by
  rcases edit_resize_eq env w eb with h | h <;> rw [h] <;> exact ⟨rfl, rfl, rfl, rfl, rfl, rfl⟩

theorem same_text_trans {a b c : editor_t} (h1 : same_text a b) (h2 : same_text b c) :
    same_text a c :=
  ⟨h1.1.trans h2.1, h1.2.1.trans h2.2.1, h1.2.2.1.trans h2.2.2.1, h1.2.2.2.1.trans h2.2.2.2.1,
    h1.2.2.2.2.1.trans h2.2.2.2.2.1, h1.2.2.2.2.2.trans h2.2.2.2.2.2⟩

/-- The first part of a round keeps the text and empties the hint buffers. -/
theorem same_text_prelude (env : ic_env_t) (eb : editor_t) (ev : key_event) :
    same_text (edit_line_prelude env eb ev).1 eb ∧ (edit_line_prelude env eb ev).1.hint = [] ∧
    (edit_line_prelude env eb ev).1.hint_help = [] := by
  have h1 : same_text (if env.hint_delay ≤ 0 ∨ sbuf_len eb.hint = 0 then eb
      else if !ev.in_time then (if sbuf_len eb.hint > 0 then edit_refresh env eb else eb)
      else { eb with hint := [], hint_help := [] }) eb := by
    split
    · exact ⟨rfl, rfl, rfl, rfl, rfl, rfl⟩
    · split
      · split
        · exact same_text_refresh env eb
        · exact ⟨rfl, rfl, rfl, rfl, rfl, rfl⟩
      · exact ⟨rfl, rfl, rfl, rfl, rfl, rfl⟩
  have h2 : ∀ e : editor_t, same_text e eb →
      same_text (if ev.resize_event then (edit_resize env ev.width_changed e).2 else e) eb := by
    intro e he
    split
    · exact same_text_trans (same_text_resize env _ e) he
    · exact he
  exact ⟨h2 _ h1, rfl, rfl⟩

/-- The first part of a round leaves the state as it is but for `extra` and the hint
buffers, which it empties. -/
theorem edit_line_prelude_eq (env : ic_env_t) (eb : editor_t) (ev : key_event) :
    ∃ x, (edit_line_prelude env eb ev).1 = { eb with extra := x, hint := [], hint_help := [] } := by
  obtain ⟨h, hh, hhh⟩ := same_text_prelude env eb ev
  refine ⟨(edit_line_prelude env eb ev).1.extra, ?_⟩
  generalize (edit_line_prelude env eb ev).1 = e at h hh hhh
  obtain ⟨i1, p1, x1, n1, nh1, m1, du1, u1, r1⟩ := e
  obtain ⟨i2, p2, x2, n2, nh2, m2, du2, u2, r2⟩ := eb
  obtain ⟨a, b, c, dd, ee, ff⟩ := h
  simp only at a b c dd ee ff hh hhh
  subst a b c dd ee ff hh hhh
  rfl

/-- A key without an entry in the binding table is not handled by
`key_binding_execute`. -/
theorem key_binding_execute_unbound (env : ic_env_t) (eb : editor_t) (key : Nat)
    (h : ic_get_key_binding env key = none) : key_binding_execute env eb key = none := by
  have hfind : find_entry_index env.key_bindings key = none := by
    unfold ic_get_key_binding key_binding_find_entry at h
    cases hf : find_entry_index env.key_bindings key with
    | none => rfl
    | some i => rw [hf] at h; simp at h
  have hall := (find_entry_index_eq_none _ _).mp hfind
  unfold key_binding_execute
  split
  · rfl
  · generalize env.key_bindings = l at hall
    induction l with
    | nil => rfl
    | cons e es ih =>
      unfold key_binding_execute_loop
      rw [if_neg (hall e (List.mem_cons_self _ _))]
      exact ih (fun x hx => hall x (List.mem_cons_of_mem _ hx))

/-- The branch of the loop for Esc when Esc is not bound. -/
theorem edit_line_key_esc (ca cu : Nat → Bool) (env : ic_env_t) (eb : editor_t) (r : Bool)
    (h : ic_get_key_binding env IC_KEY_ESC = none) :
    edit_line_key ca cu env eb r IC_KEY_ESC
      = if eb.pos = 0 ∧ editor_pos_is_at_end eb then .exit .nop else .hardcoded .edit_delete_all := by
  unfold edit_line_key
  rw [key_binding_execute_unbound env eb _ h]
  simp [IC_KEY_ESC, IC_KEY_ENTER, IC_KEY_CTRL_D, IC_KEY_CTRL_C, IC_KEY_EVENT_STOP,
    IC_KEY_EVENT_BASE]

/-- The branch of the loop for Enter when Enter is not bound. -/
theorem edit_line_key_enter (ca cu : Nat → Bool) (env : ic_env_t) (eb : editor_t) (r : Bool)
    (h : ic_get_key_binding env IC_KEY_ENTER = none) :
    edit_line_key ca cu env eb r IC_KEY_ENTER
      = if !env.singleline_only ∧ eb.pos > 0 ∧ eb.input.getD (eb.pos - 1) 0 = env.multiline_eol
            ∧ r then .hardcoded .edit_multiline_eol
        else .exit .nop := by
  unfold edit_line_key
  rw [key_binding_execute_unbound env eb _ h]
  simp [IC_KEY_ENTER, IC_KEY_EVENT_BASE]

/-- A round of the loop for a key other than Right and End. -/
theorem edit_line_round_plain (d : edit_deps) (env : ic_env_t) (eb : editor_t) (ev : key_event)
    (h : ev.code ≠ IC_KEY_RIGHT ∧ ev.code ≠ IC_KEY_END) :
    ∃ x, edit_line_round d env eb ev
      = edit_line_dispatch d ev.width_changed env
          { eb with extra := x, hint := [], hint_help := [] } ev.code := by
  obtain ⟨x, hx⟩ := edit_line_prelude_eq env eb ev
  refine ⟨x, ?_⟩
  unfold edit_line_round
  rw [if_neg (by intro hh; rcases hh.1 with h1 | h1 <;> simp [h1] at h), hx]

/-- C15: when Esc has no entry in the binding table, Esc on an empty buffer ends the
read, and the read returns a string that is not NULL, the empty string (as it stands on
a UTF-8 terminal); Esc on a non-empty buffer clears the buffer, puts the cursor at 0,
and the loop goes on. -/
theorem esc_returns_empty_or_clears (d : edit_deps) (env : ic_env_t) (eb : editor_t)
    (ev : key_event) (tty_is_utf8 : Bool) (from_utf8 : List Nat → List Nat)
    (hcode : ev.code = IC_KEY_ESC) (hunbound : ic_get_key_binding env IC_KEY_ESC = none)
    (hpos : eb.pos ≤ eb.input.length) :
    (eb.input = [] →
      ∃ eb1, edit_line_round d env eb ev = .left env eb1 IC_KEY_ESC ∧ eb1.input = [] ∧
        (edit_line_finish tty_is_utf8 from_utf8 env eb1 IC_KEY_ESC).1 ≠ none ∧
        (edit_line_finish true from_utf8 env eb1 IC_KEY_ESC).1 = some []) ∧
    (eb.input ≠ [] →
      ∃ eb1, edit_line_round d env eb ev = .reading env eb1 ∧ eb1.input = [] ∧ eb1.pos = 0) := by
  obtain ⟨x, hx⟩ := edit_line_round_plain d env eb ev (by rw [hcode]; decide)
  rw [hx, hcode]
  unfold edit_line_dispatch
  rw [edit_line_key_esc _ _ _ _ _ hunbound]
  constructor
  · intro hempty
    have hp0 : eb.pos = 0 := by rw [hempty] at hpos; simpa using hpos
    rw [if_pos (by simp [editor_pos_is_at_end, hp0, hempty])]
    simp only [edit_apply]
    refine ⟨_, rfl, hempty, ?_, ?_⟩
    · unfold edit_line_finish edit_line_result
      simp only [edit_refresh_eq, hempty]
      cases tty_is_utf8 <;> simp [IC_KEY_ESC, IC_KEY_CTRL_D, IC_KEY_CTRL_C, IC_KEY_EVENT_STOP,
        IC_KEY_EVENT_BASE]
    · unfold edit_line_finish edit_line_result
      simp [edit_refresh_eq, hempty, IC_KEY_ESC, IC_KEY_CTRL_D, IC_KEY_CTRL_C, IC_KEY_EVENT_STOP,
        IC_KEY_EVENT_BASE]
  · intro hne
    have hlen : eb.input.length ≠ 0 := fun h => hne (List.eq_nil_of_length_eq_zero h)
    rw [if_neg (by
      simp only [editor_pos_is_at_end, decide_eq_true_eq]
      omega)]
    refine ⟨_, rfl, ?_, ?_⟩
    · simp only [edit_apply, edit_delete_all, sbuf_len]
      rw [if_neg (by omega), edit_refresh_eq]
    · simp only [edit_apply, edit_delete_all, sbuf_len]
      rw [if_neg (by omega), edit_refresh_eq]

/-- C15 on a fresh environment: Esc on the empty buffer and Esc on the buffer `ab`. -/
theorem esc_returns_empty_or_clears_witness :
    (∃ eb1, edit_line_round sample_deps (ic_env_create (fun _ => true))
        { input := [], pos := 0 } { code := IC_KEY_ESC }
          = .left (ic_env_create (fun _ => true)) eb1 IC_KEY_ESC ∧ eb1.input = [] ∧
        (edit_line_finish true id (ic_env_create (fun _ => true)) eb1 IC_KEY_ESC).1 ≠ none ∧
        (edit_line_finish true id (ic_env_create (fun _ => true)) eb1 IC_KEY_ESC).1 = some []) ∧
    (∃ eb1, edit_line_round sample_deps (ic_env_create (fun _ => true))
        { input := cstr "ab", pos := 2 } { code := IC_KEY_ESC }
          = .reading (ic_env_create (fun _ => true)) eb1 ∧ eb1.input = [] ∧ eb1.pos = 0) :=
  ⟨(esc_returns_empty_or_clears sample_deps (ic_env_create (fun _ => true))
      { input := [], pos := 0 } { code := IC_KEY_ESC } true id rfl rfl (by decide)).1 rfl,
   (esc_returns_empty_or_clears sample_deps (ic_env_create (fun _ => true))
      { input := cstr "ab", pos := 2 } { code := IC_KEY_ESC } true id rfl rfl (by decide)).2
      (by decide)⟩

/-- The function `edit_multiline_eol` on a buffer that ends in the continuation marker,
with the cursor at the end. -/
theorem edit_multiline_eol_at_end (env : ic_env_t) (eb : editor_t) (t : List Nat)
    (hinput : eb.input = t ++ [env.multiline_eol]) (hpos : eb.pos = eb.input.length) :
    (edit_multiline_eol env eb).input = t ++ [10] ∧ (edit_multiline_eol env eb).pos = eb.pos := by
  have hp : eb.pos = t.length + 1 := by rw [hpos, hinput]; simp
  have hget : eb.input.getD (eb.pos - 1) 0 = env.multiline_eol := by
    rw [hp, hinput]; simp
  unfold edit_multiline_eol
  rw [if_neg (by omega), if_neg (by rw [hget]; simp), edit_refresh_eq]
  refine ⟨?_, rfl⟩
  show (sbuf_insert_at (sbuf_delete_at eb.input (eb.pos - 1) 1) [10] (eb.pos - 1)).1 = t ++ [10]
  rw [hp, hinput]
  simp [sbuf_delete_at, sbuf_insert_at]

/-- C14: with multiline editing enabled, Enter without an entry in the binding table,
and a continuation marker that is not the newline itself (it is the backslash in every
environment), on a buffer whose last byte is the marker and whose cursor stands at the
end (which the layout reports as the end of its row): Enter does not end the read, the
buffer becomes the same text with its last byte replaced by a newline, length and
cursor unchanged; the Enter after it ends the read, which returns that buffer (as it
stands on a UTF-8 terminal). -/
theorem enter_on_continuation (d : edit_deps) (env : ic_env_t) (eb : editor_t)
    (ev1 ev2 : key_event) (t : List Nat) (from_utf8 : List Nat → List Nat)
    (h1 : ev1.code = IC_KEY_ENTER) (h2 : ev2.code = IC_KEY_ENTER)
    (hmulti : env.singleline_only = false)
    (hunbound : ic_get_key_binding env IC_KEY_ENTER = none)
    (heol : env.multiline_eol ≠ 10)
    (hrow : ∀ e : editor_t, e.pos = e.input.length → edit_pos_is_at_row_end d env e = true)
    (hinput : eb.input = t ++ [env.multiline_eol]) (hpos : eb.pos = eb.input.length) :
    ∃ eb1 eb2, edit_line_round d env eb ev1 = .reading env eb1 ∧
      eb1.input = t ++ [10] ∧ eb1.input.length = eb.input.length ∧ eb1.pos = eb.pos ∧
      edit_line_round d env eb1 ev2 = .left env eb2 IC_KEY_ENTER ∧
      (edit_line_finish true from_utf8 env eb2 IC_KEY_ENTER).1 = some (t ++ [10]) := by
  have hp : eb.pos = t.length + 1 := by rw [hpos, hinput]; simp
  obtain ⟨x, hx⟩ := edit_line_round_plain d env eb ev1 (by rw [h1]; decide)
  have hspec := edit_multiline_eol_at_end env
    { eb with extra := x, hint := [], hint_help := [] } t hinput hpos
  have hk1 : edit_line_key d.code_is_ascii_char d.code_is_unicode env
      { eb with extra := x, hint := [], hint_help := [] }
      (edit_pos_is_at_row_end d env { eb with extra := x, hint := [], hint_help := [] })
      IC_KEY_ENTER = .hardcoded .edit_multiline_eol := by
    rw [edit_line_key_enter _ _ _ _ _ hunbound,
      hrow { eb with extra := x, hint := [], hint_help := [] } hpos]
    rw [if_pos]
    refine ⟨by simp [hmulti], ?_, ?_, rfl⟩
    · show eb.pos > 0
      omega
    · show eb.input.getD (eb.pos - 1) 0 = env.multiline_eol
      rw [hp, hinput]; simp
  have hr1 : edit_line_round d env eb ev1
      = .reading env (edit_multiline_eol env { eb with extra := x, hint := [], hint_help := [] }) := by
    rw [hx, h1]
    unfold edit_line_dispatch
    rw [hk1]
    rfl
  obtain ⟨y, hy⟩ := edit_line_round_plain d env
    (edit_multiline_eol env { eb with extra := x, hint := [], hint_help := [] }) ev2
    (by rw [h2]; decide)
  have hk2 : ∀ r, edit_line_key d.code_is_ascii_char d.code_is_unicode env
      { edit_multiline_eol env { eb with extra := x, hint := [], hint_help := [] } with
        extra := y, hint := [], hint_help := [] } r IC_KEY_ENTER = .exit .nop := by
    intro r
    rw [edit_line_key_enter _ _ _ _ _ hunbound, if_neg]
    intro hh
    have hg := hh.2.2.1
    simp only [hspec.1, hspec.2] at hg
    have hp' : eb.pos - 1 = t.length := by omega
    rw [hp'] at hg
    simp at hg
    exact heol hg.symm
  refine ⟨_, { edit_multiline_eol env { eb with extra := x, hint := [], hint_help := [] } with
      extra := y, hint := [], hint_help := [] }, hr1, hspec.1, ?_, hspec.2, ?_, ?_⟩
  · rw [hspec.1, hinput]; simp
  · rw [hy, h2]
    unfold edit_line_dispatch
    rw [hk2]
    rfl
  · unfold edit_line_finish edit_line_result
    simp [edit_refresh_eq, edit_apply, hspec.1, IC_KEY_ENTER, IC_KEY_CTRL_D, IC_KEY_CTRL_C,
      IC_KEY_EVENT_STOP, IC_KEY_EVENT_BASE]

/-- C14 on a fresh environment, at the buffer `hello` followed by a backslash: the
first Enter turns it into `hello` followed by a newline, the second returns that. -/
theorem enter_on_continuation_witness :
    ∃ eb1 eb2, edit_line_round sample_deps (ic_env_create (fun _ => true))
        { input := cstr "hello" ++ [92], pos := 6 } { code := IC_KEY_ENTER }
          = .reading (ic_env_create (fun _ => true)) eb1 ∧
      eb1.input = cstr "hello" ++ [10] ∧ eb1.input.length = 6 ∧ eb1.pos = 6 ∧
      edit_line_round sample_deps (ic_env_create (fun _ => true)) eb1 { code := IC_KEY_ENTER }
          = .left (ic_env_create (fun _ => true)) eb2 IC_KEY_ENTER ∧
      (edit_line_finish true id (ic_env_create (fun _ => true)) eb2 IC_KEY_ENTER).1
          = some (cstr "hello" ++ [10]) :=
  enter_on_continuation sample_deps (ic_env_create (fun _ => true))
    { input := cstr "hello" ++ [92], pos := 6 } { code := IC_KEY_ENTER } { code := IC_KEY_ENTER }
    (cstr "hello") id rfl rfl rfl rfl (by decide)
    (fun e h => by simp [edit_pos_is_at_row_end, sample_deps, h]) rfl rfl

/-! ### Auto-indent and auto-brace -/

/-- A byte that is in no pair of the brace list goes through `edit_auto_brace`
untouched. -/
theorem edit_auto_brace_loop_other (d : edit_deps) (braces : List Nat) (eb : editor_t) (c : Nat) :
    ∀ (n : Nat) (bs : List Nat), bs.length ≤ n → c ∉ bs →
      edit_auto_brace_loop d braces eb c bs = eb := by
  intro n
  induction n with
  | zero =>
    intro bs hbs _
    have : bs = [] := List.eq_nil_of_length_eq_zero (by omega)
    subst this
    rfl
  | succ n ih =>
    intro bs hbs hc
    match bs, hbs, hc with
    | [], _, _ => rfl
    | [b], _, hc =>
      unfold edit_auto_brace_loop
      rw [if_neg (by intro h; exact hc (by simp [h]))]
    | b :: close :: rest, hbs, hc =>
      unfold edit_auto_brace_loop
      rw [if_neg (by intro h; exact hc (by simp [h])),
        if_neg (by intro h; exact hc (by simp [h]))]
      exact ih rest (by simp only [List.length_cons] at hbs; omega)
        (fun h => hc (List.mem_cons_of_mem _ (List.mem_cons_of_mem _ h)))

/-- Insertion at the seam of two parts of the buffer. -/
theorem sbuf_insert_at_seam (a b s : List Nat) (n : Nat) (hn : n = a.length) :
    sbuf_insert_at (a ++ b) s n = (a ++ s ++ b, a.length + s.length) := by
  subst hn
  unfold sbuf_insert_at
  rw [if_neg (by simp), List.take_left' rfl, List.drop_left' rfl]

/-- The function `editor_auto_indent` right after a newline typed between `{` and
`}`. -/
theorem editor_auto_indent_braces (eb : editor_t) (x y : List Nat)
    (hinput : eb.input = x ++ [123, 10, 125] ++ y) (hpos : eb.pos = x.length + 2) :
    (editor_auto_indent eb (cstr "\x7b") (cstr "\x7d")).input
      = x ++ [123, 10, 32, 32, 10, 125] ++ y ∧
    (editor_auto_indent eb (cstr "\x7b") (cstr "\x7d")).pos = x.length + 4 := by
  have h1 : eb.input.drop (eb.pos - 1 - 1) = [123, 10, 125] ++ y := by
    rw [hpos, hinput, List.append_assoc]
    exact List.drop_left' rfl
  have h2 : eb.input.drop eb.pos = [125] ++ y := by
    have : eb.input = (x ++ [123, 10]) ++ ([125] ++ y) := by rw [hinput]; simp
    rw [this, hpos]
    exact List.drop_left' (by simp)
  have h3 : sbuf_insert_at eb.input (cstr "  ") eb.pos
      = (x ++ [123, 10] ++ [32, 32] ++ ([125] ++ y), x.length + 4) := by
    have : eb.input = (x ++ [123, 10]) ++ ([125] ++ y) := by rw [hinput]; simp
    rw [this, sbuf_insert_at_seam _ _ _ _ (by rw [hpos]; simp)]
    simp [cstr]
  have h4 : sbuf_insert_char_at (x ++ [123, 10] ++ [32, 32] ++ ([125] ++ y)) 10 (x.length + 4)
      = (x ++ [123, 10] ++ [32, 32] ++ [10] ++ ([125] ++ y), x.length + 5) := by
    unfold sbuf_insert_char_at
    rw [if_neg (by decide), sbuf_insert_at_seam _ _ _ _ (by simp)]
    simp
  unfold editor_auto_indent
  have hc : (cstr "\x7b").length = 1 := rfl
  rw [if_pos (by rw [hc]; decide), if_neg (by rw [hc, hpos]; push_cast; omega), hc, h1, h2, h3]
  rw [if_neg (by simp [ic_starts_with, cstr]), if_neg (by simp [ic_starts_with, cstr])]
  dsimp only
  rw [h4]
  simp

/-- C17: when the newline is no insertion brace (as with the default pair list) or
brace insertion is off, in a buffer `X{}Y` with the cursor between the braces the
insertion of a newline gives `X{`, newline, two spaces, newline, `}Y` with the cursor
right after the two spaces; when undo is not suppressed the whole is one undoable edit:
one snapshot is pushed, and one undo restores `X{}Y` and the cursor. -/
theorem newline_between_braces_indents (d : edit_deps) (env : ic_env_t) (eb : editor_t)
    (x y : List Nat)
    (hbrace : env.no_autobrace = true ∨ 10 ∉ ic_env_get_auto_braces env)
    (hinput : eb.input = x ++ [123, 125] ++ y) (hpos : eb.pos = x.length + 1) :
    (edit_insert_char d env eb 10).input = x ++ [123, 10, 32, 32, 10, 125] ++ y ∧
    (edit_insert_char d env eb 10).pos = x.length + 4 ∧
    (eb.disable_undo = false →
      (edit_insert_char d env eb 10).undo = (eb.input, eb.pos) :: eb.undo ∧
      (edit_undo_restore env (edit_insert_char d env eb 10)).input = eb.input ∧
      (edit_undo_restore env (edit_insert_char d env eb 10)).pos = eb.pos) := by
  have hab : ∀ e : editor_t, edit_auto_brace d env e 10 = e := by
    intro e
    unfold edit_auto_brace
    rcases hbrace with h | h
    · rw [if_pos h]
    · split
      · rfl
      · exact edit_auto_brace_loop_other d _ e 10 _ _ (Nat.le_refl _) h
  have hcore : (edit_insert_char d env eb 10).input = x ++ [123, 10, 32, 32, 10, 125] ++ y ∧
      (edit_insert_char d env eb 10).pos = x.length + 4 := by
    unfold edit_insert_char
    dsimp only
    rw [(edit_refresh_hint_core d env _).1, (edit_refresh_hint_core d env _).2.1, hab]
    simp only [if_true]
    have hi : (editor_start_modify eb).input = (x ++ [123]) ++ ([125] ++ y) := by
      show eb.input = _
      rw [hinput]; simp
    have hp : (editor_start_modify eb).pos = x.length + 1 := hpos
    have hins : sbuf_insert_char_at (editor_start_modify eb).input 10 (editor_start_modify eb).pos
        = (x ++ [123, 10, 125] ++ y, x.length + 2) := by
      unfold sbuf_insert_char_at
      rw [if_neg (by decide), hi, hp, sbuf_insert_at_seam _ _ _ _ (by simp)]
      simp
    rw [hins]
    exact editor_auto_indent_braces _ x y rfl rfl
  refine ⟨hcore.1, hcore.2, ?_⟩
  intro hundo
  have hst : edit_stacks (edit_insert_char d env eb 10) = ((eb.input, eb.pos) :: eb.undo, [], false) := by
    rcases mutating_op_stacks d false env eb (.edit_insert_char 10) rfl hundo with h | h
    · exfalso
      have h' : (edit_insert_char d env eb 10).input = eb.input := congrArg editor_t.input h
      rw [hcore.1, hinput] at h'
      have := congrArg List.length h'
      simp at this
      omega
    · exact h
  refine ⟨?_, edit_undo_restore_top env _ _ _ _ _ hst⟩
  unfold edit_stacks at hst
  simp only [Prod.mk.injEq] at hst
  exact hst.1

/-- C17 on a fresh environment, at the buffer `if {}` with the cursor between the
braces. -/
theorem newline_between_braces_indents_witness :
    (edit_insert_char sample_deps (ic_env_create (fun _ => true))
      { input := cstr "if " ++ [123, 125] ++ [], pos := 4 } 10).input
        = cstr "if " ++ [123, 10, 32, 32, 10, 125] ++ [] ∧
    (edit_insert_char sample_deps (ic_env_create (fun _ => true))
      { input := cstr "if " ++ [123, 125] ++ [], pos := 4 } 10).pos = 7 ∧
    (edit_undo_restore (ic_env_create (fun _ => true))
      (edit_insert_char sample_deps (ic_env_create (fun _ => true))
        { input := cstr "if " ++ [123, 125] ++ [], pos := 4 } 10)).input
        = cstr "if " ++ [123, 125] ++ [] :=
  ⟨(newline_between_braces_indents sample_deps (ic_env_create (fun _ => true))
      { input := cstr "if " ++ [123, 125] ++ [], pos := 4 } (cstr "if ") []
      (Or.inr (by decide)) rfl rfl).1,
   (newline_between_braces_indents sample_deps (ic_env_create (fun _ => true))
      { input := cstr "if " ++ [123, 125] ++ [], pos := 4 } (cstr "if ") []
      (Or.inr (by decide)) rfl rfl).2.1,
   ((newline_between_braces_indents sample_deps (ic_env_create (fun _ => true))
      { input := cstr "if " ++ [123, 125] ++ [], pos := 4 } (cstr "if ") []
      (Or.inr (by decide)) rfl rfl).2.2 rfl).2.1⟩

/-- C16, the code at the failing input: with the default insertion pairs, typing `"`
in the buffer `""` with the cursor between the quotes never leaves the text as it was:
the buffer becomes `"""` (or `""""` when the brace search calls that balanced) with the
cursor at 2, whatever the brace search of `highlight.c` answers; the same holds for the
pair of single quotes. The closers `)`, `]` and `}` are swallowed as the claim says:
typing `)` in `()` with the cursor between leaves `()` with the cursor at 2. -/
theorem closing_quote_is_doubled (d : edit_deps) :
    ((edit_insert_char d (ic_env_create (fun _ => true)) { input := [34, 34], pos := 1 } 34).input
        = [34, 34, 34] ∨
      (edit_insert_char d (ic_env_create (fun _ => true)) { input := [34, 34], pos := 1 } 34).input
        = [34, 34, 34, 34]) ∧
    (edit_insert_char d (ic_env_create (fun _ => true)) { input := [34, 34], pos := 1 } 34).pos = 2 ∧
    ((edit_insert_char d (ic_env_create (fun _ => true)) { input := [39, 39], pos := 1 } 39).input
        = [39, 39, 39] ∨
      (edit_insert_char d (ic_env_create (fun _ => true)) { input := [39, 39], pos := 1 } 39).input
        = [39, 39, 39, 39]) ∧
    (edit_insert_char d (ic_env_create (fun _ => true)) { input := [40, 41], pos := 1 } 41).input
        = [40, 41] ∧
    (edit_insert_char d (ic_env_create (fun _ => true)) { input := [40, 41], pos := 1 } 41).pos = 2 := by
  refine ⟨?_, ?_, ?_, ?_, ?_⟩
  · unfold edit_insert_char
    dsimp only
    rw [(edit_refresh_hint_core d _ _).1]
    simp [edit_auto_brace, ic_env_get_auto_braces, ic_env_create, cstr, edit_auto_brace_loop,
      editor_start_modify, editor_undo_capture, sbuf_insert_char_at, sbuf_insert_at,
      sbuf_delete_char_at, sbuf_next, scan_fwd, sbuf_delete_from_to, sbuf_delete_at]
    split <;> simp [is_utf8_cont]
  · unfold edit_insert_char
    dsimp only
    rw [(edit_refresh_hint_core d _ _).2.1]
    simp [(edit_auto_brace_core d _ _ _).1, editor_start_modify, editor_undo_capture,
      sbuf_insert_char_at, sbuf_insert_at]
  · unfold edit_insert_char
    dsimp only
    rw [(edit_refresh_hint_core d _ _).1]
    simp [edit_auto_brace, ic_env_get_auto_braces, ic_env_create, cstr, edit_auto_brace_loop,
      editor_start_modify, editor_undo_capture, sbuf_insert_char_at, sbuf_insert_at,
      sbuf_delete_char_at, sbuf_next, scan_fwd, sbuf_delete_from_to, sbuf_delete_at]
    split <;> simp [is_utf8_cont]
  · unfold edit_insert_char
    dsimp only
    rw [(edit_refresh_hint_core d _ _).1]
    simp [edit_auto_brace, ic_env_get_auto_braces, ic_env_create, cstr, edit_auto_brace_loop,
      editor_start_modify, editor_undo_capture, sbuf_insert_char_at, sbuf_insert_at,
      sbuf_delete_char_at, sbuf_next, scan_fwd, sbuf_delete_from_to, sbuf_delete_at,
      sbuf_char_at, is_utf8_cont]
  · unfold edit_insert_char
    dsimp only
    rw [(edit_refresh_hint_core d _ _).2.1]
    simp [(edit_auto_brace_core d _ _ _).1, editor_start_modify, editor_undo_capture,
      sbuf_insert_char_at, sbuf_insert_at]

/-! ### The history entry of an accepted input -/

/-- C19, the claim at the keys `a`, Enter on a fresh environment with an empty history:
the read returns the non-empty string `a`, and the history is empty afterwards, since
the placeholder rewritten to `a` is removed again for an input of one byte. -/
theorem one_byte_input_is_not_kept :
    (edit_line sample_deps true id (ic_env_create (fun _ => true)) none
        [{ code := 97 }, { code := IC_KEY_ENTER }]).map (fun r => (r.1, r.2.history))
      = some (some (cstr "a"), []) := by
  decide

/-- C19 as amended: for every input of at least two bytes that a read accepts with
Enter, the read returns it (as it stands on a UTF-8 terminal, converted otherwise) and
it is the newest entry of the in-memory history after the read: the placeholder entry
is rewritten to it and kept. -/
theorem accepted_input_is_newest_entry (d : edit_deps) (tty_is_utf8 : Bool)
    (from_utf8 : List Nat → List Nat) (env : ic_env_t) (initial_input : Option (List Nat))
    (events : List key_event) (env1 : ic_env_t) (eb1 : editor_t)
    (hleft : edit_line_loop d (edit_line_start env initial_input).1
      (edit_line_start env initial_input).2 events = .left env1 eb1 IC_KEY_ENTER)
    (hlen : 2 ≤ eb1.input.length) :
    ∃ env2, edit_line d tty_is_utf8 from_utf8 env initial_input events
        = some (some (if tty_is_utf8 then eb1.input else from_utf8 eb1.input), env2) ∧
      env2.history.getLast? = some eb1.input := by
  unfold edit_line
  rw [hleft]
  unfold edit_line_finish
  simp only [edit_refresh_eq, sbuf_len]
  have hres : edit_line_result tty_is_utf8 from_utf8 IC_KEY_ENTER eb1.input
      = some (if tty_is_utf8 then eb1.input else from_utf8 eb1.input) := by
    unfold edit_line_result
    cases tty_is_utf8 <;> simp [IC_KEY_ENTER, IC_KEY_CTRL_D, IC_KEY_CTRL_C, IC_KEY_EVENT_STOP,
      IC_KEY_EVENT_BASE]
  rw [hres]
  simp only [Option.isNone_some, Bool.false_eq_true, false_or]
  rw [if_neg (show ¬ eb1.input.length ≤ 1 by omega)]
  exact ⟨_, rfl, by simp [history_update]⟩

/-- C19 as amended, at the keys `a`, `b`, Enter on a fresh environment. -/
theorem accepted_input_is_newest_entry_witness :
    ∃ env2, edit_line sample_deps true id (ic_env_create (fun _ => true)) none
        [{ code := 97 }, { code := 98 }, { code := IC_KEY_ENTER }]
        = some (some (cstr "ab"), env2) ∧
      env2.history.getLast? = some (cstr "ab") :=
  accepted_input_is_newest_entry sample_deps true id (ic_env_create (fun _ => true)) none
    [{ code := 97 }, { code := 98 }, { code := IC_KEY_ENTER }]
    { ic_env_create (fun _ => true) with history := [[]] }
    { input := cstr "ab", pos := 2, modified := true, undo := [(cstr "a", 1), ([], 0)] }
    rfl (by decide)

/-! ### The cursor stays on a code-point boundary -/

theorem utf8_chain_weaken (p : Nat) (b : List Nat) (h : utf8_chain 0 b = true) :
    utf8_chain p b = true := by
  cases b with
  | nil => rfl
  | cons x xs =>
    simp only [utf8_chain, Bool.and_eq_true, Bool.or_eq_true, decide_eq_true_eq] at h ⊢
    refine ⟨?_, h.2⟩
    rcases h.1 with h1 | h1
    · exact Or.inl h1
    · omega

theorem utf8_chain_of_ascii (p : Nat) (b : List Nat) (hp : p < 128) (h : utf8_chain p b = true) :
    utf8_chain 0 b = true := by
  cases b with
  | nil => rfl
  | cons x xs =>
    simp only [utf8_chain, Bool.and_eq_true, Bool.or_eq_true, decide_eq_true_eq] at h ⊢
    refine ⟨?_, h.2⟩
    rcases h.1 with h1 | h1
    · exact Or.inl h1
    · omega

theorem utf8_chain_append (a b : List Nat) :
    ∀ p, utf8_chain p (a ++ b) = true ↔
      utf8_chain p a = true ∧ utf8_chain (a.getLast?.getD p) b = true := by
  induction a with
  | nil => intro p; simp [utf8_chain]
  | cons x xs ih =>
    intro p
    have hl : (x :: xs).getLast?.getD p = xs.getLast?.getD x := by
      cases xs with
      | nil => rfl
      | cons y ys =>
        rw [List.getLast?_cons_cons]
        cases hg : (y :: ys).getLast? with
        | none => simp at hg
        | some z => rfl
    rw [hl, List.cons_append]
    simp only [utf8_chain, Bool.and_eq_true]
    rw [ih x]
    tauto

theorem utf8_framed_append (a b : List Nat) (ha : utf8_framed a = true)
    (hb : utf8_framed b = true) : utf8_framed (a ++ b) = true := by
  unfold utf8_framed at *
  rw [utf8_chain_append]
  exact ⟨ha, utf8_chain_weaken _ _ hb⟩

theorem utf8_framed_left (a b : List Nat) (h : utf8_framed (a ++ b) = true) :
    utf8_framed a = true := by
  unfold utf8_framed at *
  exact ((utf8_chain_append a b 0).mp h).1

theorem utf8_framed_take (s : List Nat) (n : Nat) (h : utf8_framed s = true) :
    utf8_framed (s.take n) = true := by
  rw [← List.take_append_drop n s] at h
  exact utf8_framed_left _ _ h

/-- In a framed text the bytes from a non-continuation byte on are a framed text. -/
theorem utf8_framed_drop (s : List Nat) (n : Nat) (h : utf8_framed s = true)
    (hn : n < s.length → is_utf8_cont (s.getD n 0) = false) : utf8_framed (s.drop n) = true := by
  by_cases hlt : n < s.length
  · have hd : s.drop n = s.getD n 0 :: s.drop (n + 1) := by
      rw [List.getD_eq_getElem _ _ hlt]
      exact List.drop_eq_getElem_cons hlt
    have hc := (utf8_chain_append (s.take n) (s.drop n) 0).mp
      (by rw [List.take_append_drop]; exact h)
    rw [hd] at hc ⊢
    have h2 := hc.2
    simp only [utf8_framed, utf8_chain, Bool.and_eq_true, Bool.or_eq_true] at h2 ⊢
    exact ⟨Or.inl (by rw [hn hlt]; rfl), h2.2⟩
  · rw [List.drop_eq_nil_of_le (by omega)]
    rfl

/-- In a framed text the bytes after a byte below `0x80` are a framed text. -/
theorem utf8_framed_drop_after (s : List Nat) (n : Nat) (h : utf8_framed s = true)
    (hn : n < s.length) (ha : s.getD n 0 < 128) : utf8_framed (s.drop (n + 1)) = true := by
  have hc := (utf8_chain_append (s.take (n + 1)) (s.drop (n + 1)) 0).mp
    (by rw [List.take_append_drop]; exact h)
  have hlast : (s.take (n + 1)).getLast?.getD 0 = s.getD n 0 := by
    rw [List.getLast?_eq_getElem?, List.length_take, Nat.min_eq_left (by omega)]
    simp [List.getElem?_take, hn, List.getD_eq_getElem?_getD]
  rw [hlast] at hc
  exact utf8_chain_of_ascii _ _ ha hc.2

theorem cursor_ok_of_boundary (s : List Nat) (n : Nat) (h : utf8_framed s = true)
    (hle : n ≤ s.length) (hn : n < s.length → is_utf8_cont (s.getD n 0) = false) :
    cursor_ok s n :=
  ⟨hle, utf8_framed_take s n h, utf8_framed_drop s n h hn⟩

theorem cursor_ok_after (s : List Nat) (n : Nat) (h : utf8_framed s = true)
    (hn : n < s.length) (ha : s.getD n 0 < 128) : cursor_ok s (n + 1) :=
  ⟨hn, utf8_framed_take s _ h, utf8_framed_drop_after s n h hn ha⟩

theorem cursor_ok_framed (s : List Nat) (n : Nat) (h : cursor_ok s n) : utf8_framed s = true := by
  rw [← List.take_append_drop n s]
  exact utf8_framed_append _ _ h.2.1 h.2.2

theorem cursor_ok_zero (s : List Nat) (h : utf8_framed s = true) : cursor_ok s 0 :=
  ⟨Nat.zero_le _, rfl, by simpa using h⟩

theorem cursor_ok_end (s : List Nat) (h : utf8_framed s = true) : cursor_ok s s.length :=
  ⟨Nat.le_refl _, by simpa using h, by simp [utf8_framed, utf8_chain]⟩

/-- Where the cursor is fine, it is on a code-point boundary inside the buffer. -/
theorem cursor_ok_boundary (s : List Nat) (n : Nat) (h : cursor_ok s n) : is_utf8_boundary s n := by
  refine ⟨h.1, ?_⟩
  intro b hb
  have hlt : n < s.length := by
    by_contra hge
    rw [List.getElem?_eq_none (by omega)] at hb
    simp at hb
  have hd : s.drop n = b :: s.drop (n + 1) := by
    rw [List.getElem?_eq_getElem hlt] at hb
    rw [List.drop_eq_getElem_cons hlt]
    simp only [Option.some.injEq] at hb
    rw [hb]
  have h2 := h.2.2
  rw [hd] at h2
  simp only [utf8_framed, utf8_chain, Bool.and_eq_true, Bool.or_eq_true, decide_eq_true_eq] at h2
  rcases h2.1 with h3 | h3
  · simpa using h3
  · omega

/-- A code-point boundary of a framed text is a fine place for the cursor. -/
theorem cursor_ok_of_is_boundary (s : List Nat) (n : Nat) (h : utf8_framed s = true)
    (hb : is_utf8_boundary s n) : cursor_ok s n := by
  refine cursor_ok_of_boundary s n h hb.1 ?_
  intro hlt
  apply hb.2
  rw [List.getD_eq_getElem _ _ hlt, List.getElem?_eq_getElem hlt]

theorem is_utf8_cont_of_ascii (b : Nat) (h : b < 128) : is_utf8_cont b = false := by
  unfold is_utf8_cont
  simp
  omega

/-- The forward scan stops inside the buffer, at its end or on a byte that stops it. -/
theorem scan_fwd_spec (s : List Nat) (stop : Nat → Bool) :
    ∀ fuel q, q ≤ s.length → s.length - q ≤ fuel →
      q ≤ scan_fwd s stop fuel q ∧ scan_fwd s stop fuel q ≤ s.length ∧
      (scan_fwd s stop fuel q < s.length → stop (s.getD (scan_fwd s stop fuel q) 0) = true) := by
  intro fuel
  induction fuel with
  | zero =>
    intro q hq hf
    unfold scan_fwd
    exact ⟨Nat.le_refl _, hq, fun h => by omega⟩
  | succ n ih =>
    intro q hq hf
    unfold scan_fwd
    split
    · rename_i hc
      obtain ⟨h1, h2, h3⟩ := ih (q + 1) (by omega) (by omega)
      exact ⟨by omega, h2, h3⟩
    · rename_i hc
      refine ⟨Nat.le_refl _, hq, fun hlt => ?_⟩
      cases hs : stop (s.getD q 0) with
      | true => rfl
      | false => exact absurd ⟨hlt, hs⟩ hc

/-- The backward scan stops at the start or on a byte that stops it. -/
theorem scan_back_at_spec (s : List Nat) (stop : Nat → Bool) :
    ∀ q, scan_back_at s stop q ≤ q ∧
      (scan_back_at s stop q = 0 ∨ stop (s.getD (scan_back_at s stop q) 0) = true) := by
  intro q
  induction q with
  | zero => exact ⟨Nat.le_refl _, Or.inl rfl⟩
  | succ n ih =>
    unfold scan_back_at
    split
    · rename_i hc
      exact ⟨Nat.le_refl _, Or.inr hc⟩
    · exact ⟨by omega, ih.2⟩

/-- The backward scan stops at the start or right after a byte that stops it. -/
theorem scan_back_before_spec (s : List Nat) (stop : Nat → Bool) :
    ∀ q, scan_back_before s stop q ≤ q ∧
      (scan_back_before s stop q = 0 ∨
        (0 < scan_back_before s stop q ∧
          stop (s.getD (scan_back_before s stop q - 1) 0) = true)) := by
  intro q
  induction q with
  | zero => exact ⟨Nat.le_refl _, Or.inl rfl⟩
  | succ n ih =>
    unfold scan_back_before
    split
    · rename_i hc
      exact ⟨Nat.le_refl _, Or.inr ⟨by omega, by simpa using hc⟩⟩
    · exact ⟨by omega, ih.2⟩

/-- A forward scan for bytes that are no continuation bytes ends where the cursor may
be. -/
theorem scan_fwd_ok (s : List Nat) (stop : Nat → Bool) (p : Nat)
    (hstop : ∀ b, stop b = true → is_utf8_cont b = false)
    (hs : utf8_framed s = true) (hp : p ≤ s.length) :
    cursor_ok s (scan_fwd s stop (s.length - p) p) ∧ p ≤ scan_fwd s stop (s.length - p) p := by
  obtain ⟨h1, h2, h3⟩ := scan_fwd_spec s stop (s.length - p) p hp (Nat.le_refl _)
  exact ⟨cursor_ok_of_boundary s _ hs h2 (fun hlt => hstop _ (h3 hlt)), h1⟩

/-- A backward scan for the place after an ASCII byte ends where the cursor may be. -/
theorem scan_back_before_ok (s : List Nat) (stop : Nat → Bool) (p : Nat)
    (hstop : ∀ b, stop b = true → b < 128)
    (hs : utf8_framed s = true) (hp : p ≤ s.length) :
    cursor_ok s (scan_back_before s stop p) ∧ scan_back_before s stop p ≤ p := by
  obtain ⟨h1, h2⟩ := scan_back_before_spec s stop p
  refine ⟨?_, h1⟩
  rcases h2 with h0 | ⟨hpos, hst⟩
  · rw [h0]; exact cursor_ok_zero s hs
  · have := cursor_ok_after s (scan_back_before s stop p - 1) hs (by omega) (hstop _ hst)
    rwa [Nat.sub_add_cancel hpos] at this

theorem sbuf_next_ok (s : List Nat) (p q : Nat) (h : cursor_ok s p) (hq : sbuf_next s p = some q) :
    cursor_ok s q ∧ p < q := by
  unfold sbuf_next at hq
  split at hq
  · simp at hq
  · rename_i hlt
    simp only [Option.some.injEq] at hq
    obtain ⟨h1, h2⟩ := scan_fwd_ok s (fun b => !is_utf8_cont b) (p + 1) (by intro b hb; simpa using hb)
      (cursor_ok_framed s p h) (by omega)
    rw [← hq]
    exact ⟨h1, by omega⟩

theorem sbuf_prev_ok (s : List Nat) (p q : Nat) (h : cursor_ok s p) (hq : sbuf_prev s p = some q) :
    cursor_ok s q ∧ q < p := by
  unfold sbuf_prev at hq
  split at hq
  · simp at hq
  · rename_i hc
    simp only [Option.some.injEq] at hq
    obtain ⟨h1, h2⟩ := scan_back_at_spec s (fun b => !is_utf8_cont b) (p - 1)
    rw [← hq]
    refine ⟨?_, by omega⟩
    rcases h2 with h0 | hst
    · rw [h0]; exact cursor_ok_zero s (cursor_ok_framed s p h)
    · exact cursor_ok_of_boundary s _ (cursor_ok_framed s p h) (by omega)
        (fun _ => by simpa using hst)

theorem word_separator_ascii (b : Nat) (h : (!is_word_char b) = true) : b < 128 := by
  simp [is_word_char, word_separators] at h
  omega

theorem ws_separator_ascii (b : Nat) (h : (!is_ws_word_char b) = true) : b < 128 := by
  simp [is_ws_word_char, isspace] at h
  omega

theorem newline_ascii (b : Nat) (h : (b == 10) = true) : b < 128 := by
  simp at h
  omega

theorem sbuf_find_line_start_ok (s : List Nat) (p q : Nat) (h : cursor_ok s p)
    (hq : sbuf_find_line_start s p = some q) : cursor_ok s q ∧ q ≤ p := by
  unfold sbuf_find_line_start at hq
  rw [if_neg (by have := h.1; omega)] at hq
  simp only [Option.some.injEq] at hq
  rw [← hq]
  exact scan_back_before_ok s _ p newline_ascii (cursor_ok_framed s p h) h.1

theorem sbuf_find_line_end_ok (s : List Nat) (p q : Nat) (h : cursor_ok s p)
    (hq : sbuf_find_line_end s p = some q) : cursor_ok s q ∧ p ≤ q := by
  unfold sbuf_find_line_end at hq
  rw [if_neg (by have := h.1; omega)] at hq
  simp only [Option.some.injEq] at hq
  rw [← hq]
  exact scan_fwd_ok s _ p (fun b hb => is_utf8_cont_of_ascii b (newline_ascii b hb))
    (cursor_ok_framed s p h) h.1

theorem sbuf_find_word_start_ok (s : List Nat) (p q : Nat) (h : cursor_ok s p)
    (hq : sbuf_find_word_start s p = some q) : cursor_ok s q ∧ q ≤ p := by
  unfold sbuf_find_word_start at hq
  rw [if_neg (by have := h.1; omega)] at hq
  simp only [Option.some.injEq] at hq
  rw [← hq]
  exact scan_back_before_ok s _ p word_separator_ascii (cursor_ok_framed s p h) h.1

theorem sbuf_find_word_end_ok (s : List Nat) (p q : Nat) (h : cursor_ok s p)
    (hq : sbuf_find_word_end s p = some q) : cursor_ok s q ∧ p ≤ q := by
  unfold sbuf_find_word_end at hq
  rw [if_neg (by have := h.1; omega)] at hq
  simp only [Option.some.injEq] at hq
  rw [← hq]
  exact scan_fwd_ok s _ p (fun b hb => is_utf8_cont_of_ascii b (word_separator_ascii b hb))
    (cursor_ok_framed s p h) h.1

theorem sbuf_find_ws_word_start_ok (s : List Nat) (p q : Nat) (h : cursor_ok s p)
    (hq : sbuf_find_ws_word_start s p = some q) : cursor_ok s q ∧ q ≤ p := by
  unfold sbuf_find_ws_word_start at hq
  rw [if_neg (by have := h.1; omega)] at hq
  simp only [Option.some.injEq] at hq
  rw [← hq]
  exact scan_back_before_ok s _ p ws_separator_ascii (cursor_ok_framed s p h) h.1

/-- Inserting a framed text at the cursor: the cursor is fine before it and after
it. -/
theorem sbuf_insert_at_ok (s t : List Nat) (p : Nat) (h : cursor_ok s p)
    (ht : utf8_framed t = true) :
    cursor_ok (sbuf_insert_at s t p).1 (sbuf_insert_at s t p).2 ∧
    cursor_ok (sbuf_insert_at s t p).1 p := by
  obtain ⟨hle, h1, h2⟩ := h
  unfold sbuf_insert_at
  rw [if_neg (by omega)]
  have hl : (List.take p s).length = p := by simp [hle]
  refine ⟨⟨?_, ?_, ?_⟩, ⟨?_, ?_, ?_⟩⟩
  · simp only [List.length_append, List.length_take, List.length_drop]; omega
  · show utf8_framed (List.take (p + t.length) (List.take p s ++ t ++ List.drop p s)) = true
    rw [List.take_left' (by simp [hl])]
    exact utf8_framed_append _ _ h1 ht
  · show utf8_framed (List.drop (p + t.length) (List.take p s ++ t ++ List.drop p s)) = true
    rw [List.drop_left' (by simp [hl])]
    exact h2
  · simp only [List.length_append, List.length_take, List.length_drop]; omega
  · show utf8_framed (List.take p (List.take p s ++ t ++ List.drop p s)) = true
    rw [List.append_assoc, List.take_left' hl]
    exact h1
  · show utf8_framed (List.drop p (List.take p s ++ t ++ List.drop p s)) = true
    rw [List.append_assoc, List.drop_left' hl]
    exact utf8_framed_append _ _ ht h2

/-- Deleting the bytes between two places where the cursor may be. -/
theorem sbuf_delete_from_to_ok (s : List Nat) (a b : Nat) (ha : cursor_ok s a)
    (hb : cursor_ok s b) : cursor_ok (sbuf_delete_from_to s a b) a := by
  unfold sbuf_delete_from_to
  split
  · exact ha
  · rename_i hab
    unfold sbuf_delete_at
    split
    · exact ha
    · rename_i hlen
      have hl : (List.take a s).length = a := by simp; omega
      have hd : a + (b - a) = b := by omega
      rw [hd]
      refine ⟨?_, ?_, ?_⟩
      · simp only [List.length_append, List.length_take, List.length_drop]; omega
      · rw [List.take_left' hl]; exact ha.2.1
      · rw [List.drop_left' hl]; exact hb.2.2

theorem sbuf_delete_char_at_ok (s : List Nat) (p : Nat) (h : cursor_ok s p) :
    cursor_ok (sbuf_delete_char_at s p) p := by
  unfold sbuf_delete_char_at
  cases hn : sbuf_next s p with
  | none => exact h
  | some q => exact sbuf_delete_from_to_ok s p q h (sbuf_next_ok s p q h hn).1

theorem sbuf_delete_char_before_ok (s : List Nat) (p : Nat) (h : cursor_ok s p) :
    cursor_ok (sbuf_delete_char_before s p).1 (sbuf_delete_char_before s p).2 := by
  unfold sbuf_delete_char_before
  cases hn : sbuf_prev s p with
  | none => exact h
  | some q => exact sbuf_delete_from_to_ok s q p (sbuf_prev_ok s p q h hn).1 h

theorem sbuf_swap_char_ok (s : List Nat) (p : Nat) (h : cursor_ok s p) :
    cursor_ok (sbuf_swap_char s p).1 (sbuf_swap_char s p).2 := by
  unfold sbuf_swap_char
  cases hp : sbuf_prev s p with
  | none => exact h
  | some a =>
    cases hn : sbuf_next s p with
    | none => exact h
    | some b =>
      obtain ⟨ha, hap⟩ := sbuf_prev_ok s p a h hp
      obtain ⟨hb, hpb⟩ := sbuf_next_ok s p b h hn
      have hl : (List.take a s).length = a := by simp; have := ha.1; omega
      have hy : utf8_framed ((List.drop p s).take (b - p)) = true := utf8_framed_take _ _ h.2.2
      have hx : utf8_framed ((List.drop a s).take (p - a)) = true := utf8_framed_take _ _ ha.2.2
      refine ⟨?_, ?_, ?_⟩
      · simp only [List.length_append, List.length_take, List.length_drop]
        have := hb.1
        omega
      · show utf8_framed (List.take a (List.take a s ++ List.take (b - p) (List.drop p s)
            ++ List.take (p - a) (List.drop a s) ++ List.drop b s)) = true
        rw [List.append_assoc, List.append_assoc, List.take_left' hl]
        exact ha.2.1
      · show utf8_framed (List.drop a (List.take a s ++ List.take (b - p) (List.drop p s)
            ++ List.take (p - a) (List.drop a s) ++ List.drop b s)) = true
        rw [List.append_assoc, List.append_assoc, List.drop_left' hl]
        exact utf8_framed_append _ _ hy (utf8_framed_append _ _ hx hb.2.2)

/-- The replacement of the byte before the cursor by a newline. -/
theorem multiline_eol_ok (s : List Nat) (p : Nat) (h : cursor_ok s p) (hp : 0 < p) :
    cursor_ok (sbuf_insert_at (sbuf_delete_at s (p - 1) 1) [10] (p - 1)).1 p := by
  obtain ⟨hle, h1, h2⟩ := h
  have hs := cursor_ok_framed s p ⟨hle, h1, h2⟩
  have hd : sbuf_delete_at s (p - 1) 1 = List.take (p - 1) s ++ List.drop p s := by
    unfold sbuf_delete_at
    rw [if_neg (by omega), Nat.sub_add_cancel hp]
  have hl : (List.take (p - 1) s).length = p - 1 := by simp; omega
  rw [hd, sbuf_insert_at_seam _ _ _ _ hl.symm]
  have hl2 : (List.take (p - 1) s ++ [10]).length = p := by simp; omega
  refine ⟨?_, ?_, ?_⟩
  · simp only [List.length_append, List.length_take, List.length_drop, List.length_singleton]
    omega
  · show utf8_framed (List.take p (List.take (p - 1) s ++ [10] ++ List.drop p s)) = true
    rw [List.take_left' hl2]
    exact utf8_framed_append _ _ (utf8_framed_take s _ hs) rfl
  · show utf8_framed (List.drop p (List.take (p - 1) s ++ [10] ++ List.drop p s)) = true
    rw [List.drop_left' hl2]
    exact h2

theorem edit_inv_congr (a b : editor_t) (h : edit_inv b) (hi : a.input = b.input)
    (hp : a.pos = b.pos) (hu : a.undo = b.undo) (hr : a.redo = b.redo) : edit_inv a := by
  unfold edit_inv at *
  rw [hi, hp, hu, hr]
  exact h

theorem edit_inv_same_text (a b : editor_t) (hs : same_text a b) (h : edit_inv b) : edit_inv a :=
  edit_inv_congr a b h hs.1 hs.2.1 hs.2.2.2.2.1 hs.2.2.2.2.2

theorem edit_inv_refresh (env : ic_env_t) (eb : editor_t) (h : edit_inv eb) :
    edit_inv (edit_refresh env eb) :=
  edit_inv_same_text _ _ (same_text_refresh env eb) h

theorem edit_inv_refresh_hint (d : edit_deps) (env : ic_env_t) (eb : editor_t) (h : edit_inv eb) :
    edit_inv (edit_refresh_hint d env eb) := by
  obtain ⟨h1, h2, h3⟩ := edit_refresh_hint_core d env eb
  unfold edit_stacks at h3
  simp only [Prod.mk.injEq] at h3
  exact edit_inv_congr _ _ h h1 h2 h3.1 h3.2.1

theorem edit_inv_set (eb : editor_t) (h : edit_inv eb) (i : List Nat) (q : Nat)
    (hq : cursor_ok i q) : edit_inv { eb with input := i, pos := q } :=
  ⟨hq, h.2.1, h.2.2⟩

theorem edit_inv_move (eb : editor_t) (h : edit_inv eb) (q : Nat) (hq : cursor_ok eb.input q) :
    edit_inv { eb with pos := q } :=
  ⟨hq, h.2.1, h.2.2⟩

theorem edit_inv_start_modify (eb : editor_t) (h : edit_inv eb) :
    edit_inv (editor_start_modify eb) := by
  unfold editor_start_modify editor_undo_capture editor_capture editstate_capture editstate_done
  refine ⟨h.1, ?_, ?_⟩
  · intro e he
    dsimp only at he
    split at he
    · rcases List.mem_cons.mp he with h1 | h1
      · rw [h1]; exact h.1
      · exact h.2.1 e h1
    · exact h.2.1 e he
  · intro e he
    simp at he

theorem edit_inv_undo_restore (eb : editor_t) (w : Bool) (h : edit_inv eb) :
    edit_inv (editor_undo_restore eb w) := by
  rw [editor_undo_restore_eq]
  split
  · exact h
  · split
    · exact h
    · rename_i hd hu
      have hcap : ∀ x ∈ editor_capture eb eb.redo, cursor_ok x.1 x.2 := by
        intro x hx
        unfold editor_capture editstate_capture at hx
        split at hx
        · rcases List.mem_cons.mp hx with h1 | h1
          · rw [h1]; exact h.1
          · exact h.2.2 x h1
        · exact h.2.2 x hx
      have hredo : ∀ x ∈ (if w then editor_capture eb eb.redo else eb.redo),
          cursor_ok x.1 x.2 := by
        intro x hx
        split at hx
        · exact hcap x hx
        · exact h.2.2 x hx
      cases hun : eb.undo with
      | nil => exact absurd hun hu
      | cons e rest =>
        have he : cursor_ok e.1 e.2 := h.2.1 e (by rw [hun]; exact List.mem_cons_self _ _)
        have hrest : ∀ x ∈ rest, cursor_ok x.1 x.2 :=
          fun x hx => h.2.1 x (by rw [hun]; exact List.mem_cons_of_mem _ hx)
        simp only [editstate_restore]
        exact ⟨he, hrest, hredo⟩

theorem edit_inv_redo_restore (eb : editor_t) (h : edit_inv eb) :
    edit_inv (editor_redo_restore eb) := by
  rw [editor_redo_restore_eq]
  split
  · exact ⟨h.1, h.2.1, h.2.2⟩
  · split
    · exact ⟨h.1, h.2.1, h.2.2⟩
    · rename_i hd hu
      have hcap : ∀ x ∈ editor_capture eb eb.undo, cursor_ok x.1 x.2 := by
        intro x hx
        unfold editor_capture editstate_capture at hx
        split at hx
        · rcases List.mem_cons.mp hx with h1 | h1
          · rw [h1]; exact h.1
          · exact h.2.1 x h1
        · exact h.2.1 x hx
      cases hun : eb.redo with
      | nil => exact absurd hun hu
      | cons e rest =>
        have he : cursor_ok e.1 e.2 := h.2.2 e (by rw [hun]; exact List.mem_cons_self _ _)
        have hrest : ∀ x ∈ rest, cursor_ok x.1 x.2 :=
          fun x hx => h.2.2 x (by rw [hun]; exact List.mem_cons_of_mem _ hx)
        simp only [editstate_restore]
        exact ⟨he, hcap, hrest⟩

theorem edit_cursor_left_inv (env : ic_env_t) (eb : editor_t) (h : edit_inv eb) :
    edit_inv (edit_cursor_left env eb) := by
  unfold edit_cursor_left
  cases hq : sbuf_prev eb.input eb.pos with
  | none => exact h
  | some q => exact edit_inv_refresh _ _ (edit_inv_move eb h q (sbuf_prev_ok _ _ _ h.1 hq).1)

theorem edit_cursor_right_inv (env : ic_env_t) (eb : editor_t) (h : edit_inv eb) :
    edit_inv (edit_cursor_right env eb) := by
  unfold edit_cursor_right
  cases hq : sbuf_next eb.input eb.pos with
  | none => exact h
  | some q => exact edit_inv_refresh _ _ (edit_inv_move eb h q (sbuf_next_ok _ _ _ h.1 hq).1)

theorem edit_cursor_line_end_inv (env : ic_env_t) (eb : editor_t) (h : edit_inv eb) :
    edit_inv (edit_cursor_line_end env eb) := by
  unfold edit_cursor_line_end
  cases hq : sbuf_find_line_end eb.input eb.pos with
  | none => exact h
  | some q =>
    exact edit_inv_refresh _ _ (edit_inv_move eb h q (sbuf_find_line_end_ok _ _ _ h.1 hq).1)

theorem edit_cursor_line_start_inv (env : ic_env_t) (eb : editor_t) (h : edit_inv eb) :
    edit_inv (edit_cursor_line_start env eb) := by
  unfold edit_cursor_line_start
  cases hq : sbuf_find_line_start eb.input eb.pos with
  | none => exact h
  | some q =>
    exact edit_inv_refresh _ _ (edit_inv_move eb h q (sbuf_find_line_start_ok _ _ _ h.1 hq).1)

theorem edit_cursor_next_word_inv (env : ic_env_t) (eb : editor_t) (h : edit_inv eb) :
    edit_inv (edit_cursor_next_word env eb) := by
  unfold edit_cursor_next_word
  cases hq : sbuf_find_word_end eb.input eb.pos with
  | none => exact h
  | some q =>
    exact edit_inv_refresh _ _ (edit_inv_move eb h q (sbuf_find_word_end_ok _ _ _ h.1 hq).1)

theorem edit_cursor_prev_word_inv (env : ic_env_t) (eb : editor_t) (h : edit_inv eb) :
    edit_inv (edit_cursor_prev_word env eb) := by
  unfold edit_cursor_prev_word
  cases hq : sbuf_find_word_start eb.input eb.pos with
  | none => exact h
  | some q =>
    exact edit_inv_refresh _ _ (edit_inv_move eb h q (sbuf_find_word_start_ok _ _ _ h.1 hq).1)

theorem edit_cursor_to_start_inv (env : ic_env_t) (eb : editor_t) (h : edit_inv eb) :
    edit_inv (edit_cursor_to_start env eb) :=
  edit_inv_refresh _ _ (edit_inv_move eb h 0 (cursor_ok_zero _ (cursor_ok_framed _ _ h.1)))

theorem edit_cursor_to_end_inv (env : ic_env_t) (eb : editor_t) (h : edit_inv eb) :
    edit_inv (edit_cursor_to_end env eb) :=
  edit_inv_refresh _ _ (edit_inv_move eb h _ (cursor_ok_end _ (cursor_ok_framed _ _ h.1)))

theorem edit_set_pos_at_rowcol_inv (d : edit_deps) (hd : deps_keep_cursor d) (env : ic_env_t)
    (eb : editor_t) (row col : Nat) (h : edit_inv eb) :
    edit_inv (edit_set_pos_at_rowcol d env eb row col) := by
  unfold edit_set_pos_at_rowcol
  cases hq : d.sbuf_get_pos_at_rc env eb row col with
  | none => exact h
  | some q =>
    have hs := cursor_ok_framed _ _ h.1
    exact edit_inv_refresh _ _
      (edit_inv_move eb h q (cursor_ok_of_is_boundary _ _ hs (hd.layout env eb row col q hq hs)))

theorem edit_cursor_match_brace_inv (d : edit_deps) (hd : deps_keep_cursor d) (env : ic_env_t)
    (eb : editor_t) (h : edit_inv eb) : edit_inv (edit_cursor_match_brace d env eb) := by
  unfold edit_cursor_match_brace
  cases hq : (d.find_matching_brace eb.input eb.pos (ic_env_get_match_braces env)).1 with
  | none => exact h
  | some q =>
    have hs := cursor_ok_framed _ _ h.1
    exact edit_inv_refresh _ _
      (edit_inv_move eb h q (cursor_ok_of_is_boundary _ _ hs (hd.brace _ _ _ q hq hs)))

theorem edit_backspace_inv (env : ic_env_t) (eb : editor_t) (h : edit_inv eb) :
    edit_inv (edit_backspace env eb) := by
  unfold edit_backspace
  split
  · exact h
  · exact edit_inv_refresh _ _ (edit_inv_set _ (edit_inv_start_modify eb h) _ _
      (sbuf_delete_char_before_ok _ _ h.1))

theorem edit_delete_char_inv (env : ic_env_t) (eb : editor_t) (h : edit_inv eb) :
    edit_inv (edit_delete_char env eb) := by
  unfold edit_delete_char
  split
  · exact h
  · exact edit_inv_refresh _ _ (edit_inv_set _ (edit_inv_start_modify eb h) _ _
      (sbuf_delete_char_at_ok _ _ h.1))

theorem edit_delete_all_inv (env : ic_env_t) (eb : editor_t) (h : edit_inv eb) :
    edit_inv (edit_delete_all env eb) := by
  unfold edit_delete_all
  split
  · exact h
  · exact edit_inv_refresh _ _ (edit_inv_set _ (edit_inv_start_modify eb h) [] 0
      (cursor_ok_zero [] rfl))

theorem edit_delete_to_start_of_word_inv (env : ic_env_t) (eb : editor_t) (h : edit_inv eb) :
    edit_inv (edit_delete_to_start_of_word env eb) := by
  unfold edit_delete_to_start_of_word
  cases hq : sbuf_find_word_start eb.input eb.pos with
  | none => exact h
  | some q =>
    exact edit_inv_refresh _ _ (edit_inv_set _ (edit_inv_start_modify eb h) _ _
      (sbuf_delete_from_to_ok _ _ _ (sbuf_find_word_start_ok _ _ _ h.1 hq).1 h.1))

theorem edit_delete_to_start_of_ws_word_inv (env : ic_env_t) (eb : editor_t) (h : edit_inv eb) :
    edit_inv (edit_delete_to_start_of_ws_word env eb) := by
  unfold edit_delete_to_start_of_ws_word
  cases hq : sbuf_find_ws_word_start eb.input eb.pos with
  | none => exact h
  | some q =>
    exact edit_inv_refresh _ _ (edit_inv_set _ (edit_inv_start_modify eb h) _ _
      (sbuf_delete_from_to_ok _ _ _ (sbuf_find_ws_word_start_ok _ _ _ h.1 hq).1 h.1))

theorem edit_delete_to_end_of_word_inv (env : ic_env_t) (eb : editor_t) (h : edit_inv eb) :
    edit_inv (edit_delete_to_end_of_word env eb) := by
  unfold edit_delete_to_end_of_word
  cases hq : sbuf_find_word_end eb.input eb.pos with
  | none => exact h
  | some q =>
    exact edit_inv_refresh _ _ (edit_inv_set _ (edit_inv_start_modify eb h) _ _
      (sbuf_delete_from_to_ok _ _ _ h.1 (sbuf_find_word_end_ok _ _ _ h.1 hq).1))

theorem edit_swap_char_inv (env : ic_env_t) (eb : editor_t) (h : edit_inv eb) :
    edit_inv (edit_swap_char env eb) := by
  unfold edit_swap_char
  split
  · exact h
  · exact edit_inv_refresh _ _ (edit_inv_set _ (edit_inv_start_modify eb h) _ _
      (sbuf_swap_char_ok _ _ h.1))

theorem edit_multiline_eol_inv (env : ic_env_t) (eb : editor_t) (h : edit_inv eb) :
    edit_inv (edit_multiline_eol env eb) := by
  unfold edit_multiline_eol
  split
  · exact h
  · split
    · exact h
    · rename_i hp _
      exact edit_inv_refresh _ _ (edit_inv_set _ (edit_inv_start_modify eb h) _ _
        (multiline_eol_ok _ _ h.1 (show 0 < eb.pos by omega)))

theorem sbuf_char_at_nat (s : List Nat) (n : Nat) : sbuf_char_at s (n : Int) = s.getD n 0 := by
  unfold sbuf_char_at
  rw [if_neg (by omega)]
  simp

theorem sbuf_char_at_pred (s : List Nat) (n c : Nat) (hc : c ≠ 0)
    (h : sbuf_char_at s ((n : Int) - 1) = c) : 0 < n ∧ s.getD (n - 1) 0 = c := by
  unfold sbuf_char_at at h
  split at h
  · exact absurd h.symm hc
  · rename_i hn
    have hpos : 0 < n := by omega
    refine ⟨hpos, ?_⟩
    have : ((n : Int) - 1).toNat = n - 1 := by omega
    rw [this] at h
    exact h

/-- A byte of the buffer that is not NUL lies inside the buffer. -/
theorem getD_ne_zero_lt (s : List Nat) (n c : Nat) (hc : c ≠ 0) (h : s.getD n 0 = c) :
    n < s.length := by
  by_contra hge
  rw [List.getD_eq_default _ _ (by omega)] at h
  exact hc h.symm

theorem edit_delete_to_end_of_line_inv (env : ic_env_t) (eb : editor_t) (h : edit_inv eb) :
    edit_inv (edit_delete_to_end_of_line env eb) := by
  unfold edit_delete_to_end_of_line
  cases hs : sbuf_find_line_start eb.input eb.pos with
  | none => exact h
  | some start =>
    cases he : sbuf_find_line_end eb.input eb.pos with
    | none => exact h
    | some e =>
      obtain ⟨hso, hsle⟩ := sbuf_find_line_start_ok _ _ _ h.1 hs
      obtain ⟨heo, hele⟩ := sbuf_find_line_end_ok _ _ _ h.1 he
      have hf := cursor_ok_framed _ _ h.1
      have hm := edit_inv_start_modify eb h
      dsimp only
      split
      · rename_i hc
        have hc2 : eb.input.getD e 0 = 10 := by
          have := hc.2
          rwa [show (editor_start_modify eb).input = eb.input from rfl, sbuf_char_at_nat] at this
        have hlt := getD_ne_zero_lt _ _ _ (by decide) hc2
        have hnext : cursor_ok eb.input (e + 1) :=
          cursor_ok_after _ _ hf hlt (by rw [hc2]; decide)
        exact edit_inv_refresh _ _ (edit_inv_set _ hm _ _
          (sbuf_delete_from_to_ok _ _ _ h.1 hnext))
      · split
        · rename_i hc
          obtain ⟨hpos, hget⟩ := sbuf_char_at_pred eb.input start 10 (by decide) hc.2
          have hstart : start = eb.pos := by have := hc.1; omega
          have hlt := getD_ne_zero_lt _ _ _ (by decide) hget
          have hprev : cursor_ok eb.input (eb.pos - 1) := by
            rw [← hstart]
            exact cursor_ok_of_boundary _ _ hf (by omega)
              (fun _ => is_utf8_cont_of_ascii _ (by rw [hget]; decide))
          exact edit_inv_refresh _ _ (edit_inv_set _ hm _ _
            (sbuf_delete_from_to_ok _ _ _ hprev heo))
        · exact edit_inv_refresh _ _ (edit_inv_set _ hm _ _
            (sbuf_delete_from_to_ok _ _ _ h.1 heo))

theorem edit_delete_to_start_of_line_inv (env : ic_env_t) (eb : editor_t) (h : edit_inv eb) :
    edit_inv (edit_delete_to_start_of_line env eb) := by
  unfold edit_delete_to_start_of_line
  cases hs : sbuf_find_line_start eb.input eb.pos with
  | none => exact h
  | some start =>
    cases he : sbuf_find_line_end eb.input eb.pos with
    | none => exact h
    | some e =>
      obtain ⟨hso, hsle⟩ := sbuf_find_line_start_ok _ _ _ h.1 hs
      have hf := cursor_ok_framed _ _ h.1
      have hm := edit_inv_start_modify eb h
      dsimp only
      apply edit_inv_refresh
      generalize hgo : decide (start > 0 ∧
        sbuf_char_at (editor_start_modify eb).input ((start : Int) - 1) = 10 ∧ start = e) = g
      cases g
      · simp only [Bool.false_eq_true, if_false]
        exact edit_inv_set _ hm _ _ (sbuf_delete_from_to_ok _ _ _ hso h.1)
      · simp only [if_true]
        have hg := of_decide_eq_true hgo
        obtain ⟨hpos, hget⟩ := sbuf_char_at_pred eb.input start 10 (by decide) hg.2.1
        have hlt := getD_ne_zero_lt _ _ _ (by decide) hget
        have hprev : cursor_ok eb.input (start - 1) :=
          cursor_ok_of_boundary _ _ hf (by omega)
            (fun _ => is_utf8_cont_of_ascii _ (by rw [hget]; decide))
        exact edit_cursor_right_inv _ _ (edit_inv_set _ hm _ _
          (sbuf_delete_from_to_ok _ _ _ hprev h.1))

theorem utf8_encode_framed (u : Nat) : utf8_framed (utf8_encode u) = true := by
  unfold utf8_encode
  split
  · rfl
  · split
    · simp [utf8_framed, utf8_chain, is_utf8_cont]; omega
    · split
      · simp [utf8_framed, utf8_chain, is_utf8_cont]; omega
      · split
        · simp [utf8_framed, utf8_chain, is_utf8_cont]; omega
        · split
          · simp [utf8_framed, utf8_chain, is_utf8_cont]; omega
          · rfl

theorem edit_insert_unicode_inv (d : edit_deps) (env : ic_env_t) (eb : editor_t) (u : Nat)
    (h : edit_inv eb) : edit_inv (edit_insert_unicode d env eb u) := by
  unfold edit_insert_unicode
  exact edit_inv_refresh_hint _ _ _ (edit_inv_set _ (edit_inv_start_modify eb h) _ _
    (sbuf_insert_at_ok _ _ _ h.1 (utf8_encode_framed u)).1)

theorem char_string_framed (c : Nat) (hc : is_utf8_cont c = false) :
    utf8_framed (if c = 0 then [] else [c]) = true := by
  split
  · rfl
  · simp [utf8_framed, utf8_chain, hc]

theorem edit_auto_brace_loop_inv (d : edit_deps) (braces : List Nat) (eb : editor_t) (c : Nat)
    (h : edit_inv eb) :
    ∀ (n : Nat) (bs : List Nat), bs.length ≤ n → (∀ b ∈ bs, is_utf8_cont b = false) →
      edit_inv (edit_auto_brace_loop d braces eb c bs) := by
  intro n
  induction n with
  | zero =>
    intro bs hbs _
    have : bs = [] := List.eq_nil_of_length_eq_zero (by omega)
    subst this
    exact h
  | succ n ih =>
    intro bs hbs hall
    match bs, hbs, hall with
    | [], _, _ => exact h
    | [b], _, _ =>
      unfold edit_auto_brace_loop
      split
      · dsimp only
        have h1 := (sbuf_insert_at_ok eb.input _ eb.pos h.1 (char_string_framed 0 rfl)).2
        split
        · exact edit_inv_set eb h _ _ (sbuf_delete_char_at_ok _ _ h1)
        · exact edit_inv_set eb h _ _ h1
      · exact h
    | b :: close :: rest, hbs, hall =>
      unfold edit_auto_brace_loop
      split
      · dsimp only
        have hclose : is_utf8_cont close = false :=
          hall close (List.mem_cons_of_mem _ (List.mem_cons_self _ _))
        have h1 := (sbuf_insert_at_ok eb.input _ eb.pos h.1 (char_string_framed close hclose)).2
        split
        · exact edit_inv_set eb h _ _ (sbuf_delete_char_at_ok _ _ h1)
        · exact edit_inv_set eb h _ _ h1
      · split
        · split
          · exact edit_inv_set eb h _ _ (sbuf_delete_char_at_ok _ _ h.1)
          · exact h
        · exact ih rest (by simp only [List.length_cons] at hbs; omega)
            (fun x hx => hall x (List.mem_cons_of_mem _ (List.mem_cons_of_mem _ hx)))

theorem edit_auto_brace_inv (d : edit_deps) (env : ic_env_t) (eb : editor_t) (c : Nat)
    (henv : env_inv env) (h : edit_inv eb) : edit_inv (edit_auto_brace d env eb c) := by
  unfold edit_auto_brace
  split
  · exact h
  · exact edit_auto_brace_loop_inv d _ eb c h _ _ (Nat.le_refl _) henv

theorem editor_auto_indent_inv (eb : editor_t) (pre post : List Nat) (h : edit_inv eb) :
    edit_inv (editor_auto_indent eb pre post) := by
  unfold editor_auto_indent
  split
  · split
    · exact h
    · split
      · exact h
      · split
        · exact h
        · dsimp only
          have h1 := (sbuf_insert_at_ok eb.input (cstr "  ") eb.pos h.1 rfl).1
          exact edit_inv_set eb h _ _
            (sbuf_insert_at_ok _ _ _ h1 (char_string_framed 10 rfl)).2
  · exact h

theorem edit_insert_char_inv (d : edit_deps) (env : ic_env_t) (eb : editor_t) (c : Nat)
    (henv : env_inv env) (hc : is_utf8_cont c = false) (h : edit_inv eb) :
    edit_inv (edit_insert_char d env eb c) := by
  unfold edit_insert_char
  dsimp only
  apply edit_inv_refresh_hint
  have h2 : edit_inv { editor_start_modify eb with
      input := (sbuf_insert_char_at (editor_start_modify eb).input c (editor_start_modify eb).pos).1,
      pos := (sbuf_insert_char_at (editor_start_modify eb).input c (editor_start_modify eb).pos).2 } :=
    edit_inv_set _ (edit_inv_start_modify eb h) _ _
      (sbuf_insert_at_ok _ _ _ h.1 (char_string_framed c hc)).1
  split
  · exact editor_auto_indent_inv _ _ _ (edit_auto_brace_inv d env _ c henv h2)
  · exact edit_auto_brace_inv d env _ c henv h2

theorem edit_cursor_row_up_inv (d : edit_deps) (hd : deps_keep_cursor d) (env : ic_env_t)
    (eb : editor_t) (henv : env_inv env) (h : edit_inv eb) :
    env_inv (edit_cursor_row_up d env eb).1 ∧ edit_inv (edit_cursor_row_up d env eb).2 := by
  unfold edit_cursor_row_up
  dsimp only
  split
  · exact hd.prefix_prev env eb henv h
  · exact ⟨henv, edit_set_pos_at_rowcol_inv d hd env eb _ _ h⟩

theorem edit_cursor_row_down_inv (d : edit_deps) (hd : deps_keep_cursor d) (env : ic_env_t)
    (eb : editor_t) (henv : env_inv env) (h : edit_inv eb) :
    env_inv (edit_cursor_row_down d env eb).1 ∧ edit_inv (edit_cursor_row_down d env eb).2 := by
  unfold edit_cursor_row_down
  dsimp only
  split
  · exact hd.prefix_next env eb henv h
  · exact ⟨henv, edit_set_pos_at_rowcol_inv d hd env eb _ _ h⟩

/-- Every operation of the editor keeps the invariants, when a byte it inserts is no
continuation byte. -/
theorem edit_apply_inv (d : edit_deps) (hd : deps_keep_cursor d) (w : Bool) (env : ic_env_t)
    (eb : editor_t) (op : edit_op)
    (hop : ∀ c, op = .edit_insert_char c → is_utf8_cont c = false)
    (henv : env_inv env) (h : edit_inv eb) :
    env_inv (edit_apply d w env eb op).1 ∧ edit_inv (edit_apply d w env eb op).2 := by
  cases op <;> simp only [edit_apply]
  case nop => exact ⟨henv, h⟩
  case ignore => exact ⟨henv, h⟩
  case edit_generate_completions a => exact hd.completions a env eb henv h
  case edit_history_search_with_current_word => exact hd.search env eb henv h
  case edit_history_prev => exact hd.history_prev env eb henv h
  case edit_history_next => exact hd.history_next env eb henv h
  case edit_show_help => exact ⟨henv, edit_inv_refresh _ _ h⟩
  case edit_clear_screen => exact ⟨henv, edit_inv_refresh _ _ h⟩
  case edit_undo_restore => exact ⟨henv, edit_inv_refresh _ _ (edit_inv_undo_restore _ _ h)⟩
  case edit_redo_restore => exact ⟨henv, edit_inv_refresh _ _ (edit_inv_redo_restore _ h)⟩
  case edit_cursor_left => exact ⟨henv, edit_cursor_left_inv _ _ h⟩
  case edit_cursor_right => exact ⟨henv, edit_cursor_right_inv _ _ h⟩
  case edit_cursor_row_up => exact edit_cursor_row_up_inv d hd env eb henv h
  case edit_cursor_row_down => exact edit_cursor_row_down_inv d hd env eb henv h
  case edit_cursor_line_start => exact ⟨henv, edit_cursor_line_start_inv _ _ h⟩
  case edit_cursor_line_end => exact ⟨henv, edit_cursor_line_end_inv _ _ h⟩
  case edit_cursor_prev_word => exact ⟨henv, edit_cursor_prev_word_inv _ _ h⟩
  case edit_cursor_next_word => exact ⟨henv, edit_cursor_next_word_inv _ _ h⟩
  case edit_cursor_to_start => exact ⟨henv, edit_cursor_to_start_inv _ _ h⟩
  case edit_cursor_to_end => exact ⟨henv, edit_cursor_to_end_inv _ _ h⟩
  case edit_cursor_match_brace => exact ⟨henv, edit_cursor_match_brace_inv d hd _ _ h⟩
  case edit_backspace => exact ⟨henv, edit_backspace_inv _ _ h⟩
  case edit_delete_char => exact ⟨henv, edit_delete_char_inv _ _ h⟩
  case edit_delete_to_end_of_word => exact ⟨henv, edit_delete_to_end_of_word_inv _ _ h⟩
  case edit_delete_to_start_of_ws_word => exact ⟨henv, edit_delete_to_start_of_ws_word_inv _ _ h⟩
  case edit_delete_to_start_of_word => exact ⟨henv, edit_delete_to_start_of_word_inv _ _ h⟩
  case edit_delete_to_start_of_line => exact ⟨henv, edit_delete_to_start_of_line_inv _ _ h⟩
  case edit_delete_to_end_of_line => exact ⟨henv, edit_delete_to_end_of_line_inv _ _ h⟩
  case edit_swap_char => exact ⟨henv, edit_swap_char_inv _ _ h⟩
  case edit_insert_char c => exact ⟨henv, edit_insert_char_inv d env eb c henv (hop c rfl) h⟩
  case edit_insert_unicode u => exact ⟨henv, edit_insert_unicode_inv d env eb u h⟩
  case edit_multiline_eol => exact ⟨henv, edit_multiline_eol_inv _ _ h⟩
  case edit_delete_all => exact ⟨henv, edit_delete_all_inv _ _ h⟩
  case edit_resize =>
    exact ⟨henv, edit_inv_same_text _ _ (same_text_resize env w eb) h⟩

theorem ite_prop {α : Type} (q : α → Prop) {p : Prop} [Decidable p] (a b : α)
    (ha : p → q a) (hb : ¬p → q b) : q (if p then a else b) := by
  split
  · exact ha (by assumption)
  · exact hb (by assumption)

theorem key_action_execute_ok (env : ic_env_t) (eb : editor_t) (a : Int) :
    ∀ op, key_action_execute env eb a = some op → op_ok op := by
  unfold key_action_execute
  repeat' (first
    | apply ite_prop (fun x : Option edit_op => ∀ op, x = some op → op_ok op)
    | intro _)
  all_goals
    rename_i hsome c hop
    cases hsome <;> cases hop <;> rfl

theorem key_binding_execute_ok (env : ic_env_t) (eb : editor_t) (key : Nat) (op : edit_op)
    (h : key_binding_execute env eb key = some op) : op_ok op := by
  unfold key_binding_execute at h
  split at h
  · simp at h
  · generalize env.key_bindings = l at h
    induction l with
    | nil => simp [key_binding_execute_loop] at h
    | cons e es ih =>
      unfold key_binding_execute_loop at h
      split at h
      · split at h
        · simp only [Option.some.injEq] at h
          rw [← h]
          intro c hc
          cases hc
        · exact key_action_execute_ok env eb _ op h
      · exact ih h

theorem edit_line_switch_ok (ca cu : Nat → Bool) (hascii : ∀ c, ca c = true → c % 256 < 128)
    (env : ic_env_t) (eb : editor_t) (k : Nat) : op_ok (edit_line_switch ca cu env eb k) := by
  unfold edit_line_switch
  repeat' (first
    | apply ite_prop op_ok
    | intro _)
  all_goals
    rename_i c hop
    cases hop <;> first | rfl | exact is_utf8_cont_of_ascii _ (hascii k (by assumption))

theorem edit_line_key_ok (ca cu : Nat → Bool) (hascii : ∀ c, ca c = true → c % 256 < 128)
    (env : ic_env_t) (eb : editor_t) (r : Bool) (k : Nat) :
    op_ok (edit_line_key ca cu env eb r k).op := by
  unfold edit_line_key
  split
  · rename_i op hb
    split at hb
    · exact key_binding_execute_ok env eb k op hb
    · simp at hb
  · repeat' (first
      | exact edit_line_switch_ok ca cu hascii env eb k
      | apply ite_prop (fun x : key_step => op_ok x.op)
      | intro _)
    all_goals
      rename_i c hop
      cases hop

/-- The binding lookup and the dispatch keep the invariants. -/
theorem edit_line_dispatch_inv (d : edit_deps) (hd : deps_keep_cursor d) (w : Bool)
    (env : ic_env_t) (eb : editor_t) (k : Nat) (henv : env_inv env) (h : edit_inv eb) :
    env_inv (edit_line_dispatch d w env eb k).env ∧ edit_inv (edit_line_dispatch d w env eb k).eb := by
  have hok := edit_line_key_ok d.code_is_ascii_char d.code_is_unicode hd.ascii env eb
    (edit_pos_is_at_row_end d env eb) k
  unfold edit_line_dispatch
  cases hk : edit_line_key d.code_is_ascii_char d.code_is_unicode env eb
      (edit_pos_is_at_row_end d env eb) k with
  | bound op =>
    rw [hk] at hok
    exact edit_apply_inv d hd w env eb op hok henv h
  | hardcoded op =>
    rw [hk] at hok
    exact edit_apply_inv d hd w env eb op hok henv h
  | exit op =>
    rw [hk] at hok
    exact edit_apply_inv d hd w env eb op hok henv h

/-- A round of the loop keeps the invariants. -/
theorem edit_line_round_inv (d : edit_deps) (hd : deps_keep_cursor d) (env : ic_env_t)
    (eb : editor_t) (ev : key_event) (henv : env_inv env) (h : edit_inv eb) :
    env_inv (edit_line_round d env eb ev).env ∧ edit_inv (edit_line_round d env eb ev).eb := by
  have hp : edit_inv (edit_line_prelude env eb ev).1 :=
    edit_inv_same_text _ _ (same_text_prelude env eb ev).1 h
  unfold edit_line_round
  split
  · have hc := hd.completions true env _ henv hp
    exact edit_line_dispatch_inv d hd _ _ _ _ hc.1 hc.2
  · exact edit_line_dispatch_inv d hd _ _ _ _ henv hp

/-- The loop keeps the invariants, however many events it reads. -/
theorem edit_line_loop_inv (d : edit_deps) (hd : deps_keep_cursor d) (events : List key_event) :
    ∀ (env : ic_env_t) (eb : editor_t), env_inv env → edit_inv eb →
      env_inv (edit_line_loop d env eb events).env ∧ edit_inv (edit_line_loop d env eb events).eb := by
  induction events with
  | nil => intro env eb henv h; exact ⟨henv, h⟩
  | cons ev rest ih =>
    intro env eb henv h
    have hr := edit_line_round_inv d hd env eb ev henv h
    unfold edit_line_loop
    cases hs : edit_line_round d env eb ev with
    | reading env1 eb1 =>
      rw [hs] at hr
      exact ih env1 eb1 hr.1 hr.2
    | left env1 eb1 c =>
      rw [hs] at hr
      exact hr

theorem edit_inv_init (s : List Nat) (hs : utf8_framed s = true) :
    edit_inv { input := s, pos := s.length } :=
  And.intro (cursor_ok_end s hs)
    (And.intro (fun e he => by simp at he) (fun e he => by simp at he))

/-- The state in which the loop starts has the invariants, when the initial input is
framed text. -/
theorem edit_line_start_inv (env : ic_env_t) (initial_input : Option (List Nat))
    (henv : env_inv env) (hinit : ∀ s, initial_input = some s → utf8_framed s = true) :
    env_inv (edit_line_start env initial_input).1 ∧ edit_inv (edit_line_start env initial_input).2 := by
  cases initial_input with
  | none => exact And.intro henv (edit_inv_init [] rfl)
  | some s => exact And.intro henv (edit_inv_refresh env _ (edit_inv_init s (hinit s rfl)))

/-- The sample functions keep the cursor invariant. -/
theorem sample_deps_keep_cursor : deps_keep_cursor sample_deps where
  ascii := by
    intro c hc
    simp only [sample_deps, decide_eq_true_eq] at hc
    omega
  brace := by intro s pos braces m h; simp [sample_deps] at h
  layout := by intro env eb row col m h; simp [sample_deps] at h
  completions := fun _ _ _ henv h => ⟨henv, h⟩
  search := fun _ _ henv h => ⟨henv, h⟩
  history_prev := fun _ _ henv h => ⟨henv, h⟩
  history_next := fun _ _ henv h => ⟨henv, h⟩
  prefix_prev := fun _ _ henv h => ⟨henv, h⟩
  prefix_next := fun _ _ henv h => ⟨henv, h⟩

/-- C11: for every sequence of key events that the loop of `edit_line` processes, after
each event (after the first `n` events, for every `n`) the cursor is at most the length
of the input buffer and lies on a UTF-8 code-point boundary of the buffer: the byte at
the cursor, if there is one, is no continuation byte. This holds when the initial input
is UTF-8 text, no insertion brace is a continuation byte (the default braces are
ASCII), and the functions that are not at hand do their part: `code_is_ascii_char`
accepts ASCII only, the brace search and the row layout answer with code-point
boundaries, and the completion and history operations keep the invariant. -/
theorem cursor_stays_on_boundary (d : edit_deps) (hd : deps_keep_cursor d) (env : ic_env_t)
    (henv : env_inv env) (initial_input : Option (List Nat))
    (hinit : ∀ s, initial_input = some s → utf8_framed s = true)
    (events : List key_event) (n : Nat) :
    is_utf8_boundary
      (edit_line_loop d (edit_line_start env initial_input).1
        (edit_line_start env initial_input).2 (events.take n)).eb.input
      (edit_line_loop d (edit_line_start env initial_input).1
        (edit_line_start env initial_input).2 (events.take n)).eb.pos := by
  have hs := edit_line_start_inv env initial_input henv hinit
  have hl := edit_line_loop_inv d hd (events.take n) _ _ hs.1 hs.2
  exact cursor_ok_boundary _ _ hl.2.1

/-- C11 on a fresh environment, at the keys `é` (two bytes), `a`, Left, Left, Backspace,
`(`, of which the first five are looked at. -/
theorem cursor_stays_on_boundary_witness :
    is_utf8_boundary
      (edit_line_loop sample_deps (edit_line_start (ic_env_create (fun _ => true)) none).1
        (edit_line_start (ic_env_create (fun _ => true)) none).2
        (List.take 5 [{ code := 233 }, { code := 97 }, { code := IC_KEY_LEFT },
          { code := IC_KEY_LEFT }, { code := IC_KEY_BACKSP }, { code := 40 }])).eb.input
      (edit_line_loop sample_deps (edit_line_start (ic_env_create (fun _ => true)) none).1
        (edit_line_start (ic_env_create (fun _ => true)) none).2
        (List.take 5 [{ code := 233 }, { code := 97 }, { code := IC_KEY_LEFT },
          { code := IC_KEY_LEFT }, { code := IC_KEY_BACKSP }, { code := 40 }])).eb.pos :=
  cursor_stays_on_boundary sample_deps sample_deps_keep_cursor (ic_env_create (fun _ => true))
    (by unfold env_inv; decide) none (fun s h => by cases h)
    [{ code := 233 }, { code := 97 }, { code := IC_KEY_LEFT },
      { code := IC_KEY_LEFT }, { code := IC_KEY_BACKSP }, { code := 40 }] 5

/-! ### Formatting control codes -/

theorem control_code_mods_zero (key : Nat) (h26 : key ≤ 26) : IC_KEY_MODS key = 0 := by
  interval_cases key <;> rfl

/-- C21: for every control code `k` in 1..26 (no modifier bits set) `ic_format_key_spec`
with a buffer of at least 7 bytes returns true and leaves `ctrl+` followed by the single
letter `'a' + (k - 1)`; for the keycode 0 (no modifiers, no base) and a buffer of at
least 5 bytes it returns true and leaves `none`. -/
theorem ic_format_key_spec_control_codes :
    (∀ k buflen : Nat, 1 ≤ k → k ≤ 26 → 7 ≤ buflen →
      ic_format_key_spec k buflen = (true, cstr "ctrl+" ++ [97 + (k - 1)])) ∧
    (∀ buflen : Nat, 5 ≤ buflen → ic_format_key_spec 0 buflen = (true, cstr "none")) := by
  constructor
  · intro k buflen h1 h26 hb
    have hm := control_code_mods_zero k h26
    have himp : decide ((IC_KEY_MODS k &&& IC_KEY_MOD_CTRL) = 0 ∧ k ≥ IC_KEY_CTRL_A
        ∧ k ≤ IC_KEY_CTRL_Z) = true := by
      rw [hm]
      simp only [Nat.zero_and, decide_eq_true_eq]
      exact ⟨trivial, h1, h26⟩
    have hmod : (97 + (k - IC_KEY_CTRL_A)) % 256 = 97 + (k - 1) := by
      show (97 + (k - 1)) % 256 = 97 + (k - 1)
      omega
    unfold ic_format_key_spec
    rw [if_neg (by omega)]
    simp only [himp, if_true, format_base_name, hmod]
    simp only [hm, Nat.zero_and, ne_eq, not_true_eq_false, false_or, if_true, if_false, or_true]
    have l4 : (cstr "ctrl").length = 4 := rfl
    simp (disch := (simp only [l4, List.length_append, List.length_nil, List.length_cons,
      Bool.false_eq_true, if_false, if_true]; omega)) only [append_token_ok, Bool.false_eq_true,
      if_false, if_true, List.nil_append, ne_eq, List.cons_ne_nil, not_false_eq_true]
    rfl
  · intro buflen hb
    have hnotimp : decide ((IC_KEY_MODS 0 &&& IC_KEY_MOD_CTRL) = 0 ∧ 0 ≥ IC_KEY_CTRL_A
        ∧ 0 ≤ IC_KEY_CTRL_Z) = false := by decide
    have hm : IC_KEY_MODS 0 = 0 := rfl
    have hbase : format_base_name false (IC_KEY_NO_MODS 0) = some [] := by decide
    unfold ic_format_key_spec
    rw [if_neg (by omega)]
    simp only [hnotimp, Bool.false_eq_true, if_false, hbase]
    simp only [hm, Nat.zero_and, ne_eq, not_true_eq_false, false_or, if_true, if_false,
      Bool.false_eq_true, or_false]
    have hnone : append_token buflen { first := true, buffer := [] } (cstr "none")
        = some { first := false, buffer := cstr "none" } := by
      unfold append_token
      have ln : (cstr "none").length = 4 := rfl
      simp only [ln, List.length_nil, if_true, Bool.not_true, Bool.false_eq_true, if_false,
        List.nil_append]
      rw [if_neg (by omega)]
    simp only [hnone, if_true]

/-- C21 at Ctrl+C in a buffer of 7 bytes and at the keycode 0 in a buffer of 5 bytes. -/
theorem ic_format_key_spec_control_codes_witness :
    ic_format_key_spec 3 7 = (true, cstr "ctrl+" ++ [97 + (3 - 1)]) ∧
    ic_format_key_spec 0 5 = (true, cstr "none") :=
  ⟨ic_format_key_spec_control_codes.1 3 7 (by decide) (by decide) (by decide),
   ic_format_key_spec_control_codes.2 5 (by decide)⟩

/-! ### One entry per key -/

/-- The function `key_binding_execute` runs the action that `ic_get_key_binding` reports
for the key, whatever the table. -/
theorem key_binding_execute_eq_get (env : ic_env_t) (eb : editor_t) (key : Nat) :
    key_binding_execute env eb key
      = (ic_get_key_binding env key).bind (fun a =>
          if a = IC_KEY_ACTION_NONE then some .nop else key_action_execute env eb a) := by
  rw [ic_get_key_binding_eq_find]
  unfold key_binding_execute ic_env_t.key_binding_count
  generalize env.key_bindings = l
  induction l with
  | nil => simp
  | cons e es ih =>
    rw [if_neg (by simp)]
    unfold key_binding_execute_loop
    by_cases hk : e.key = key
    · simp [hk]
    · rw [if_neg hk]
      simp only [List.find?_cons, hk, decide_False]
      by_cases hl : es.length ≤ 0
      · have : es = [] := List.eq_nil_of_length_eq_zero (by omega)
        subst this
        simp [key_binding_execute_loop]
      · rw [if_neg hl] at ih
        exact ih

/-- In a table without a key twice, every entry is the one found for its key. -/
theorem ic_get_key_binding_of_mem (env : ic_env_t) (hnd : keys_nodup env)
    (e : ic_key_binding_entry_t) (he : e ∈ env.key_bindings) :
    ic_get_key_binding env e.key = some e.action := by
  rw [ic_get_key_binding_eq_find]
  cases hf : env.key_bindings.find? (fun x => decide (x.key = e.key)) with
  | none =>
    have := List.find?_eq_none.mp hf e he
    simp at this
  | some x =>
    have hx : x.key = e.key := by simpa using List.find?_some hf
    have hmem := List.mem_of_find?_eq_some hf
    have : x = e := List.inj_on_of_nodup_map hnd hmem he hx
    rw [this]
    rfl

/-- C27, the code: in every environment that `ic_bind_key`, `ic_bind_key_named`,
`ic_clear_key_binding`, `ic_reset_key_bindings` and `ic_set_key_binding_profile` produce
from a fresh one the keys of the table are distinct, and every entry is the one that
`ic_get_key_binding` reports for its key. The round of the editor loop runs the action
that `ic_get_key_binding` reports only for a key code below `IC_KEY_EVENT_BASE`: the
loop tests the whole key code, modifier flags included, before it asks the table, and
for a key code at or above it never runs a bound action. At
the failing input, the table of the vim profile and the key alt+h, `ic_get_key_binding`
reports cursor-left while the round runs the last branch of the hardcoded dispatch,
never the bound action. -/
theorem table_and_loop_agree_below_event_base (env : ic_env_t) (h : reachable env) :
    keys_nodup env ∧
    (∀ e ∈ env.key_bindings, ic_get_key_binding env e.key = some e.action) ∧
    (∀ (ca cu : Nat → Bool) (eb : editor_t) (r : Bool) (c : Nat) (a : Int) (op : edit_op),
      c < IC_KEY_EVENT_BASE → ic_get_key_binding env c = some a →
      (if a = IC_KEY_ACTION_NONE then some .nop else key_action_execute env eb a) = some op →
      edit_line_key ca cu env eb r c = .bound op) ∧
    (∀ (ca cu : Nat → Bool) (eb : editor_t) (r : Bool) (c : Nat) (op : edit_op),
      ¬ c < IC_KEY_EVENT_BASE → edit_line_key ca cu env eb r c ≠ .bound op) ∧
    reachable vim_env ∧
    ic_get_key_binding vim_env (IC_KEY_WITH_ALT 104) = some IC_KEY_ACTION_CURSOR_LEFT ∧
    key_action_execute vim_env { input := [], pos := 0 } IC_KEY_ACTION_CURSOR_LEFT
      = some .edit_cursor_left ∧
    ¬ IC_KEY_WITH_ALT 104 < IC_KEY_EVENT_BASE ∧
    (∀ (ca cu : Nat → Bool) (eb : editor_t) (r : Bool),
      edit_line_key ca cu vim_env eb r (IC_KEY_WITH_ALT 104)
        = .hardcoded (if ca (IC_KEY_WITH_ALT 104) then .edit_insert_char 104
            else if cu (IC_KEY_WITH_ALT 104) then .edit_insert_unicode (IC_KEY_WITH_ALT 104)
            else .ignore) ∧
      edit_line_key ca cu vim_env eb r (IC_KEY_WITH_ALT 104) ≠ .bound .edit_cursor_left) := by
  refine ⟨reachable_keys_nodup env h,
    ic_get_key_binding_of_mem env (reachable_keys_nodup env h), ?_, ?_,
    reachable.set_key_binding_profile _ _ (reachable.create _), by decide, by decide,
    by decide, ?_⟩
  · intro ca cu eb r c a op hc hget hop
    unfold edit_line_key
    rw [if_pos hc, key_binding_execute_eq_get, hget]
    simp only [Option.bind, Option.some_bind]
    rw [hop]
  · intro ca cu eb r c op hc
    unfold edit_line_key
    rw [if_neg hc]
    dsimp only
    split_ifs <;> simp
  · intro ca cu eb r
    have h6 : edit_line_key ca cu vim_env eb r (IC_KEY_WITH_ALT 104)
        = .hardcoded (if ca (IC_KEY_WITH_ALT 104) then .edit_insert_char 104
            else if cu (IC_KEY_WITH_ALT 104) then .edit_insert_unicode (IC_KEY_WITH_ALT 104)
            else .ignore) := rfl
    refine ⟨h6, ?_⟩
    rw [h6]
    simp

/-- C27 on the fresh environment with up bound to history-prev: the round for up runs
the bound action. -/
theorem table_and_loop_agree_below_event_base_witness :
    reachable (ic_bind_key (ic_env_create (fun _ => true)) IC_KEY_UP
      IC_KEY_ACTION_HISTORY_PREV).2 ∧
    edit_line_key sample_deps.code_is_ascii_char sample_deps.code_is_unicode
        (ic_bind_key (ic_env_create (fun _ => true)) IC_KEY_UP IC_KEY_ACTION_HISTORY_PREV).2
        { input := cstr "ab", pos := 1 } true IC_KEY_UP
      = .bound .edit_history_prev :=
  ⟨reachable.bind_key _ _ _ (reachable.create _),
   (table_and_loop_agree_below_event_base _
      (reachable.bind_key _ _ _ (reachable.create _))).2.2.1
      sample_deps.code_is_ascii_char sample_deps.code_is_unicode
      { input := cstr "ab", pos := 1 } true IC_KEY_UP IC_KEY_ACTION_HISTORY_PREV
      .edit_history_prev (by decide) (by decide) (by decide)⟩

/-! ### The visible window of `edit_refresh` -/

/-- C29: for every total row count `rows ≥ 1`, cursor row `r` with `0 ≤ r < rows` and
terminal height `h ≥ 1`, the window that `edit_refresh` computes satisfies
`0 ≤ first_row ≤ r ≤ last_row ≤ rows - 1` and `last_row - first_row < h`: its assertion
holds and the cursor row is among the rendered rows. -/
theorem edit_refresh_window_holds_cursor (rows r h : Int) (_hrows : 1 ≤ rows) (hr0 : 0 ≤ r)
    (hr : r < rows) (hh : 1 ≤ h) :
    0 ≤ (edit_refresh_window rows r h).1 ∧ (edit_refresh_window rows r h).1 ≤ r ∧
    r ≤ (edit_refresh_window rows r h).2 ∧ (edit_refresh_window rows r h).2 ≤ rows - 1 ∧
    (edit_refresh_window rows r h).2 - (edit_refresh_window rows r h).1 < h := by
  unfold edit_refresh_window
  split
  · dsimp only
    split <;> (refine ⟨?_, ?_, ?_, ?_, ?_⟩ <;> omega)
  · refine ⟨?_, ?_, ?_, ?_, ?_⟩ <;> (dsimp only; omega)

/-- C29 at 30 rows, the cursor on row 29 and a terminal of 24 rows: the window is rows
6 to 29. -/
theorem edit_refresh_window_holds_cursor_witness :
    0 ≤ (edit_refresh_window 30 29 24).1 ∧ (edit_refresh_window 30 29 24).1 ≤ 29 ∧
    29 ≤ (edit_refresh_window 30 29 24).2 ∧ (edit_refresh_window 30 29 24).2 ≤ 30 - 1 ∧
    (edit_refresh_window 30 29 24).2 - (edit_refresh_window 30 29 24).1 < 24 :=
  edit_refresh_window_holds_cursor 30 29 24 (by decide) (by decide) (by decide) (by decide)

/-- C28, the code at the failing input: with 30 input rows, 5 extra rows and a terminal
of 24 rows the index `last_rowx` of the last visible extra row is negative, -7 with the
cursor on row 0 and -1 with the cursor on the last input row; so it is with 5 input
rows, 3 extra rows and a terminal of 2 rows. The assertion `last_rowx >= 0` fails. -/
theorem edit_refresh_last_rowx_negative :
    (edit_refresh_extra_window 30 5 0 24).2 = -7 ∧
    (edit_refresh_extra_window 30 5 29 24).2 = -1 ∧
    (edit_refresh_extra_window 5 3 0 2).2 = -4 ∧
    (edit_refresh_window (30 + 5) 29 24) = (6, 29) := by
  decide


/-- Where the assertion on `last_rowx` fails: whenever the input alone has at least as
many rows as the terminal, the last visible extra row has a negative index, wherever
the cursor is in the input. -/
theorem edit_refresh_last_rowx_negative_of_tall_input (rows_input rows_extra r h : Int)
    (hin : h ≤ rows_input) (hex : 0 < rows_extra)
    (hr : r < rows_input) : (edit_refresh_extra_window rows_input rows_extra r h).2 < 0 := by
  unfold edit_refresh_extra_window edit_refresh_window
  dsimp only
  rw [if_pos (show rows_input + rows_extra > h by omega)]
  dsimp only
  split <;> omega

/-! ### The split of a multi-line prompt -/

theorem strrchr_loop_none (c : Nat) (s : List Nat) (i : Nat) (last : Option Nat)
    (h : strrchr_loop c s i last = none) : last = none ∧ c ∉ s := by
  induction s generalizing i last with
  | nil => exact ⟨by simpa [strrchr_loop] using h, by simp⟩
  | cons x xs ih =>
    simp only [strrchr_loop] at h
    obtain ⟨h1, h2⟩ := ih _ _ h
    by_cases hx : x = c
    · simp [hx] at h1
    · rw [if_neg hx] at h1
      exact ⟨h1, by simp [h2, Ne.symm hx]⟩

theorem strrchr_loop_some (c : Nat) (s : List Nat) (i : Nat) (last : Option Nat) (k : Nat)
    (h : strrchr_loop c s i last = some k) :
    (last = some k ∧ c ∉ s) ∨
      (i ≤ k ∧ k - i < s.length ∧ s.getD (k - i) 0 = c ∧ c ∉ s.drop (k - i + 1)) := by
  induction s generalizing i last with
  | nil => left; exact ⟨by simpa [strrchr_loop] using h, by simp⟩
  | cons x xs ih =>
    simp only [strrchr_loop] at h
    rcases ih _ _ h with ⟨h1, h2⟩ | ⟨h1, h2, h3, h4⟩
    · by_cases hx : x = c
      · rw [if_pos hx] at h1
        right
        have hk : k = i := by simpa using h1.symm
        subst hk
        simp [hx, h2]
      · rw [if_neg hx] at h1
        left
        exact ⟨h1, by simp [h2, Ne.symm hx]⟩
    · right
      have e : k - i = (k - (i + 1)) + 1 := by omega
      rw [e]
      refine ⟨by omega, by simp; omega, by simpa using h3, by simpa using h4⟩

theorem strrchr_some (c : Nat) (s : List Nat) (k : Nat) (h : strrchr s c = some k) :
    k < s.length ∧ s.getD k 0 = c ∧ c ∉ s.drop (k + 1) := by
  rcases strrchr_loop_some c s 0 none k h with ⟨h1, _⟩ | ⟨_, h2, h3, h4⟩
  · cases h1
  · exact ⟨h2, h3, h4⟩

theorem count_newlines_foldl (s : List Nat) (n : Int) :
    s.foldl (fun (lines : Int) ch => if ch = 10 then lines + 1 else lines) n
      = n + (s.count 10 : Int) := by
  induction s generalizing n with
  | nil => simp
  | cons x xs ih =>
    simp only [List.foldl_cons, ih, List.count_cons]
    by_cases hx : x = 10
    · simp [hx]; ring
    · simp [hx]

theorem take_succ_getLast (s : List Nat) (k : Nat) (hk : k < s.length) :
    (s.take (k + 1)).getLast? = some (s.getD k 0) := by
  induction s generalizing k with
  | nil => simp at hk
  | cons x xs ih =>
    cases k with
    | zero => simp
    | succ k =>
      have hk2 : k < xs.length := by simpa using hk
      have := ih k hk2
      rw [List.take_succ_cons, List.getLast?_cons, this]
      simp

/-- C25: for every prompt string `p` (with the allocation of the copy succeeding), the
text printed by `print_prompt_prefix_lines` followed by the text kept by
`extract_last_prompt_line` is `p`; the kept text has no newline; the printed text is
empty or ends with a newline, so it is `p` up to and including the last newline and
nothing when `p` has none; and the returned line count is the number of newlines of
`p`. -/
theorem prompt_prefix_and_last_line (p : List Nat) :
    (print_prompt_prefix_lines true (some p)).1 ++ extract_last_prompt_line (some p) = p ∧
    10 ∉ extract_last_prompt_line (some p) ∧
    ((print_prompt_prefix_lines true (some p)).1 = [] ∨
      (print_prompt_prefix_lines true (some p)).1.getLast? = some 10) ∧
    (10 ∉ p → (print_prompt_prefix_lines true (some p)).1 = []) ∧
    (print_prompt_prefix_lines true (some p)).2 = (p.count 10 : Int) := by
  unfold print_prompt_prefix_lines extract_last_prompt_line mem_strdup
  cases h : strrchr p 10 with
  | none =>
    have hn := (strrchr_loop_none 10 p 0 none h).2
    simp only [h]
    simp [hn, List.count_eq_zero_of_not_mem hn]
  | some k =>
    obtain ⟨h1, h2, h3⟩ := strrchr_some 10 p k h
    have hmem : 10 ∈ p := by
      have : p.getD k 0 ∈ p := by
        rw [List.getD_eq_getElem _ _ h1]; exact List.getElem_mem _
      rwa [h2] at this
    have hc : (p.count 10 : Int) = ((p.take (k + 1)).count 10 : Int) := by
      conv_lhs => rw [← List.take_append_drop (k + 1) p]
      rw [List.count_append, List.count_eq_zero_of_not_mem h3]
      simp
    simp only [h, Bool.not_true, Bool.false_eq_true, if_false]
    refine ⟨by simp, h3, Or.inr ?_, fun hno => absurd hmem hno, ?_⟩
    · rw [take_succ_getLast p k h1, h2]
    · rw [count_newlines_foldl, hc]; simp

/-- C25 on the prompt of two header lines and the last line `> `. -/
theorem prompt_prefix_and_last_line_witness :
    print_prompt_prefix_lines true (some (cstr "a\nbc\n> ")) = (cstr "a\nbc\n", 2) ∧
    extract_last_prompt_line (some (cstr "a\nbc\n> ")) = cstr "> " ∧
    10 ∉ cstr "$ " ∧ (print_prompt_prefix_lines true (some (cstr "$ "))).1 = [] :=
  ⟨by decide, by decide, by decide,
    (prompt_prefix_and_last_line (cstr "$ ")).2.2.2.1 (by decide)⟩

/-! ### What `edit_refresh` leaves of the buffers -/

/-- C23, the code: `edit_refresh` leaves `input`, `hint` and `hint_help` as they were,
but from the front of the editor's `extra` it deletes as many bytes as `hint_help` has.
On the state with the menu `1 git\n2 gist` and a help of 23 bytes the menu is gone
after the first refresh, so the second refresh renders no extra rows where the first
rendered the help and the menu; with a help of 2 bytes the menu loses its first two
bytes at every refresh. -/
theorem edit_refresh_eats_extra :
    (∀ (env : ic_env_t) (eb : editor_t),
      (edit_refresh env eb).input = eb.input ∧ (edit_refresh env eb).hint = eb.hint ∧
      (edit_refresh env eb).hint_help = eb.hint_help ∧
      (edit_refresh env eb).extra = sbuf_delete_at eb.extra 0 (sbuf_len eb.hint_help)) ∧
    (edit_refresh vim_env menu_with_hint_help).extra = [] ∧
    edit_refresh_extra id menu_with_hint_help
      = some (cstr "[ic-info]vcs[/ic-info]\n1 git\n2 gist") ∧
    edit_refresh_extra id (edit_refresh vim_env menu_with_hint_help) = none ∧
    (edit_refresh vim_env { menu_with_hint_help with hint_help := cstr "a\n" }).extra
      = cstr "git\n2 gist" ∧
    (edit_refresh vim_env (edit_refresh vim_env
        { menu_with_hint_help with hint_help := cstr "a\n" })).extra = cstr "t\n2 gist" := by
  refine ⟨fun env eb => ?_, ?_, by decide, ?_, ?_, ?_⟩
  · rw [edit_refresh_eq]
    exact ⟨rfl, rfl, rfl, rfl⟩
  all_goals (simp only [edit_refresh_eq]; decide)

/-! ### The labels of the help screen -/

/-- C30, the code at the failing inputs: `help_label_add` looks for the label as
formatted (`ctrl+h`, `alt+h`) among the stored labels, which are beautified (`^h`,
`alt-h`), so a label with a `+` is stored again. In a fresh environment the line of
delete-backward reads `^h, ^h` (both `backspace` and `ctrl+h` of the default specs are
key 8); with ctrl+b bound to cursor-left in the table the labels of cursor-left are
`left`, `^b`, `^b`; in the vim profile they are `left`, `^b`, `alt-h`, `alt-h`. -/
theorem help_labels_repeat :
    format_binding_labels (ic_env_create (fun _ => true)) IC_KEY_ACTION_DELETE_BACKWARD none
      = [cstr "^h", cstr "^h"] ∧
    format_binding_keys (ic_env_create (fun _ => true)) IC_KEY_ACTION_DELETE_BACKWARD none 256
      = cstr "^h, ^h" ∧
    format_binding_labels
        (ic_bind_key (ic_env_create (fun _ => true)) IC_KEY_CTRL_B IC_KEY_ACTION_CURSOR_LEFT).2
        IC_KEY_ACTION_CURSOR_LEFT none
      = [cstr "left", cstr "^b", cstr "^b"] ∧
    format_binding_labels vim_env IC_KEY_ACTION_CURSOR_LEFT none
      = [cstr "left", cstr "^b", cstr "alt-h", cstr "alt-h"] ∧
    help_label_exists [cstr "^h"] (cstr "ctrl+h") = false ∧
    help_label_add [cstr "^h"] (cstr "ctrl+h") = [cstr "^h", cstr "^h"] := by
  refine ⟨?_, ?_, ?_, ?_, ?_, ?_⟩ <;> decide

/-! ### The default specs against the hardcoded dispatch -/

/-- The alternatives of the spec strings of the default profile, action by action. -/
theorem default_spec_alternatives_eq :
    default_spec_alternatives =
      [ (IC_KEY_ACTION_CURSOR_LEFT, cstr "left"),
        (IC_KEY_ACTION_CURSOR_LEFT, cstr "ctrl+b"),
        (IC_KEY_ACTION_CURSOR_RIGHT_OR_COMPLETE, cstr "right"),
        (IC_KEY_ACTION_CURSOR_RIGHT_OR_COMPLETE, cstr "ctrl+f"),
        (IC_KEY_ACTION_CURSOR_UP, cstr "up"),
        (IC_KEY_ACTION_CURSOR_DOWN, cstr "down"),
        (IC_KEY_ACTION_CURSOR_WORD_PREV, cstr "ctrl+left"),
        (IC_KEY_ACTION_CURSOR_WORD_PREV, cstr "alt+b"),
        (IC_KEY_ACTION_CURSOR_WORD_NEXT_OR_COMPLETE, cstr "ctrl+right"),
        (IC_KEY_ACTION_CURSOR_WORD_NEXT_OR_COMPLETE, cstr "alt+f"),
        (IC_KEY_ACTION_CURSOR_LINE_START, cstr "home"),
        (IC_KEY_ACTION_CURSOR_LINE_START, cstr "ctrl+a"),
        (IC_KEY_ACTION_CURSOR_LINE_END, cstr "end"),
        (IC_KEY_ACTION_CURSOR_LINE_END, cstr "ctrl+e"),
        (IC_KEY_ACTION_CURSOR_INPUT_START, cstr "ctrl+home"),
        (IC_KEY_ACTION_CURSOR_INPUT_START, cstr "shift+home"),
        (IC_KEY_ACTION_CURSOR_INPUT_START, cstr "pageup"),
        (IC_KEY_ACTION_CURSOR_INPUT_START, cstr "alt+<"),
        (IC_KEY_ACTION_CURSOR_INPUT_END, cstr "ctrl+end"),
        (IC_KEY_ACTION_CURSOR_INPUT_END, cstr "shift+end"),
        (IC_KEY_ACTION_CURSOR_INPUT_END, cstr "pagedown"),
        (IC_KEY_ACTION_CURSOR_INPUT_END, cstr "alt+>"),
        (IC_KEY_ACTION_CURSOR_MATCH_BRACE, cstr "alt+m"),
        (IC_KEY_ACTION_HISTORY_PREV, cstr "ctrl+p"),
        (IC_KEY_ACTION_HISTORY_NEXT, cstr "ctrl+n"),
        (IC_KEY_ACTION_HISTORY_SEARCH, cstr "ctrl+r"),
        (IC_KEY_ACTION_HISTORY_SEARCH, cstr "ctrl+s"),
        (IC_KEY_ACTION_DELETE_FORWARD, cstr "delete"),
        (IC_KEY_ACTION_DELETE_FORWARD, cstr "ctrl+d"),
        (IC_KEY_ACTION_DELETE_BACKWARD, cstr "backspace"),
        (IC_KEY_ACTION_DELETE_BACKWARD, cstr "ctrl+h"),
        (IC_KEY_ACTION_DELETE_WORD_START_WS, cstr "ctrl+w"),
        (IC_KEY_ACTION_DELETE_WORD_START, cstr "alt+backspace"),
        (IC_KEY_ACTION_DELETE_WORD_START, cstr "alt+delete"),
        (IC_KEY_ACTION_DELETE_WORD_END, cstr "alt+d"),
        (IC_KEY_ACTION_DELETE_LINE_START, cstr "ctrl+u"),
        (IC_KEY_ACTION_DELETE_LINE_END, cstr "ctrl+k"),
        (IC_KEY_ACTION_TRANSPOSE_CHARS, cstr "ctrl+t"),
        (IC_KEY_ACTION_CLEAR_SCREEN, cstr "ctrl+l"),
        (IC_KEY_ACTION_UNDO, cstr "ctrl+z"),
        (IC_KEY_ACTION_UNDO, cstr "ctrl+_"),
        (IC_KEY_ACTION_REDO, cstr "ctrl+y"),
        (IC_KEY_ACTION_COMPLETE, cstr "tab"),
        (IC_KEY_ACTION_COMPLETE, cstr "alt+?"),
        (IC_KEY_ACTION_INSERT_NEWLINE, cstr "ctrl+enter"),
        (IC_KEY_ACTION_INSERT_NEWLINE, cstr "ctrl+j") ] := by
  decide

/-- What `ic_parse_key_spec` returns on each alternative. -/
theorem default_specs_parse :
    ic_parse_key_spec (cstr "left") = some 16777218 ∧
    ic_parse_key_spec (cstr "ctrl+b") = some 2 ∧
    ic_parse_key_spec (cstr "right") = some 16777219 ∧
    ic_parse_key_spec (cstr "ctrl+f") = some 6 ∧
    ic_parse_key_spec (cstr "up") = some 16777216 ∧
    ic_parse_key_spec (cstr "down") = some 16777217 ∧
    ic_parse_key_spec (cstr "ctrl+left") = some 1090519042 ∧
    ic_parse_key_spec (cstr "alt+b") = some 536871010 ∧
    ic_parse_key_spec (cstr "ctrl+right") = some 1090519043 ∧
    ic_parse_key_spec (cstr "alt+f") = some 536871014 ∧
    ic_parse_key_spec (cstr "home") = some 16777220 ∧
    ic_parse_key_spec (cstr "ctrl+a") = some 1 ∧
    ic_parse_key_spec (cstr "end") = some 16777221 ∧
    ic_parse_key_spec (cstr "ctrl+e") = some 5 ∧
    ic_parse_key_spec (cstr "ctrl+home") = some 1090519044 ∧
    ic_parse_key_spec (cstr "shift+home") = some 285212676 ∧
    ic_parse_key_spec (cstr "pageup") = some 16777223 ∧
    ic_parse_key_spec (cstr "alt+<") = some 536870972 ∧
    ic_parse_key_spec (cstr "ctrl+end") = some 1090519045 ∧
    ic_parse_key_spec (cstr "shift+end") = some 285212677 ∧
    ic_parse_key_spec (cstr "pagedown") = some 16777224 ∧
    ic_parse_key_spec (cstr "alt+>") = some 536870974 ∧
    ic_parse_key_spec (cstr "alt+m") = some 536871021 ∧
    ic_parse_key_spec (cstr "ctrl+p") = some 16 ∧
    ic_parse_key_spec (cstr "ctrl+n") = some 14 ∧
    ic_parse_key_spec (cstr "ctrl+r") = some 18 ∧
    ic_parse_key_spec (cstr "ctrl+s") = none ∧
    ic_parse_key_spec (cstr "delete") = some 16777222 ∧
    ic_parse_key_spec (cstr "ctrl+d") = some 4 ∧
    ic_parse_key_spec (cstr "backspace") = some 8 ∧
    ic_parse_key_spec (cstr "ctrl+h") = some 8 ∧
    ic_parse_key_spec (cstr "ctrl+w") = some 23 ∧
    ic_parse_key_spec (cstr "alt+backspace") = some 536870920 ∧
    ic_parse_key_spec (cstr "alt+delete") = some 553648134 ∧
    ic_parse_key_spec (cstr "alt+d") = some 536871012 ∧
    ic_parse_key_spec (cstr "ctrl+u") = some 21 ∧
    ic_parse_key_spec (cstr "ctrl+k") = some 11 ∧
    ic_parse_key_spec (cstr "ctrl+t") = some 20 ∧
    ic_parse_key_spec (cstr "ctrl+l") = some 12 ∧
    ic_parse_key_spec (cstr "ctrl+z") = some 26 ∧
    ic_parse_key_spec (cstr "ctrl+_") = some 1073741919 ∧
    ic_parse_key_spec (cstr "ctrl+y") = some 25 ∧
    ic_parse_key_spec (cstr "tab") = some 9 ∧
    ic_parse_key_spec (cstr "alt+?") = some 536870975 ∧
    ic_parse_key_spec (cstr "ctrl+enter") = some 1073741837 ∧
    ic_parse_key_spec (cstr "ctrl+j") = some 10 := by
  repeat' apply And.intro
  all_goals decide

/-- With no binding in the table and a non-empty buffer: for each alternative, whether
it parses and the round for its key runs the operation of its action. -/
theorem default_specs_dispatch (ca cu : Nat → Bool) (env : ic_env_t) (eb : editor_t)
    (r : Bool) (henv : env.key_bindings = []) (hne : eb.input ≠ []) :
    spec_dispatch_agrees ca cu env eb r IC_KEY_ACTION_CURSOR_LEFT (cstr "left") = true ∧
    spec_dispatch_agrees ca cu env eb r IC_KEY_ACTION_CURSOR_LEFT (cstr "ctrl+b") = true ∧
    spec_dispatch_agrees ca cu env eb r IC_KEY_ACTION_CURSOR_RIGHT_OR_COMPLETE (cstr "right") = true ∧
    spec_dispatch_agrees ca cu env eb r IC_KEY_ACTION_CURSOR_RIGHT_OR_COMPLETE (cstr "ctrl+f") = true ∧
    spec_dispatch_agrees ca cu env eb r IC_KEY_ACTION_CURSOR_UP (cstr "up") = true ∧
    spec_dispatch_agrees ca cu env eb r IC_KEY_ACTION_CURSOR_DOWN (cstr "down") = true ∧
    spec_dispatch_agrees ca cu env eb r IC_KEY_ACTION_CURSOR_WORD_PREV (cstr "ctrl+left") = true ∧
    spec_dispatch_agrees ca cu env eb r IC_KEY_ACTION_CURSOR_WORD_PREV (cstr "alt+b") = true ∧
    spec_dispatch_agrees ca cu env eb r IC_KEY_ACTION_CURSOR_WORD_NEXT_OR_COMPLETE (cstr "ctrl+right") = true ∧
    spec_dispatch_agrees ca cu env eb r IC_KEY_ACTION_CURSOR_WORD_NEXT_OR_COMPLETE (cstr "alt+f") = true ∧
    spec_dispatch_agrees ca cu env eb r IC_KEY_ACTION_CURSOR_LINE_START (cstr "home") = true ∧
    spec_dispatch_agrees ca cu env eb r IC_KEY_ACTION_CURSOR_LINE_START (cstr "ctrl+a") = true ∧
    spec_dispatch_agrees ca cu env eb r IC_KEY_ACTION_CURSOR_LINE_END (cstr "end") = true ∧
    spec_dispatch_agrees ca cu env eb r IC_KEY_ACTION_CURSOR_LINE_END (cstr "ctrl+e") = true ∧
    spec_dispatch_agrees ca cu env eb r IC_KEY_ACTION_CURSOR_INPUT_START (cstr "ctrl+home") = true ∧
    spec_dispatch_agrees ca cu env eb r IC_KEY_ACTION_CURSOR_INPUT_START (cstr "shift+home") = true ∧
    spec_dispatch_agrees ca cu env eb r IC_KEY_ACTION_CURSOR_INPUT_START (cstr "pageup") = true ∧
    spec_dispatch_agrees ca cu env eb r IC_KEY_ACTION_CURSOR_INPUT_START (cstr "alt+<") = true ∧
    spec_dispatch_agrees ca cu env eb r IC_KEY_ACTION_CURSOR_INPUT_END (cstr "ctrl+end") = true ∧
    spec_dispatch_agrees ca cu env eb r IC_KEY_ACTION_CURSOR_INPUT_END (cstr "shift+end") = true ∧
    spec_dispatch_agrees ca cu env eb r IC_KEY_ACTION_CURSOR_INPUT_END (cstr "pagedown") = true ∧
    spec_dispatch_agrees ca cu env eb r IC_KEY_ACTION_CURSOR_INPUT_END (cstr "alt+>") = true ∧
    spec_dispatch_agrees ca cu env eb r IC_KEY_ACTION_CURSOR_MATCH_BRACE (cstr "alt+m") = true ∧
    spec_dispatch_agrees ca cu env eb r IC_KEY_ACTION_HISTORY_PREV (cstr "ctrl+p") = true ∧
    spec_dispatch_agrees ca cu env eb r IC_KEY_ACTION_HISTORY_NEXT (cstr "ctrl+n") = true ∧
    spec_dispatch_agrees ca cu env eb r IC_KEY_ACTION_HISTORY_SEARCH (cstr "ctrl+r") = true ∧
    spec_dispatch_agrees ca cu env eb r IC_KEY_ACTION_HISTORY_SEARCH (cstr "ctrl+s") = false ∧
    spec_dispatch_agrees ca cu env eb r IC_KEY_ACTION_DELETE_FORWARD (cstr "delete") = true ∧
    spec_dispatch_agrees ca cu env eb r IC_KEY_ACTION_DELETE_FORWARD (cstr "ctrl+d") = true ∧
    spec_dispatch_agrees ca cu env eb r IC_KEY_ACTION_DELETE_BACKWARD (cstr "backspace") = true ∧
    spec_dispatch_agrees ca cu env eb r IC_KEY_ACTION_DELETE_BACKWARD (cstr "ctrl+h") = true ∧
    spec_dispatch_agrees ca cu env eb r IC_KEY_ACTION_DELETE_WORD_START_WS (cstr "ctrl+w") = true ∧
    spec_dispatch_agrees ca cu env eb r IC_KEY_ACTION_DELETE_WORD_START (cstr "alt+backspace") = true ∧
    spec_dispatch_agrees ca cu env eb r IC_KEY_ACTION_DELETE_WORD_START (cstr "alt+delete") = true ∧
    spec_dispatch_agrees ca cu env eb r IC_KEY_ACTION_DELETE_WORD_END (cstr "alt+d") = true ∧
    spec_dispatch_agrees ca cu env eb r IC_KEY_ACTION_DELETE_LINE_START (cstr "ctrl+u") = true ∧
    spec_dispatch_agrees ca cu env eb r IC_KEY_ACTION_DELETE_LINE_END (cstr "ctrl+k") = true ∧
    spec_dispatch_agrees ca cu env eb r IC_KEY_ACTION_TRANSPOSE_CHARS (cstr "ctrl+t") = true ∧
    spec_dispatch_agrees ca cu env eb r IC_KEY_ACTION_CLEAR_SCREEN (cstr "ctrl+l") = true ∧
    spec_dispatch_agrees ca cu env eb r IC_KEY_ACTION_UNDO (cstr "ctrl+z") = true ∧
    spec_dispatch_agrees ca cu env eb r IC_KEY_ACTION_UNDO (cstr "ctrl+_") = true ∧
    spec_dispatch_agrees ca cu env eb r IC_KEY_ACTION_REDO (cstr "ctrl+y") = true ∧
    spec_dispatch_agrees ca cu env eb r IC_KEY_ACTION_COMPLETE (cstr "tab") = true ∧
    spec_dispatch_agrees ca cu env eb r IC_KEY_ACTION_COMPLETE (cstr "alt+?") = true ∧
    spec_dispatch_agrees ca cu env eb r IC_KEY_ACTION_INSERT_NEWLINE (cstr "ctrl+enter") = false ∧
    spec_dispatch_agrees ca cu env eb r IC_KEY_ACTION_INSERT_NEWLINE (cstr "ctrl+j") = true := by
  obtain ⟨p1, p2, p3, p4, p5, p6, p7, p8, p9, p10, p11, p12, p13, p14, p15, p16, p17, p18, p19, p20,
    p21, p22, p23, p24, p25, p26, p27, p28, p29, p30, p31, p32, p33, p34, p35, p36, p37, p38,
    p39, p40, p41, p42, p43, p44, p45, p46⟩ :=
    default_specs_parse
  have hb : ∀ c, key_binding_execute env eb c = none := by
    intro c
    simp [key_binding_execute, ic_env_t.key_binding_count, henv]
  have hd : ¬(eb.pos = 0 ∧ eb.pos = eb.input.length) := by
    rintro ⟨h0, h1⟩
    rw [h0] at h1
    exact hne (List.length_eq_zero.mp h1.symm)
  repeat' apply And.intro
  all_goals
    simp only [spec_dispatch_agrees, p1, p2, p3, p4, p5, p6, p7, p8, p9, p10, p11, p12, p13, p14, p15, p16, p17, p18, p19, p20,
      p21, p22, p23, p24, p25, p26, p27, p28, p29, p30, p31, p32, p33, p34, p35, p36, p37, p38,
      p39, p40, p41, p42, p43, p44, p45, p46]
  all_goals first
    | (simp [edit_line_key, hb, key_action_execute, edit_line_switch, editor_pos_is_at_end, hd,
      IC_KEY_EVENT_RESIZE, IC_KEY_EVENT_AUTOTAB, IC_KEY_EVENT_BASE, IC_KEY_EVENT_STOP,
      IC_KEY_TAB, IC_KEY_WITH_ALT, IC_KEY_WITH_CTRL, IC_KEY_WITH_SHIFT, IC_KEY_MOD_ALT,
      IC_KEY_MOD_CTRL, IC_KEY_MOD_SHIFT, IC_KEY_CTRL_R, IC_KEY_CTRL_S, IC_KEY_CTRL_P,
      IC_KEY_CTRL_N, IC_KEY_CTRL_L, IC_KEY_CTRL_Z, IC_KEY_CTRL_Y, IC_KEY_F1, IC_KEY_VIRT,
      IC_KEY_LEFT, IC_KEY_CTRL_B, IC_KEY_RIGHT, IC_KEY_CTRL_F, IC_KEY_UP, IC_KEY_DOWN,
      IC_KEY_HOME, IC_KEY_CTRL_A, IC_KEY_END, IC_KEY_CTRL_E, IC_KEY_CTRL_LEFT,
      IC_KEY_CTRL_RIGHT, IC_KEY_CTRL_HOME, IC_KEY_CTRL_END, IC_KEY_PAGEUP, IC_KEY_PAGEDOWN,
      IC_KEY_BACKSP, IC_KEY_DEL, IC_KEY_CTRL_W, IC_KEY_CTRL_U, IC_KEY_CTRL_K, IC_KEY_CTRL_T,
      IC_KEY_SHIFT_TAB, IC_KEY_LINEFEED, IC_KEY_ENTER, IC_KEY_CTRL_D, IC_KEY_CTRL_C,
      IC_KEY_ESC, IC_KEY_BELL,
      IC_KEY_ACTION_CLEAR_SCREEN, IC_KEY_ACTION_COMPLETE, IC_KEY_ACTION_CURSOR_DOWN,
      IC_KEY_ACTION_CURSOR_INPUT_END, IC_KEY_ACTION_CURSOR_INPUT_START,
      IC_KEY_ACTION_CURSOR_LEFT, IC_KEY_ACTION_CURSOR_LINE_END,
      IC_KEY_ACTION_CURSOR_LINE_START, IC_KEY_ACTION_CURSOR_MATCH_BRACE,
      IC_KEY_ACTION_CURSOR_RIGHT_OR_COMPLETE, IC_KEY_ACTION_CURSOR_UP,
      IC_KEY_ACTION_CURSOR_WORD_NEXT_OR_COMPLETE, IC_KEY_ACTION_CURSOR_WORD_PREV,
      IC_KEY_ACTION_DELETE_BACKWARD, IC_KEY_ACTION_DELETE_FORWARD,
      IC_KEY_ACTION_DELETE_LINE_END, IC_KEY_ACTION_DELETE_LINE_START,
      IC_KEY_ACTION_DELETE_WORD_END, IC_KEY_ACTION_DELETE_WORD_START,
      IC_KEY_ACTION_DELETE_WORD_START_WS, IC_KEY_ACTION_HISTORY_NEXT,
      IC_KEY_ACTION_HISTORY_PREV, IC_KEY_ACTION_HISTORY_SEARCH, IC_KEY_ACTION_INSERT_NEWLINE,
      IC_KEY_ACTION_NONE, IC_KEY_ACTION_REDO, IC_KEY_ACTION_SHOW_HELP,
      IC_KEY_ACTION_TRANSPOSE_CHARS, IC_KEY_ACTION_UNDO]; done)
    | (by_cases hpe : eb.pos = eb.input.length <;> simp [hpe, edit_line_key, hb, key_action_execute, edit_line_switch, editor_pos_is_at_end, hd,
      IC_KEY_EVENT_RESIZE, IC_KEY_EVENT_AUTOTAB, IC_KEY_EVENT_BASE, IC_KEY_EVENT_STOP,
      IC_KEY_TAB, IC_KEY_WITH_ALT, IC_KEY_WITH_CTRL, IC_KEY_WITH_SHIFT, IC_KEY_MOD_ALT,
      IC_KEY_MOD_CTRL, IC_KEY_MOD_SHIFT, IC_KEY_CTRL_R, IC_KEY_CTRL_S, IC_KEY_CTRL_P,
      IC_KEY_CTRL_N, IC_KEY_CTRL_L, IC_KEY_CTRL_Z, IC_KEY_CTRL_Y, IC_KEY_F1, IC_KEY_VIRT,
      IC_KEY_LEFT, IC_KEY_CTRL_B, IC_KEY_RIGHT, IC_KEY_CTRL_F, IC_KEY_UP, IC_KEY_DOWN,
      IC_KEY_HOME, IC_KEY_CTRL_A, IC_KEY_END, IC_KEY_CTRL_E, IC_KEY_CTRL_LEFT,
      IC_KEY_CTRL_RIGHT, IC_KEY_CTRL_HOME, IC_KEY_CTRL_END, IC_KEY_PAGEUP, IC_KEY_PAGEDOWN,
      IC_KEY_BACKSP, IC_KEY_DEL, IC_KEY_CTRL_W, IC_KEY_CTRL_U, IC_KEY_CTRL_K, IC_KEY_CTRL_T,
      IC_KEY_SHIFT_TAB, IC_KEY_LINEFEED, IC_KEY_ENTER, IC_KEY_CTRL_D, IC_KEY_CTRL_C,
      IC_KEY_ESC, IC_KEY_BELL,
      IC_KEY_ACTION_CLEAR_SCREEN, IC_KEY_ACTION_COMPLETE, IC_KEY_ACTION_CURSOR_DOWN,
      IC_KEY_ACTION_CURSOR_INPUT_END, IC_KEY_ACTION_CURSOR_INPUT_START,
      IC_KEY_ACTION_CURSOR_LEFT, IC_KEY_ACTION_CURSOR_LINE_END,
      IC_KEY_ACTION_CURSOR_LINE_START, IC_KEY_ACTION_CURSOR_MATCH_BRACE,
      IC_KEY_ACTION_CURSOR_RIGHT_OR_COMPLETE, IC_KEY_ACTION_CURSOR_UP,
      IC_KEY_ACTION_CURSOR_WORD_NEXT_OR_COMPLETE, IC_KEY_ACTION_CURSOR_WORD_PREV,
      IC_KEY_ACTION_DELETE_BACKWARD, IC_KEY_ACTION_DELETE_FORWARD,
      IC_KEY_ACTION_DELETE_LINE_END, IC_KEY_ACTION_DELETE_LINE_START,
      IC_KEY_ACTION_DELETE_WORD_END, IC_KEY_ACTION_DELETE_WORD_START,
      IC_KEY_ACTION_DELETE_WORD_START_WS, IC_KEY_ACTION_HISTORY_NEXT,
      IC_KEY_ACTION_HISTORY_PREV, IC_KEY_ACTION_HISTORY_SEARCH, IC_KEY_ACTION_INSERT_NEWLINE,
      IC_KEY_ACTION_NONE, IC_KEY_ACTION_REDO, IC_KEY_ACTION_SHOW_HELP,
      IC_KEY_ACTION_TRANSPOSE_CHARS, IC_KEY_ACTION_UNDO]; done)
    | (cases hs : env.singleline_only <;> cases h1 : ca 1073741837 <;>
        cases h2 : cu 1073741837 <;> simp [hs, h1, h2, edit_line_key, hb, key_action_execute, edit_line_switch, editor_pos_is_at_end, hd,
      IC_KEY_EVENT_RESIZE, IC_KEY_EVENT_AUTOTAB, IC_KEY_EVENT_BASE, IC_KEY_EVENT_STOP,
      IC_KEY_TAB, IC_KEY_WITH_ALT, IC_KEY_WITH_CTRL, IC_KEY_WITH_SHIFT, IC_KEY_MOD_ALT,
      IC_KEY_MOD_CTRL, IC_KEY_MOD_SHIFT, IC_KEY_CTRL_R, IC_KEY_CTRL_S, IC_KEY_CTRL_P,
      IC_KEY_CTRL_N, IC_KEY_CTRL_L, IC_KEY_CTRL_Z, IC_KEY_CTRL_Y, IC_KEY_F1, IC_KEY_VIRT,
      IC_KEY_LEFT, IC_KEY_CTRL_B, IC_KEY_RIGHT, IC_KEY_CTRL_F, IC_KEY_UP, IC_KEY_DOWN,
      IC_KEY_HOME, IC_KEY_CTRL_A, IC_KEY_END, IC_KEY_CTRL_E, IC_KEY_CTRL_LEFT,
      IC_KEY_CTRL_RIGHT, IC_KEY_CTRL_HOME, IC_KEY_CTRL_END, IC_KEY_PAGEUP, IC_KEY_PAGEDOWN,
      IC_KEY_BACKSP, IC_KEY_DEL, IC_KEY_CTRL_W, IC_KEY_CTRL_U, IC_KEY_CTRL_K, IC_KEY_CTRL_T,
      IC_KEY_SHIFT_TAB, IC_KEY_LINEFEED, IC_KEY_ENTER, IC_KEY_CTRL_D, IC_KEY_CTRL_C,
      IC_KEY_ESC, IC_KEY_BELL,
      IC_KEY_ACTION_CLEAR_SCREEN, IC_KEY_ACTION_COMPLETE, IC_KEY_ACTION_CURSOR_DOWN,
      IC_KEY_ACTION_CURSOR_INPUT_END, IC_KEY_ACTION_CURSOR_INPUT_START,
      IC_KEY_ACTION_CURSOR_LEFT, IC_KEY_ACTION_CURSOR_LINE_END,
      IC_KEY_ACTION_CURSOR_LINE_START, IC_KEY_ACTION_CURSOR_MATCH_BRACE,
      IC_KEY_ACTION_CURSOR_RIGHT_OR_COMPLETE, IC_KEY_ACTION_CURSOR_UP,
      IC_KEY_ACTION_CURSOR_WORD_NEXT_OR_COMPLETE, IC_KEY_ACTION_CURSOR_WORD_PREV,
      IC_KEY_ACTION_DELETE_BACKWARD, IC_KEY_ACTION_DELETE_FORWARD,
      IC_KEY_ACTION_DELETE_LINE_END, IC_KEY_ACTION_DELETE_LINE_START,
      IC_KEY_ACTION_DELETE_WORD_END, IC_KEY_ACTION_DELETE_WORD_START,
      IC_KEY_ACTION_DELETE_WORD_START_WS, IC_KEY_ACTION_HISTORY_NEXT,
      IC_KEY_ACTION_HISTORY_PREV, IC_KEY_ACTION_HISTORY_SEARCH, IC_KEY_ACTION_INSERT_NEWLINE,
      IC_KEY_ACTION_NONE, IC_KEY_ACTION_REDO, IC_KEY_ACTION_SHOW_HELP,
      IC_KEY_ACTION_TRANSPOSE_CHARS, IC_KEY_ACTION_UNDO])


/-- C22, the code: with an empty binding table and a non-empty buffer, 44 of the 46
alternatives of the spec strings of the default profile parse to a key for which the
round of the editor loop runs the operation of their action; the other two do not.
`ctrl+s` (history-search) is not accepted by `ic_parse_key_spec`, and `ctrl+enter`
(insert-newline) parses to Enter with the Ctrl flag, which is no case of the hardcoded
dispatch: that key inserts no newline. -/
theorem default_specs_against_dispatch (ca cu : Nat → Bool) (env : ic_env_t) (eb : editor_t)
    (r : Bool) (henv : env.key_bindings = []) (hne : eb.input ≠ []) :
    default_spec_alternatives.filter
        (fun p => !(spec_dispatch_agrees ca cu env eb r p.1 p.2))
      = [(IC_KEY_ACTION_HISTORY_SEARCH, cstr "ctrl+s"),
         (IC_KEY_ACTION_INSERT_NEWLINE, cstr "ctrl+enter")] ∧
    ic_parse_key_spec (cstr "ctrl+s") = none ∧
    ic_parse_key_spec (cstr "ctrl+r") = some IC_KEY_CTRL_R ∧
    ic_parse_key_spec (cstr "ctrl+j") = some IC_KEY_LINEFEED ∧
    ic_parse_key_spec (cstr "ctrl+enter") = some (IC_KEY_WITH_CTRL IC_KEY_ENTER) ∧
    edit_line_key ca cu env eb r (IC_KEY_WITH_CTRL IC_KEY_ENTER)
      ≠ .hardcoded (.edit_insert_char 10) := by
  obtain ⟨f1, f2, f3, f4, f5, f6, f7, f8, f9, f10, f11, f12, f13, f14, f15, f16, f17, f18, f19, f20,
    f21, f22, f23, f24, f25, f26, f27, f28, f29, f30, f31, f32, f33, f34, f35, f36, f37, f38,
    f39, f40, f41, f42, f43, f44, f45, f46⟩ :=
    default_specs_dispatch ca cu env eb r henv hne
  refine ⟨?_, by decide, by decide, by decide, by decide, ?_⟩
  · rw [default_spec_alternatives_eq]
    simp [List.filter, f1, f2, f3, f4, f5, f6, f7, f8, f9, f10, f11, f12, f13, f14, f15, f16,
      f17, f18, f19, f20,
      f21, f22, f23, f24, f25, f26, f27, f28, f29, f30, f31, f32, f33, f34, f35, f36, f37, f38,
      f39, f40, f41, f42, f43, f44, f45, f46]
  · have hb : ∀ c, key_binding_execute env eb c = none := by
      intro c
      simp [key_binding_execute, ic_env_t.key_binding_count, henv]
    cases h1 : ca 1073741837 <;> cases h2 : cu 1073741837 <;>
      simp [h1, h2, edit_line_key, hb, edit_line_switch,
        IC_KEY_EVENT_RESIZE, IC_KEY_EVENT_AUTOTAB, IC_KEY_EVENT_BASE, IC_KEY_EVENT_STOP,
        IC_KEY_TAB, IC_KEY_WITH_ALT, IC_KEY_WITH_CTRL, IC_KEY_WITH_SHIFT, IC_KEY_MOD_ALT,
        IC_KEY_MOD_CTRL, IC_KEY_MOD_SHIFT, IC_KEY_CTRL_R, IC_KEY_CTRL_S, IC_KEY_CTRL_P,
        IC_KEY_CTRL_N, IC_KEY_CTRL_L, IC_KEY_CTRL_Z, IC_KEY_CTRL_Y, IC_KEY_F1, IC_KEY_VIRT,
        IC_KEY_LEFT, IC_KEY_CTRL_B, IC_KEY_RIGHT, IC_KEY_CTRL_F, IC_KEY_UP, IC_KEY_DOWN,
        IC_KEY_HOME, IC_KEY_CTRL_A, IC_KEY_END, IC_KEY_CTRL_E, IC_KEY_CTRL_LEFT,
        IC_KEY_CTRL_RIGHT, IC_KEY_CTRL_HOME, IC_KEY_CTRL_END, IC_KEY_PAGEUP, IC_KEY_PAGEDOWN,
        IC_KEY_BACKSP, IC_KEY_DEL, IC_KEY_CTRL_W, IC_KEY_CTRL_U, IC_KEY_CTRL_K, IC_KEY_CTRL_T,
        IC_KEY_SHIFT_TAB, IC_KEY_LINEFEED, IC_KEY_ENTER, IC_KEY_CTRL_D, IC_KEY_CTRL_C,
        IC_KEY_ESC, IC_KEY_BELL,
        IC_KEY_ACTION_CLEAR_SCREEN, IC_KEY_ACTION_COMPLETE, IC_KEY_ACTION_CURSOR_DOWN,
        IC_KEY_ACTION_CURSOR_INPUT_END, IC_KEY_ACTION_CURSOR_INPUT_START,
        IC_KEY_ACTION_CURSOR_LEFT, IC_KEY_ACTION_CURSOR_LINE_END,
        IC_KEY_ACTION_CURSOR_LINE_START, IC_KEY_ACTION_CURSOR_MATCH_BRACE,
        IC_KEY_ACTION_CURSOR_RIGHT_OR_COMPLETE, IC_KEY_ACTION_CURSOR_UP,
        IC_KEY_ACTION_CURSOR_WORD_NEXT_OR_COMPLETE, IC_KEY_ACTION_CURSOR_WORD_PREV,
        IC_KEY_ACTION_DELETE_BACKWARD, IC_KEY_ACTION_DELETE_FORWARD,
        IC_KEY_ACTION_DELETE_LINE_END, IC_KEY_ACTION_DELETE_LINE_START,
        IC_KEY_ACTION_DELETE_WORD_END, IC_KEY_ACTION_DELETE_WORD_START,
        IC_KEY_ACTION_DELETE_WORD_START_WS, IC_KEY_ACTION_HISTORY_NEXT,
        IC_KEY_ACTION_HISTORY_PREV, IC_KEY_ACTION_HISTORY_SEARCH, IC_KEY_ACTION_INSERT_NEWLINE,
        IC_KEY_ACTION_NONE, IC_KEY_ACTION_REDO, IC_KEY_ACTION_SHOW_HELP,
        IC_KEY_ACTION_TRANSPOSE_CHARS, IC_KEY_ACTION_UNDO]

/-- C22 on the fresh environment and the buffer `ab` with the cursor after `a`. -/
theorem default_specs_against_dispatch_witness :
    (ic_env_create (fun _ => true)).key_bindings = [] ∧ cstr "ab" ≠ [] ∧
    default_spec_alternatives.filter
        (fun p => !(spec_dispatch_agrees sample_deps.code_is_ascii_char
          sample_deps.code_is_unicode (ic_env_create (fun _ => true))
          { input := cstr "ab", pos := 1 } true p.1 p.2))
      = [(IC_KEY_ACTION_HISTORY_SEARCH, cstr "ctrl+s"),
         (IC_KEY_ACTION_INSERT_NEWLINE, cstr "ctrl+enter")] :=
  ⟨rfl, by decide,
    (default_specs_against_dispatch sample_deps.code_is_ascii_char sample_deps.code_is_unicode
      (ic_env_create (fun _ => true)) { input := cstr "ab", pos := 1 } true rfl
      (by decide)).1⟩

/-! ### Formatting a key and parsing the text again -/

set_option maxRecDepth 20000 in
theorem named_bases_round_trip :
    ∀ q ∈ List.range 8, ∀ b ∈ named_bases,
      format_parse_round_trip (2 ^ 28 * q ||| b) = round_trip_key (2 ^ 28 * q ||| b) := by
  decide

/-- On the keys made of three flag bits and a base with a name, the text of
`ic_format_key_spec` parses back to the key exactly for the keys of `round_trip_key`. -/
theorem named_keys_round_trip :
    ∀ k ∈ named_keys, format_parse_round_trip k = round_trip_key k := by
  intro k hk
  simp only [named_keys, List.mem_flatMap, List.mem_map] at hk
  obtain ⟨q, hq, b, hb, rfl⟩ := hk
  exact named_bases_round_trip q hq b hb

theorem round_trip_key_mem (k : Nat) (h : round_trip_key k = true) : k ∈ named_keys := by
  unfold round_trip_key at h
  simp only [Bool.and_eq_true, Bool.or_eq_true, decide_eq_true_eq] at h
  obtain ⟨hlt, hk⟩ := h
  have hr : IC_KEY_NO_MODS k = k % 2 ^ 28 := by
    have := Nat.and_pow_two_sub_one_eq_mod k 28
    simpa [IC_KEY_NO_MODS] using this
  have hdec : 2 ^ 28 * (k / 2 ^ 28) ||| (k % 2 ^ 28) = k := by
    rw [← Nat.mul_add_lt_is_or (Nat.mod_lt _ (by norm_num))]
    exact Nat.div_add_mod k _
  have hq : k / 2 ^ 28 < 8 := by omega
  have hb : k % 2 ^ 28 ∈ named_bases := by
    simp only [named_bases, List.mem_append, List.mem_range'_1, IC_KEY_VIRT, IC_KEY_F1]
    rcases hk with hk | hk
    · left; left; omega
    · rw [hr] at hk
      simp only [round_trip_base, decide_eq_true_eq, IC_KEY_TAB, IC_KEY_ENTER, IC_KEY_LINEFEED,
        IC_KEY_BACKSP, IC_KEY_ESC, IC_KEY_UP, IC_KEY_INS, IC_KEY_F1, IC_KEY_VIRT] at hk
      omega
  simp only [named_keys, List.mem_flatMap, List.mem_map, List.mem_range]
  exact ⟨k / 2 ^ 28, hq, k % 2 ^ 28, hb, hdec⟩


theorem append_token_mono (n m : Nat) (fs fs1 : format_state) (t : List Nat)
    (h : append_token n fs t = some fs1) (hnm : n ≤ m) : append_token m fs t = some fs1 := by
  unfold append_token at h ⊢
  dsimp only at h ⊢
  by_cases hc : fs.buffer.length + (if fs.first then 0 else 1) + t.length + 1 > n
  · rw [if_pos hc] at h
    cases h
  · rw [if_neg hc] at h
    rw [if_neg (by omega)]
    exact h

theorem append_token_if_mono (n m : Nat) (c : Prop) [Decidable c] (fs fs1 : format_state)
    (t : List Nat) (h : (if c then append_token n fs t else some fs) = some fs1) (hnm : n ≤ m) :
    (if c then append_token m fs t else some fs) = some fs1 := by
  split at h
  · rw [if_pos (by assumption)]
    exact append_token_mono n m fs fs1 t h hnm
  · rw [if_neg (by assumption)]
    exact h

/-- A larger buffer changes nothing: when `ic_format_key_spec` succeeds in a buffer of
`n` bytes, it returns the same in every buffer of at least `n` bytes. -/
theorem ic_format_key_spec_mono (k n m : Nat) (h : (ic_format_key_spec k n).1 = true)
    (hnm : n ≤ m) : ic_format_key_spec k m = ic_format_key_spec k n := by
  unfold ic_format_key_spec at h ⊢
  by_cases hn : n = 0
  · simp [hn] at h
  have hm : m ≠ 0 := by omega
  simp only [hn, hm, if_false] at h ⊢
  generalize (decide ((IC_KEY_MODS k &&& IC_KEY_MOD_CTRL) = 0 ∧ k ≥ IC_KEY_CTRL_A
    ∧ k ≤ IC_KEY_CTRL_Z)) = imp at h ⊢
  cases h1 : (if IC_KEY_MODS k &&& IC_KEY_MOD_CTRL ≠ 0 ∨ imp = true then
      append_token n { first := true, buffer := [] } (cstr "ctrl")
    else some { first := true, buffer := [] }) with
  | none => simp [h1] at h
  | some fs1 =>
    rw [append_token_if_mono n m _ _ _ _ h1 hnm]
    rw [h1] at h
    dsimp only at h ⊢
    cases h2 : (if IC_KEY_MODS k &&& IC_KEY_MOD_ALT ≠ 0 then append_token n fs1 (cstr "alt")
      else some fs1) with
    | none => simp [h2] at h
    | some fs2 =>
      rw [append_token_if_mono n m _ _ _ _ h2 hnm]
      rw [h2] at h
      dsimp only at h ⊢
      cases h3 : (if IC_KEY_MODS k &&& IC_KEY_MOD_SHIFT ≠ 0 then
          append_token n fs2 (cstr "shift") else some fs2) with
      | none => simp [h3] at h
      | some fs3 =>
        rw [append_token_if_mono n m _ _ _ _ h3 hnm]
        rw [h3] at h
        dsimp only at h ⊢
        cases hbn : format_base_name imp (if imp = true then k else IC_KEY_NO_MODS k) with
        | none => simp [hbn] at h
        | some base_name =>
          rw [hbn] at h
          dsimp only at h ⊢
          cases h4 : (if base_name ≠ [] then append_token n fs3 base_name else some fs3) with
          | none => simp [h4] at h
          | some fs4 =>
            rw [append_token_if_mono n m _ _ _ _ h4 hnm]
            rw [h4] at h
            dsimp only at h ⊢
            cases hf : fs4.first with
            | false => simp [hf]
            | true =>
              simp only [hf, if_true] at h ⊢
              cases h5 : append_token n fs4 (cstr "none") with
              | none => simp [h5] at h
              | some fs5 =>
                rw [append_token_mono n m _ _ _ h5 hnm]


/-- C26 as stated fails: the key `A` (65) formats as `A`, which parses to `a` (97); the
key `a` with the Ctrl flag formats as `ctrl+a`, which parses to the control code 1; the
key `+` formats as `+` and the Alt flag alone as `alt`, which do not parse. -/
theorem format_then_parse_loses_key :
    ic_format_key_spec 65 64 = (true, cstr "A") ∧ ic_parse_key_spec (cstr "A") = some 97 ∧
    ic_format_key_spec (IC_KEY_WITH_CTRL 97) 64 = (true, cstr "ctrl+a") ∧
    ic_parse_key_spec (cstr "ctrl+a") = some IC_KEY_CTRL_A ∧
    ic_format_key_spec 43 64 = (true, cstr "+") ∧ ic_parse_key_spec (cstr "+") = none ∧
    ic_format_key_spec IC_KEY_MOD_ALT 64 = (true, cstr "alt") ∧
    ic_parse_key_spec (cstr "alt") = none := by
  decide

/-- C26, amended: for every key code below `2^31` that is a control code 1..26 other
than Ctrl+C and Ctrl+S, or whose base is tab, enter, linefeed, backspace, esc, a virtual
key up .. insert, F1 .. F24 or a printable ASCII character other than `+`, `-`, an
upper-case letter, `c`, `s` and (under the Ctrl flag) a lower-case letter,
`ic_format_key_spec` succeeds in a buffer of 64 bytes, and whenever it succeeds in a
buffer of any size the text it leaves is not `none` and `ic_parse_key_spec` returns the
key for it. Among the keys made of the three flags and a base with a name these are
the only ones for which it does. -/
theorem format_then_parse_gives_key :
    (∀ k buflen : Nat, round_trip_key k = true → (ic_format_key_spec k buflen).1 = true →
      (ic_format_key_spec k 64).1 = true ∧
      (ic_format_key_spec k buflen).2 ≠ cstr "none" ∧
      ic_parse_key_spec (ic_format_key_spec k buflen).2 = some k) ∧
    (∀ k ∈ named_keys, format_parse_round_trip k = round_trip_key k) := by
  refine ⟨?_, named_keys_round_trip⟩
  intro k buflen hk hf
  have h64 : format_parse_round_trip k = true := by
    rw [named_keys_round_trip k (round_trip_key_mem k hk)]
    exact hk
  unfold format_parse_round_trip at h64
  simp only [Bool.and_eq_true, bne_iff_ne, ne_eq, beq_iff_eq] at h64
  obtain ⟨⟨h1, h2⟩, h3⟩ := h64
  have he : ic_format_key_spec k buflen = ic_format_key_spec k 64 := by
    rcases Nat.le_total buflen 64 with hle | hle
    · exact (ic_format_key_spec_mono k buflen 64 hf hle).symm
    · exact ic_format_key_spec_mono k 64 buflen h1 hle
  rw [he]
  exact ⟨h1, h2, h3⟩

/-- C26 amended on Alt+Shift+F12 in a buffer of 20 bytes and on Ctrl+Z. -/
theorem format_then_parse_gives_key_witness :
    ic_format_key_spec (IC_KEY_WITH_ALT (IC_KEY_WITH_SHIFT IC_KEY_F12)) 20
      = (true, cstr "alt+shift+f12") ∧
    ic_parse_key_spec (ic_format_key_spec (IC_KEY_WITH_ALT (IC_KEY_WITH_SHIFT IC_KEY_F12)) 20).2
      = some (IC_KEY_WITH_ALT (IC_KEY_WITH_SHIFT IC_KEY_F12)) ∧
    IC_KEY_CTRL_Z ∈ named_keys ∧
    format_parse_round_trip IC_KEY_CTRL_Z = round_trip_key IC_KEY_CTRL_Z :=
  ⟨by decide,
   ((format_then_parse_gives_key).1 (IC_KEY_WITH_ALT (IC_KEY_WITH_SHIFT IC_KEY_F12)) 20
      (by decide) (by decide)).2.2,
   by decide,
   (format_then_parse_gives_key).2 IC_KEY_CTRL_Z (by decide)⟩

/-! ### The inline right text -/

end Isocline
